import Mathlib

/-!
# Collision subsystem of Bermuda: a shallow embedding

The definitions below follow `src/systems/collisions/collision_system.cpp`
function by function.  The registry is an explicit state value; a function that
can hit a failed `get()` assertion returns `Option`, `none` standing for the
assertion failure.  Floats are modelled by exact rationals.
-/

namespace Bermuda

/-! ## Data model -/

/-- Opaque entity identifier (`Entity` wraps an unsigned id). -/
abbrev Entity := Nat

/-- The glm `vec2`, over exact rationals. -/
structure vec2 where
  x : Rat
  y : Rat
deriving DecidableEq, Repr

/-- The glm `vec4`; `v0` .. `v3` are the components `[0]` .. `[3]`. -/
structure vec4 where
  v0 : Rat
  v1 : Rat
  v2 : Rat
  v3 : Rat
deriving DecidableEq, Repr

namespace vec2

def zero : vec2 := ⟨0, 0⟩

def sub (a b : vec2) : vec2 := ⟨a.x - b.x, a.y - b.y⟩

def smul (k : Rat) (a : vec2) : vec2 := ⟨k * a.x, k * a.y⟩

def dot (a b : vec2) : Rat := a.x * b.x + a.y * b.y

end vec2

/-- Modelled from the spec: the declaration of Position is not in src.  Section
3: 2D translation, rotation angle and 2D scale; the field names are the ones
`collision_system.cpp` uses. -/
structure Position where
  position : vec2
  angle : Rat
  scale : vec2
deriving DecidableEq, Repr

/-- Modelled from the spec: the declaration of Motion is not in src.  Section 3:
velocity and acceleration vectors. -/
structure Motion where
  velocity : vec2
  acceleration : vec2
deriving DecidableEq, Repr

/-- Modelled from the spec: the declaration of Collision is not in src.  Section
3: a record is the pair (entity, other entity); the row key is the entity and
the payload is `other`, as `collision_resolution` reads them. -/
structure Collision where
  other : Entity
deriving DecidableEq, Repr

/-- Modelled from the spec: the enumeration is not in src; section 3 lists the
behaviour types of a projectile. -/
inductive PROJECTILES where
  | HARPOON
  | NET
  | CONCUSSIVE
  | TORPEDO
  | SHRIMP
deriving DecidableEq, Repr

/-- Modelled from the spec: the enumeration is not in src; one slot per
consumable counter of the HUD. -/
inductive INVENTORY where
  | HARPOON
  | NET
  | CONCUSSIVE
  | TORPEDO
  | SHRIMP
deriving DecidableEq, Repr

/-- PlayerProjectile component (`player.hpp`, plus the `is_flipped` flag that
`detectAndResolveConeAOE` reads). -/
structure PlayerProjectile where
  is_loaded : Bool
  type : PROJECTILES
  is_flipped : Bool
deriving DecidableEq, Repr

/-- Player component; only the field the collision system reads (the
`collisionMesh` sub-entity of section 4.4, absent from the `player.hpp` in src). -/
structure Player where
  collisionMesh : Entity
deriving DecidableEq, Repr

/-- Modelled from the spec: the declaration is not in src; the attack cooldown
read by `detectPlayerCollisions`. -/
structure ModifyOxygenCD where
  curr_cd : Rat
deriving DecidableEq, Repr

/-- Modelled from the spec: the declaration is not in src.  Section 3: scalar
mass. -/
structure Mass where
  mass : Rat
deriving DecidableEq, Repr

/-- Modelled from the spec: the declaration is not in src.  Section 3: AI
tracking state with an active flag. -/
structure TracksPlayer where
  active_track : Bool
deriving DecidableEq, Repr

/-- Modelled from the spec: the declaration is not in src.  Section 3: the
radius used by explosion resolution. -/
structure AreaOfEffect where
  radius : Rat
deriving DecidableEq, Repr

/-- Modelled from the spec: the enumeration is not in src; the two sounds the
collision system requests. -/
inductive SOUND_ASSET_ID where
  | EXPLOSION
  | DOOR
deriving DecidableEq, Repr

/-- Modelled from the spec: the declaration is not in src; a sound request
attached to an entity. -/
structure Sound where
  id : SOUND_ASSET_ID
deriving DecidableEq, Repr

/-- Modelled from the spec: the declaration of DoorConnection is not in src; the
spec only says that a door carries a DoorConnection describing the target room,
so it is an opaque identifier here. -/
structure DoorConnection where
  target : Nat
deriving DecidableEq, Repr

/-- Modelled from the spec: the declaration is not in src.  Section 4.5: the
transient room-transition entity carries the destination connection of the
door. -/
structure RoomTransition where
  door_connection : DoorConnection
deriving DecidableEq, Repr

/-- Inventory component (`player.hpp`). -/
structure Inventory where
  nets : Nat
  concussors : Nat
  torpedos : Nat
  shrimp : Nat
  keys : Nat
deriving DecidableEq, Repr

/-- Modelled from the spec: the enumeration is not in src; `SHARKMAN` is the
archetype `resolveWallEnemyCollision` special-cases. -/
inductive BossType where
  | KRAB_BOSS
  | SHARKMAN
deriving DecidableEq, Repr

/-- Modelled from the spec: the declaration is not in src; the fields are the
ones `resolveWallEnemyCollision` reads and writes. -/
structure Boss where
  type : BossType
  curr_cd : Rat
deriving DecidableEq, Repr

/-! ## Entity store -/

/-- Modelled from the spec: `tiny_ecs.hpp` is not in src.  Section 4.1: a
table associates components to entities, iteration follows insertion order,
`has` is total, `get` fails when absent, `remove` is a no-op when absent and
otherwise swaps the last row into the freed slot.  A table is the list of its
rows (the parallel `entities` / `components` vectors). -/
abbrev ComponentContainer (T : Type) := List (Entity × T)

namespace ComponentContainer

variable {T : Type}

/-- The `entities` vector of the table. -/
def entities (c : ComponentContainer T) : List Entity := c.map Prod.fst

/-- Total lookup: `get(e)`, `none` when the entity has no row. -/
def get : ComponentContainer T → Entity → Option T
  | [], _ => none
  | (k, v) :: rest, e => if k = e then some v else get rest e

def has (c : ComponentContainer T) (e : Entity) : Bool := (c.get e).isSome

def size (c : ComponentContainer T) : Nat := c.length

/-- Writing through the reference returned by `get(e)`. -/
def update : ComponentContainer T → Entity → (T → T) → ComponentContainer T
  | [], _, _ => []
  | (k, v) :: rest, e, f => if k = e then (k, f v) :: rest else (k, v) :: update rest e f

/-- Checked insert: fails (assertion) when the entity already has a row. -/
def insert (c : ComponentContainer T) (e : Entity) (v : T) : Option (ComponentContainer T) :=
  if c.has e then none else some (c ++ [(e, v)])

/-- Unchecked insert used for collision records: always appends. -/
def emplace_with_duplicates (c : ComponentContainer T) (e : Entity) (v : T) :
    ComponentContainer T :=
  c ++ [(e, v)]

/-- Swap-with-last removal of the row of `e`; no-op when absent. -/
def remove (c : ComponentContainer T) (e : Entity) : ComponentContainer T :=
  match c.findIdx? (fun p => decide (p.1 = e)), c.getLast? with
  | some i, some last => (c.set i last).dropLast
  | _, _ => c

end ComponentContainer

/-- Calls into collaborators that are outside the collision system. -/
inductive Call where
  | modifyOxygen (entity other : Entity)
  | modifyOxygenAmount (entity : Entity) (amount : Rat)
  | addDamageIndicatorTimer (entity : Entity)
  | handle_debuffs (entity other : Entity)
  | handle_consumable_collisions (player consumable : Entity)
  | destroyGunOrProjectile (entity : Entity)
  | doWeaponSwap (proj gun : Entity) (type : PROJECTILES)
  | changeSelectedCounterColour (slot : INVENTORY)
  | removeFromAI (entity : Entity)
  | addSharkmanWander
  | choose_new_direction (enemy wall : Entity)
deriving DecidableEq, Repr

/-- The registry tables `collision_system.cpp` touches (the `ECSRegistry` header
in src predates several of them), the globals it reads and writes (`main.cpp`;
`transitioning` is the flag `resolveDoorPlayerCollision` assigns and
`room_transitioning` the one the frame driver reads), the entity id counter
behind `Entity()` and the trace of calls made to collaborators. -/
structure Registry where
  motions : ComponentContainer Motion
  positions : ComponentContainer Position
  collisions : ComponentContainer Collision
  deathTimers : ComponentContainer Unit
  players : ComponentContainer Player
  playerProjectiles : ComponentContainer PlayerProjectile
  inventory : ComponentContainer Inventory
  deadlys : ComponentContainer Unit
  enemyProjectiles : ComponentContainer Unit
  modifyOxygenCd : ComponentContainer ModifyOxygenCD
  actsAsProjectile : ComponentContainer Unit
  trackPlayer : ComponentContainer TracksPlayer
  bosses : ComponentContainer Boss
  activeWalls : ComponentContainer Unit
  activeDoors : ComponentContainer Unit
  breakables : ComponentContainer Unit
  masses : ComponentContainer Mass
  doorConnections : ComponentContainer DoorConnection
  roomTransitions : ComponentContainer RoomTransition
  interactable : ComponentContainer Unit
  consumables : ComponentContainer Unit
  aoe : ComponentContainer AreaOfEffect
  sounds : ComponentContainer Sound
  player : Entity
  player_weapon : Entity
  player_projectile : Entity
  harpoon : Entity
  harpoon_gun : Entity
  wep_type : PROJECTILES
  rt_entity : Entity
  transitioning : Bool
  room_transitioning : Bool
  id_count : Nat
  calls : List Call
deriving Repr

/-- Collaborator code that is not in src and is taken as a parameter: the
spatial predicates of the physics system, the AI query `is_tracking`, the
square root and the sharkman constants. -/
structure Ext where
  box_collides : Position → Position → Bool
  circle_collides : Position → Position → Bool
  circle_box_collides : Position → Rat → Position → Bool
  mesh_collides : Registry → Entity → Entity → Bool
  is_tracking : Registry → Entity → Bool
  sqrt : Rat → Rat
  SHARKMAN_SELF_DMG : Rat
  SHARKMAN_MS_INC : Rat
  SHARKMAN_AI_CD : Rat

/-! ## Spatial predicates -/

/-- Modelled from the spec: `get_bounds` is not in src.  Section 3 says the
scale encodes the axis-aligned bounding extents, and `resolveStopOnWall` reads
the result as (left, right, top, bottom): the box is centred on the translation
and its extents are the absolute values of the scale. -/
def get_bounds (p : Position) : vec4 :=
  ⟨p.position.x - |p.scale.x| / 2, p.position.x + |p.scale.x| / 2,
   p.position.y - |p.scale.y| / 2, p.position.y + |p.scale.y| / 2⟩

/-- Modelled from the spec: `box_collides` is not in src.  Section 4.2: true if
the axis-aligned rectangles of the two positions overlap on both axes. -/
def box_collides (a b : Position) : Bool :=
  decide ((get_bounds a).v0 < (get_bounds b).v1) && decide ((get_bounds b).v0 < (get_bounds a).v1) &&
  decide ((get_bounds a).v2 < (get_bounds b).v3) && decide ((get_bounds b).v2 < (get_bounds a).v3)

/-- Modelled from the spec: `circle_collides` is not in src.  Section 4.2: true
if the distance between the centres is less than the sum of the derived radii;
the radius is taken to be half the larger extent, and the comparison is made on
squares. -/
def circle_collides (a b : Position) : Bool :=
  let ra := max |a.scale.x| |a.scale.y| / 2
  let rb := max |b.scale.x| |b.scale.y| / 2
  let d := vec2.sub a.position b.position
  decide (vec2.dot d d < (ra + rb) * (ra + rb))

/-- Modelled from the spec: `circle_box_collides` is not in src.  Section 4.2:
true if the circle of the given radius around the centre intersects the
axis-aligned box of the other position (distance from the centre to the closest
point of the box, compared on squares). -/
def circle_box_collides (center : Position) (radius : Rat) (box : Position) : Bool :=
  let b := get_bounds box
  let cx := max b.v0 (min center.position.x b.v1)
  let cy := max b.v2 (min center.position.y b.v3)
  let d : vec2 := ⟨center.position.x - cx, center.position.y - cy⟩
  decide (vec2.dot d d ≤ radius * radius)

/-! ## Collision detection -/

/-- The two `emplace_with_duplicates` calls that record a pair in both
directions. -/
def recordPair (entity_i entity_j : Entity) (r : Registry) : Registry :=
  let c1 := r.collisions.emplace_with_duplicates entity_i ⟨entity_j⟩
  let c2 := c1.emplace_with_duplicates entity_j ⟨entity_i⟩
  { r with collisions := c2 }

def checkBoxCollision (ext : Ext) (entity_i entity_j : Entity) (r : Registry) :
    Option (Bool × Registry) :=
  if !r.positions.has entity_i || !r.positions.has entity_j then some (false, r)
  else
    match r.positions.get entity_i, r.positions.get entity_j with
    | some position_i, some position_j =>
      if ext.box_collides position_i position_j then some (true, recordPair entity_i entity_j r)
      else some (false, r)
    | _, _ => none

def checkPlayerMeshCollision (ext : Ext) (entity_i entity_j collisionMesh : Entity)
    (r : Registry) : Option (Bool × Registry) :=
  if !r.positions.has entity_i || !r.positions.has entity_j then some (false, r)
  else
    match r.positions.get entity_i, r.positions.get entity_j with
    | some position_i, some position_j =>
      if ext.box_collides position_i position_j then
        if ext.mesh_collides r collisionMesh entity_j then
          some (true, recordPair entity_i entity_j r)
        else some (false, r)
      else some (false, r)
    | _, _ => none

def checkCircleCollision (ext : Ext) (entity_i entity_j : Entity) (r : Registry) :
    Option (Bool × Registry) :=
  if !r.positions.has entity_i || !r.positions.has entity_j then some (false, r)
  else
    match r.positions.get entity_i, r.positions.get entity_j with
    | some position_i, some position_j =>
      if ext.circle_collides position_i position_j then
        some (true, recordPair entity_i entity_j r)
      else some (false, r)
    | _, _ => none

/-- A `for` loop over the entities of a table whose rows the body does not
change: the body runs once per entity, in table order. -/
def forEachEntity (body : Entity → Registry → Option Registry) :
    List Entity → Registry → Option Registry
  | [], r => some r
  | e :: es, r => (body e r).bind (forEachEntity body es)

/-- Same, for a loop that also reads the component at the loop index. -/
def forEachRow {T : Type} (body : Entity × T → Registry → Option Registry) :
    List (Entity × T) → Registry → Option Registry
  | [], r => some r
  | e :: es, r => (body e r).bind (forEachRow body es)

def isSingleTarget (t : PROJECTILES) : Bool :=
  t == PROJECTILES.HARPOON || t == PROJECTILES.NET || t == PROJECTILES.TORPEDO

/-- The projectile-enemy loop of `detectPlayerProjectileCollisions` (lines
110-122), with its `break`. -/
def detectProjectileEnemies (ext : Ext) (entity_i : Entity) (playerproj_comp : PlayerProjectile) :
    List Entity → Registry → Option Registry
  | [], r => some r
  | entity_j :: rest, r =>
    match checkCircleCollision ext entity_i entity_j r with
    | none => none
    | some (collided, r1) =>
      if collided && isSingleTarget playerproj_comp.type then some r1
      else detectProjectileEnemies ext entity_i playerproj_comp rest r1

/-- Body of the outer loop of `detectPlayerProjectileCollisions` for the row
`(entity_i, components[i])`. -/
def detectPlayerProjectileCollisions_body (ext : Ext) (row : Entity × PlayerProjectile)
    (r : Registry) : Option Registry :=
  if !r.positions.has row.1 then some r
  else
    match r.playerProjectiles.get row.1 with
    | none => none
    | some comp =>
      if comp.is_loaded then some r
      else
        (forEachEntity (fun entity_j r1 => (checkBoxCollision ext row.1 entity_j r1).map Prod.snd)
            r.activeWalls.entities r).bind
          (fun r1 => detectProjectileEnemies ext row.1 row.2 r1.deadlys.entities r1)

def detectPlayerProjectileCollisions (ext : Ext) (r : Registry) : Option Registry :=
  forEachRow (detectPlayerProjectileCollisions_body ext) r.playerProjectiles r

/-- The cooldown test guarding the enemy and interactable loops of
`detectPlayerCollisions`. -/
def onCooldown (r : Registry) (entity_j : Entity) : Option Bool :=
  if r.modifyOxygenCd.has entity_j then
    match r.modifyOxygenCd.get entity_j with
    | none => none
    | some cd => some (decide (cd.curr_cd > 0))
  else some false

def detectPlayerCollisions_body (ext : Ext) (entity_i : Entity) (r : Registry) :
    Option Registry :=
  if !r.positions.has entity_i then some r
  else
    match r.players.get entity_i with
    | none => none
    | some player_comp =>
      let guarded : Entity → Registry → Option Registry := fun entity_j r1 =>
        match onCooldown r1 entity_j with
        | none => none
        | some true => some r1
        | some false =>
          (checkPlayerMeshCollision ext entity_i entity_j player_comp.collisionMesh r1).map Prod.snd
      let plain : Entity → Registry → Option Registry := fun entity_j r1 =>
        (checkPlayerMeshCollision ext entity_i entity_j player_comp.collisionMesh r1).map Prod.snd
      (forEachEntity guarded r.deadlys.entities r).bind fun r1 =>
      (forEachEntity plain r1.enemyProjectiles.entities r1).bind fun r2 =>
      (forEachEntity plain r2.consumables.entities r2).bind fun r3 =>
      forEachEntity guarded r3.interactable.entities r3

def detectPlayerCollisions (ext : Ext) (r : Registry) : Option Registry :=
  forEachEntity (detectPlayerCollisions_body ext) r.players.entities r

def detectWallCollisions_body (ext : Ext) (entity_i : Entity) (r : Registry) :
    Option Registry :=
  if !r.positions.has entity_i then some r
  else
    let box : Entity → Registry → Option Registry := fun entity_j r1 =>
      (checkBoxCollision ext entity_i entity_j r1).map Prod.snd
    let mass : Entity → Registry → Option Registry := fun entity_j r1 =>
      if entity_i = entity_j then some r1
      else if r1.players.has entity_j then
        match r1.players.get entity_j with
        | none => none
        | some player_comp =>
          (checkPlayerMeshCollision ext entity_j entity_i player_comp.collisionMesh r1).map Prod.snd
      else (checkBoxCollision ext entity_i entity_j r1).map Prod.snd
    (forEachEntity box r.deadlys.entities r).bind fun r1 =>
    (forEachEntity box r1.enemyProjectiles.entities r1).bind fun r2 =>
    forEachEntity mass r2.masses.entities r2

def detectWallCollisions (ext : Ext) (r : Registry) : Option Registry :=
  forEachEntity (detectWallCollisions_body ext) r.activeWalls.entities r

def detectDoorCollisions_body (ext : Ext) (entity_i : Entity) (r : Registry) :
    Option Registry :=
  let enemy : Entity → Registry → Option Registry := fun entity_j r1 =>
    (checkBoxCollision ext entity_i entity_j r1).map Prod.snd
  let player : Entity → Registry → Option Registry := fun entity_j r1 =>
    match r1.players.get entity_j with
    | none => none
    | some player_comp =>
      (checkPlayerMeshCollision ext entity_j entity_i player_comp.collisionMesh r1).map Prod.snd
  (forEachEntity enemy r.deadlys.entities r).bind fun r1 =>
  forEachEntity player r1.players.entities r1

def detectDoorCollisions (ext : Ext) (r : Registry) : Option Registry :=
  forEachEntity (detectDoorCollisions_body ext) r.activeDoors.entities r

def collision_detection (ext : Ext) (r : Registry) : Option Registry :=
  (detectPlayerProjectileCollisions ext r).bind fun r1 =>
  (detectPlayerCollisions ext r1).bind fun r2 =>
  (detectWallCollisions ext r2).bind fun r3 =>
  detectDoorCollisions ext r3

/-! ## Collaborators of the collision system -/

/-- Append one collaborator call to the trace. -/
def logCall (c : Call) (r : Registry) : Registry :=
  { r with calls := r.calls ++ [c] }

/-- Modelled from the spec: `modifyOxygen` (oxygen system) is not in src; it is
the "apply damage / oxygen modification" request and is recorded in the trace. -/
def modifyOxygen (entity other : Entity) (r : Registry) : Registry :=
  logCall (Call.modifyOxygen entity other) r

/-- Modelled from the spec: `modifyOxygenAmount` is not in src; recorded in the
trace. -/
def modifyOxygenAmount (entity : Entity) (amount : Rat) (r : Registry) : Registry :=
  logCall (Call.modifyOxygenAmount entity amount) r

/-- Modelled from the spec: `addDamageIndicatorTimer` is not in src; recorded in
the trace. -/
def addDamageIndicatorTimer (entity : Entity) (r : Registry) : Registry :=
  logCall (Call.addDamageIndicatorTimer entity) r

/-- Modelled from the spec: `handle_debuffs` is not in src; recorded in the
trace. -/
def handle_debuffs (entity other : Entity) (r : Registry) : Registry :=
  logCall (Call.handle_debuffs entity other) r

/-- Modelled from the spec: `handle_consumable_collisions` is not in src;
recorded in the trace. -/
def handle_consumable_collisions (player consumable : Entity) (r : Registry) : Registry :=
  logCall (Call.handle_consumable_collisions player consumable) r

/-- Modelled from the spec: `destroyGunOrProjectile` is not in src; section 4.4
says it destroys the render representation of the projectile, which is outside
the tables of this model, so the call is recorded in the trace. -/
def destroyGunOrProjectile (entity : Entity) (r : Registry) : Registry :=
  logCall (Call.destroyGunOrProjectile entity) r

/-- Modelled from the spec: `doWeaponSwap` is not in src; it is the
weapon-swap-back notification of section 3, modelled as making the given
projectile and gun the equipped ones and recording the call. -/
def doWeaponSwap (proj gun : Entity) (type : PROJECTILES) (r : Registry) : Registry :=
  logCall (Call.doWeaponSwap proj gun type)
    { r with player_projectile := proj, player_weapon := gun, wep_type := type }

/-- Modelled from the spec: `changeSelectedCounterColour` (HUD) is not in src;
recorded in the trace. -/
def changeSelectedCounterColour (slot : INVENTORY) (r : Registry) : Registry :=
  logCall (Call.changeSelectedCounterColour slot) r

/-- Modelled from the spec: `removeFromAI` is not in src; recorded in the trace. -/
def removeFromAI (entity : Entity) (r : Registry) : Registry :=
  logCall (Call.removeFromAI entity) r

/-- Modelled from the spec: `addSharkmanWander` is not in src; recorded in the
trace. -/
def addSharkmanWander (r : Registry) : Registry :=
  logCall Call.addSharkmanWander r

/-- Modelled from the spec: `choose_new_direction` is not in src; recorded in
the trace. -/
def choose_new_direction (enemy wall : Entity) (r : Registry) : Registry :=
  logCall (Call.choose_new_direction enemy wall) r

/-- The glm `normalize`, over the square root supplied by the collaborators. -/
def normalize (ext : Ext) (v : vec2) : vec2 :=
  vec2.smul (1 / ext.sqrt (vec2.dot v v)) v

/-- Modelled from the spec: `remove_all_components_of` of the registry that
`collision_system.cpp` is compiled against is not in src (the header in src
predates several of the tables used here); section 4.1: the entity is removed
from every table. -/
def remove_all_components_of (e : Entity) (r : Registry) : Registry :=
  { r with
    motions := r.motions.remove e
    positions := r.positions.remove e
    collisions := r.collisions.remove e
    deathTimers := r.deathTimers.remove e
    players := r.players.remove e
    playerProjectiles := r.playerProjectiles.remove e
    inventory := r.inventory.remove e
    deadlys := r.deadlys.remove e
    enemyProjectiles := r.enemyProjectiles.remove e
    modifyOxygenCd := r.modifyOxygenCd.remove e
    actsAsProjectile := r.actsAsProjectile.remove e
    trackPlayer := r.trackPlayer.remove e
    bosses := r.bosses.remove e
    activeWalls := r.activeWalls.remove e
    activeDoors := r.activeDoors.remove e
    breakables := r.breakables.remove e
    masses := r.masses.remove e
    doorConnections := r.doorConnections.remove e
    roomTransitions := r.roomTransitions.remove e
    interactable := r.interactable.remove e
    consumables := r.consumables.remove e
    aoe := r.aoe.remove e
    sounds := r.sounds.remove e }

/-! ## Collision resolvers -/

/-- Run `act` when `cond` holds of the current registry (an `if` without
`else`). -/
def whenHas (cond : Registry → Bool) (act : Registry → Option Registry) (r : Registry) :
    Option Registry :=
  if cond r then act r else some r

def resolvePlayerEnemyCollision (player enemy : Entity) (r : Registry) : Option Registry :=
  some (modifyOxygen player enemy (addDamageIndicatorTimer player (handle_debuffs player enemy r)))

def resolvePlayerEnemyProjCollision (player enemy_proj : Entity) (r : Registry) :
    Option Registry :=
  some (remove_all_components_of enemy_proj
    (modifyOxygen player enemy_proj (handle_debuffs player enemy_proj r)))

def resolvePlayerConsumableCollision (player consumable : Entity) (r : Registry) :
    Option Registry :=
  some (handle_consumable_collisions player consumable r)

def resolvePlayerInteractableCollision (player interactable : Entity) (r : Registry) :
    Option Registry :=
  if r.deathTimers.has player then some r
  else some (modifyOxygen player interactable r)

/-- Body of the two scans of `detectAndResolveExplosion` for one scanned
entity. -/
def explosionScan (ext : Ext) (proj hit_entity : Entity) (enemy_check : Entity)
    (r : Registry) : Option Registry :=
  if enemy_check = hit_entity || !r.positions.has hit_entity then some r
  else
    match r.positions.get proj, r.aoe.get proj, r.positions.get enemy_check with
    | some playerproj_position, some playerproj_aoe, some enemy_position =>
      if ext.circle_box_collides playerproj_position playerproj_aoe.radius enemy_position then
        some (addDamageIndicatorTimer enemy_check (modifyOxygen enemy_check proj r))
      else some r
    | _, _, _ => none

def detectAndResolveExplosion (ext : Ext) (proj hit_entity : Entity) (r : Registry) :
    Option Registry :=
  let r0 : Option Registry :=
    if !r.sounds.has proj then
      (r.sounds.insert proj ⟨SOUND_ASSET_ID.EXPLOSION⟩).map fun s => { r with sounds := s }
    else some r
  r0.bind fun r1 =>
  (forEachEntity (explosionScan ext proj hit_entity) r1.deadlys.entities r1).bind fun r2 =>
  forEachEntity (explosionScan ext proj hit_entity) r2.breakables.entities r2

def resolveEnemyPlayerProjCollision (ext : Ext) (enemy player_proj : Entity) (r : Registry) :
    Option Registry :=
  match r.playerProjectiles.get player_proj with
  | none => none
  | some playerproj_comp =>
    if !r.motions.has player_proj then some r
    else
      match r.motions.get player_proj with
      | none => none
      | some _ =>
        let r1 := modifyOxygen enemy player_proj r
        let r2 : Option Registry :=
          match playerproj_comp.type with
          | PROJECTILES.HARPOON => some r1
          | PROJECTILES.NET => some (handle_debuffs enemy player_proj r1)
          | PROJECTILES.CONCUSSIVE =>
            if !r1.activeWalls.has enemy && r1.motions.has enemy then
              some (handle_debuffs enemy player_proj r1)
            else some r1
          | PROJECTILES.TORPEDO => detectAndResolveExplosion ext player_proj enemy r1
          | PROJECTILES.SHRIMP => some r1
        r2.bind fun r3 =>
        let r4 := addDamageIndicatorTimer enemy r3
        let r5 : Option Registry :=
          if r4.trackPlayer.has enemy then
            match r4.trackPlayer.get enemy with
            | none => none
            | some _ =>
              some { r4 with trackPlayer :=
                r4.trackPlayer.update enemy fun t => { t with active_track := true } }
          else some r4
        r5.bind fun r6 =>
        if playerproj_comp.type ≠ PROJECTILES.CONCUSSIVE ∧
            playerproj_comp.type ≠ PROJECTILES.SHRIMP then
          some { r6 with
            motions := r6.motions.update player_proj fun m => { m with velocity := ⟨0, 0⟩ }
            playerProjectiles :=
              r6.playerProjectiles.update player_proj fun c => { c with is_loaded := true } }
        else some r6

def resolveBreakablePlayerProjCollision (ext : Ext) (breakable player_proj : Entity)
    (r : Registry) : Option Registry :=
  if !r.motions.has player_proj then some r
  else
    match r.playerProjectiles.get player_proj with
    | none => none
    | some playerproj_comp =>
      let r1 := modifyOxygen breakable player_proj r
      if playerproj_comp.type = PROJECTILES.TORPEDO then
        detectAndResolveExplosion ext player_proj breakable r1
      else some r1

def resolveBreakableEnemyProjCollision (breakable enemy_proj : Entity) (r : Registry) :
    Option Registry :=
  if !r.motions.has enemy_proj then some r
  else some (remove_all_components_of enemy_proj (modifyOxygen breakable enemy_proj r))

def resolveWallPlayerProjCollision (ext : Ext) (wall player_proj : Entity) (r : Registry) :
    Option Registry :=
  if !r.motions.has player_proj || !r.playerProjectiles.has player_proj then some r
  else
    match r.motions.get player_proj, r.playerProjectiles.get player_proj,
        r.inventory.get r.player with
    | some _, some proj_component, some inventory =>
      let check_wep_swap : Bool := decide (r.player_projectile ≠ player_proj)
      let stop : Registry → Registry := fun s =>
        { s with
          motions := s.motions.update player_proj fun m => { m with velocity := ⟨0, 0⟩ }
          playerProjectiles :=
            s.playerProjectiles.update player_proj fun c => { c with is_loaded := true } }
      let r1 := stop r
      if proj_component.type = PROJECTILES.SHRIMP then
        let r2 := if check_wep_swap then destroyGunOrProjectile player_proj r1 else r1
        if inventory.shrimp ≤ 0 then
          some (changeSelectedCounterColour INVENTORY.HARPOON
            (doWeaponSwap r2.harpoon r2.harpoon_gun PROJECTILES.HARPOON r2))
        else some r2
      else if proj_component.type = PROJECTILES.CONCUSSIVE then
        let r2 := if check_wep_swap then destroyGunOrProjectile player_proj r1 else r1
        if inventory.concussors ≤ 0 then
          some (changeSelectedCounterColour INVENTORY.HARPOON
            (doWeaponSwap r2.harpoon r2.harpoon_gun PROJECTILES.HARPOON r2))
        else some r2
      else
        let r2 : Option Registry :=
          if proj_component.type = PROJECTILES.TORPEDO then
            detectAndResolveExplosion ext player_proj wall r1
          else some r1
        r2.map stop
    | _, _, _ => none

def resolveWallEnemyProjCollision (_wall enemy_proj : Entity) (r : Registry) : Option Registry :=
  some (remove_all_components_of enemy_proj r)

def resolveStopOnWall (wall entity : Entity) (r : Registry) : Option Registry :=
  match r.positions.get wall, r.positions.get entity with
  | some wall_position, some entity_position =>
    let wall_bounds := get_bounds wall_position
    let left_bound_wall := wall_bounds.v0
    let right_bound_wall := wall_bounds.v1
    let top_bound_wall := wall_bounds.v2
    let bot_bound_wall := wall_bounds.v3
    let entity_bounds := get_bounds entity_position
    let left_bound_entity := entity_bounds.v0
    let right_bound_entity := entity_bounds.v1
    let top_bound_entity := entity_bounds.v2
    let bot_bound_entity := entity_bounds.v3
    let entitys_right_overlaps_left_wall := right_bound_entity - left_bound_wall
    let entitys_left_overlaps_right_wall := right_bound_wall - left_bound_entity
    let entitys_bot_overlaps_top_wall := bot_bound_entity - top_bound_wall
    let entitys_top_overlaps_bot_wall := bot_bound_wall - top_bound_entity
    let overlapX := min entitys_right_overlaps_left_wall entitys_left_overlaps_right_wall
    let overlapY := min entitys_bot_overlaps_top_wall entitys_top_overlaps_bot_wall
    if overlapX < overlapY then
      let overlapX2 :=
        if entity_position.position.x < wall_position.position.x then -1 * overlapX else overlapX
      let r1 := { r with positions := r.positions.update entity fun p =>
        { p with position := ⟨p.position.x + overlapX2, p.position.y⟩ } }
      if r1.motions.has entity && !r1.players.has entity then
        some { r1 with motions := r1.motions.update entity fun m =>
          { m with velocity := ⟨0, m.velocity.y⟩ } }
      else some r1
    else
      let overlapY2 :=
        if entity_position.position.y < wall_position.position.y then -1 * overlapY else overlapY
      let r1 := { r with positions := r.positions.update entity fun p =>
        { p with position := ⟨p.position.x, p.position.y + overlapY2⟩ } }
      if r1.motions.has entity && !r1.players.has entity then
        some { r1 with motions := r1.motions.update entity fun m =>
          { m with velocity := ⟨m.velocity.x, 0⟩ } }
      else some r1
  | _, _ => none

def resolveWallEnemyCollision (ext : Ext) (wall enemy : Entity) (r : Registry) :
    Option Registry :=
  if !r.motions.has enemy || !r.positions.has enemy then some r
  else
    match r.motions.get enemy, r.positions.get enemy, r.positions.get wall with
    | some enemy_motion, some enemy_position, some wall_position =>
      let wall_dir := normalize ext (vec2.sub wall_position.position enemy_position.position)
      let temp_velocity := enemy_motion.velocity
      (resolveStopOnWall wall enemy r).bind fun r1 =>
      let tracking : Option Bool :=
        if r1.trackPlayer.has enemy then (r1.trackPlayer.get enemy).map fun t => t.active_track
        else some false
      tracking.bind fun tr =>
      let r2 : Registry :=
        if tr then
          let enemy_dir := normalize ext temp_velocity
          let velocity := ext.sqrt (vec2.dot temp_velocity temp_velocity)
          let new_dir := normalize ext (vec2.sub enemy_dir wall_dir)
          { r1 with motions := r1.motions.update enemy fun m =>
            { velocity := vec2.smul velocity new_dir
              acceleration :=
                vec2.smul (ext.sqrt (vec2.dot m.acceleration m.acceleration)) new_dir } }
        else
          { r1 with motions := r1.motions.update enemy fun m =>
            { velocity := vec2.smul (-1) temp_velocity
              acceleration := vec2.smul (-1) m.acceleration } }
      match r2.motions.get enemy with
      | none => none
      | some m2 =>
        let r3 := { r2 with positions := r2.positions.update enemy fun p =>
          { p with scale := ⟨if m2.velocity.x > 0 then |p.scale.x| * -1 else |p.scale.x|,
              p.scale.y⟩ } }
        if r3.bosses.has enemy then
          match r3.bosses.get enemy with
          | none => none
          | some boss =>
            if boss.type = BossType.SHARKMAN then
              let r4 : Option Registry :=
                if r3.breakables.has wall && r3.trackPlayer.has enemy &&
                    ext.is_tracking r3 enemy then
                  let s1 := modifyOxygenAmount wall ext.SHARKMAN_SELF_DMG
                    (modifyOxygenAmount enemy ext.SHARKMAN_SELF_DMG r3)
                  match s1.motions.get enemy with
                  | none => none
                  | some _ =>
                    let boost : Motion → Motion := fun m =>
                      let speed := ext.sqrt (vec2.dot m.velocity m.velocity)
                      let v := vec2.smul (speed + ext.SHARKMAN_MS_INC) (normalize ext m.velocity)
                      { m with velocity := v }
                    let s2 := { s1 with motions := s1.motions.update enemy boost }
                    let s3 := { s2 with bosses := s2.bosses.update enemy fun b =>
                      { b with curr_cd := ext.SHARKMAN_AI_CD } }
                    some (addSharkmanWander (removeFromAI enemy s3))
                else some r3
              r4.map (choose_new_direction enemy wall)
            else some r3
        else some r3
    | _, _, _ => none

def resolveMassCollision (wall other : Entity) (r : Registry) : Option Registry :=
  match r.motions.get wall, r.motions.get other, r.positions.get wall, r.positions.get other with
  | some wall_motion, some other_motion, some wall_pos, some other_pos =>
    let pos_diff := vec2.sub wall_pos.position other_pos.position
    let is_horizontal_collision : Bool := decide (|pos_diff.x| > |pos_diff.y|)
    let wall_position := if is_horizontal_collision then wall_pos.position.x else wall_pos.position.y
    let wall_velo := if is_horizontal_collision then wall_motion.velocity.x else wall_motion.velocity.y
    let other_position :=
      if is_horizontal_collision then other_pos.position.x else other_pos.position.y
    let other_velo :=
      if is_horizontal_collision then other_motion.velocity.x else other_motion.velocity.y
    if (other_position > wall_position ∧ other_velo > wall_velo) ∨
        (other_position < wall_position ∧ other_velo < wall_velo) then some r
    else
      match r.masses.get wall, r.masses.get other with
      | some wall_mass, some other_mass =>
        let p_wall :=
          if is_horizontal_collision then wall_mass.mass * wall_motion.velocity.x
          else wall_mass.mass * wall_motion.velocity.y
        let p_other :=
          if is_horizontal_collision then other_mass.mass * other_motion.velocity.x
          else other_mass.mass * other_motion.velocity.y
        let v_final := (p_wall + p_other) / (wall_mass.mass + other_mass.mass)
        if is_horizontal_collision then
          let setX : Motion → Motion := fun m => { m with velocity := ⟨v_final, m.velocity.y⟩ }
          some { r with motions := (r.motions.update wall setX).update other setX }
        else
          let setY : Motion → Motion := fun m => { m with velocity := ⟨m.velocity.x, v_final⟩ }
          some { r with motions := (r.motions.update wall setY).update other setY }
      | _, _ => none
  | _, _, _, _ => none

def resolveDoorPlayerCollision (door _player : Entity) (r : Registry) : Option Registry :=
  let rt := r.id_count
  let r1 := { r with rt_entity := rt, id_count := r.id_count + 1 }
  if r1.roomTransitions.has rt then none
  else
    match r1.doorConnections.get door with
    | none => none
    | some door_connection =>
      let roomTransition : RoomTransition := ⟨door_connection⟩
      let r2 := { r1 with
        roomTransitions := r1.roomTransitions.emplace_with_duplicates rt roomTransition
        transitioning := true }
      match r2.sounds.insert rt ⟨SOUND_ASSET_ID.DOOR⟩ with
      | none => none
      | some s =>
        let r3 := { r2 with sounds := s }
        match r3.playerProjectiles.get r3.player_projectile, r3.motions.get r3.player_projectile with
        | some _, some _ =>
          let pp := r3.playerProjectiles.update r3.player_projectile fun c =>
            { c with is_loaded := true }
          let pp_m := r3.motions.update r3.player_projectile fun m =>
            { m with velocity := ⟨0, 0⟩ }
          some { r3 with playerProjectiles := pp, motions := pp_m }
        | _, _ => none

/-! ## Collision routing -/

def routePlayerCollisions (player other : Entity) (r : Registry) : Option Registry :=
  (whenHas (fun s => s.deadlys.has other) (resolvePlayerEnemyCollision player other) r).bind
  fun r1 =>
  (whenHas (fun s => s.enemyProjectiles.has other)
    (resolvePlayerEnemyProjCollision player other) r1).bind fun r2 =>
  (whenHas (fun s => s.consumables.has other)
    (resolvePlayerConsumableCollision player other) r2).bind fun r3 =>
  (whenHas (fun s => s.activeWalls.has other)
    (fun s => (resolveStopOnWall other player s).bind fun s1 =>
      match s1.players.get player with
      | none => none
      | some player_comp => resolveStopOnWall other player_comp.collisionMesh s1) r3).bind
  fun r4 =>
  (whenHas (fun s => s.activeDoors.has other) (resolveDoorPlayerCollision other player) r4).bind
  fun r5 =>
  whenHas (fun s => s.interactable.has other)
    (resolvePlayerInteractableCollision player other) r5

def routeEnemyCollisions (ext : Ext) (enemy other : Entity) (r : Registry) : Option Registry :=
  let routed1 := r.players.has other
  (whenHas (fun s => s.players.has other) (resolvePlayerEnemyCollision other enemy) r).bind
  fun r1 =>
  let routed2 := routed1 || r1.playerProjectiles.has other
  (whenHas (fun s => s.playerProjectiles.has other)
    (resolveEnemyPlayerProjCollision ext enemy other) r1).bind fun r2 =>
  let routed3 := routed2 || r2.activeWalls.has other
  (whenHas (fun s => s.activeWalls.has other) (resolveWallEnemyCollision ext other enemy) r2).bind
  fun r3 =>
  if routed3 && r3.actsAsProjectile.has enemy then
    some { r3 with actsAsProjectile := r3.actsAsProjectile.remove enemy }
  else some r3

def routeWallCollisions (ext : Ext) (wall other : Entity) (r : Registry) : Option Registry :=
  if !r.motions.has other then some r
  else
    (whenHas (fun s => s.players.has other)
      (fun s =>
        if s.masses.has wall && s.masses.has other then resolveMassCollision wall other s
        else
          (resolveStopOnWall wall other s).bind fun s1 =>
          match s1.players.get other with
          | none => none
          | some player => resolveStopOnWall wall player.collisionMesh s1) r).bind fun r1 =>
    (whenHas (fun s => s.activeWalls.has other)
      (fun s =>
        if s.masses.has wall && s.masses.has other then resolveMassCollision wall other s
        else resolveStopOnWall wall other s) r1).bind fun r2 =>
    (whenHas (fun s => s.playerProjectiles.has other)
      (fun s => (resolveWallPlayerProjCollision ext wall other s).bind
        (whenHas (fun t => t.breakables.has wall)
          (resolveBreakablePlayerProjCollision ext wall other))) r2).bind fun r3 =>
    whenHas (fun s => s.enemyProjectiles.has other)
      (fun s =>
        if s.breakables.has wall then resolveBreakableEnemyProjCollision wall other s
        else resolveWallEnemyProjCollision wall other s) r3

def routeDoorCollisions (ext : Ext) (door other : Entity) (r : Registry) : Option Registry :=
  if !r.motions.has other then some r
  else
    (whenHas (fun s => s.players.has other) (resolveDoorPlayerCollision door other) r).bind
    fun r1 =>
    (whenHas (fun s => s.playerProjectiles.has other)
      (resolveWallPlayerProjCollision ext door other) r1).bind fun r2 =>
    whenHas (fun s => s.deadlys.has other) (resolveWallEnemyCollision ext door other) r2

def routePlayerProjCollisions (ext : Ext) (player_proj other : Entity) (r : Registry) :
    Option Registry :=
  (whenHas (fun s => s.deadlys.has other)
    (resolveEnemyPlayerProjCollision ext other player_proj) r).bind fun r1 =>
  (whenHas (fun s => s.activeWalls.has other)
    (resolveWallPlayerProjCollision ext other player_proj) r1).bind fun r2 =>
  (whenHas (fun s => s.breakables.has other)
    (fun s => some (modifyOxygen other player_proj s)) r2).bind fun r3 =>
  match r3.playerProjectiles.get player_proj with
  | none => none
  | some player_proj_component =>
    let checkWepSwapped : Bool := decide (player_proj ≠ r3.player_projectile)
    if checkWepSwapped && decide (player_proj_component.type ≠ PROJECTILES.CONCUSSIVE) &&
        decide (player_proj_component.type ≠ PROJECTILES.SHRIMP) then
      some (destroyGunOrProjectile player_proj r3)
    else some r3

def routeConsumableCollisions (consumable other : Entity) (r : Registry) : Option Registry :=
  whenHas (fun s => s.players.has other) (resolvePlayerConsumableCollision other consumable) r

def routeInteractableCollisions (interactable other : Entity) (r : Registry) : Option Registry :=
  whenHas (fun s => s.players.has other)
    (resolvePlayerInteractableCollision other interactable) r

/-- Body of the loop of `collision_resolution` for the record
`(entity, entity_other)`. -/
def collision_resolution_body (ext : Ext) (entity entity_other : Entity) (r : Registry) :
    Option Registry :=
  (whenHas (fun s => s.players.has entity) (routePlayerCollisions entity entity_other) r).bind
  fun r1 =>
  (whenHas (fun s => s.activeWalls.has entity)
    (routeWallCollisions ext entity entity_other) r1).bind fun r2 =>
  (whenHas (fun s => s.activeDoors.has entity)
    (routeDoorCollisions ext entity entity_other) r2).bind fun r3 =>
  (whenHas (fun s => s.deadlys.has entity)
    (routeEnemyCollisions ext entity entity_other) r3).bind fun r4 =>
  (whenHas (fun s => s.playerProjectiles.has entity)
    (routePlayerProjCollisions ext entity entity_other) r4).bind fun r5 =>
  (whenHas (fun s => s.consumables.has entity)
    (routeConsumableCollisions entity entity_other) r5).bind fun r6 =>
  whenHas (fun s => s.interactable.has entity)
    (routeInteractableCollisions entity entity_other) r6

/-- The index loop of `collision_resolution`: the bound
`collisionsRegistry.components.size()` and the record at index `i` are read
from the current registry at every iteration, since a resolver can remove rows
of the collision table.  `fuel` bounds the number of iterations; running out of
it before the loop condition fails gives `none`. -/
def collision_resolution_loop (ext : Ext) : Nat → Nat → Registry → Option Registry
  | fuel, i, r =>
    match r.collisions.get? i with
    | none => some r
    | some (entity, c) =>
      match fuel with
      | 0 => none
      | fuel2 + 1 =>
        (collision_resolution_body ext entity c.other r).bind
          (collision_resolution_loop ext fuel2 (i + 1))

/-- The loop of `collision_resolution` followed by `registry.collisions.clear()`.
No resolver adds a collision record, so the initial table size bounds the
number of iterations. -/
def collision_resolution (ext : Ext) (r : Registry) : Option Registry :=
  (collision_resolution_loop ext r.collisions.length 0 r).map fun r1 =>
    { r1 with collisions := [] }

/-- `CollisionSystem::step`. -/
def step (ext : Ext) (r : Registry) : Option Registry :=
  (collision_detection ext r).bind (collision_resolution ext)

/-! ## Predicates used to state the properties -/

/-- Outcome of the box test of `checkBoxCollision` on the current positions. -/
def boxHit (ext : Ext) (r : Registry) (i j : Entity) : Bool :=
  match r.positions.get i, r.positions.get j with
  | some a, some b => ext.box_collides a b
  | _, _ => false

/-- Outcome of the circle test of `checkCircleCollision` on the current positions. -/
def circleHit (ext : Ext) (r : Registry) (i j : Entity) : Bool :=
  match r.positions.get i, r.positions.get j with
  | some a, some b => ext.circle_collides a b
  | _, _ => false

/-- Outcome of the two-phase test of `checkPlayerMeshCollision`. -/
def meshHit (ext : Ext) (r : Registry) (i j mesh : Entity) : Bool :=
  boxHit ext r i j && ext.mesh_collides r mesh j

/-- The two records of one detected pair. -/
def pairRecords (i j : Entity) : List (Entity × Collision) := [(i, ⟨j⟩), (j, ⟨i⟩)]

/-- A detection step `f` run on `r0` with any collision table `c` succeeds,
changes nothing but the collision table, and appends a list of records that
satisfies `Q`. -/
def Emits (r0 : Registry) (Q : List (Entity × Collision) → Prop)
    (f : Registry → Option Registry) : Prop :=
  ∀ c, ∃ l, f { r0 with collisions := c } = some { r0 with collisions := c ++ l } ∧ Q l

/-- Pairs tested by `detectPlayerProjectileCollisions`: `i` is a row of the
projectile table whose component is not loaded, `j` an active wall or enemy. -/
def ProjPair (r0 : Registry) (i j : Entity) : Prop :=
  r0.positions.has i = true ∧ r0.positions.has j = true ∧
  i ∈ r0.playerProjectiles.entities ∧
  (∃ comp, r0.playerProjectiles.get i = some comp ∧ comp.is_loaded = false) ∧
  (j ∈ r0.activeWalls.entities ∨ j ∈ r0.deadlys.entities)

/-- Pairs tested by `detectPlayerCollisions`. -/
def PlayerPair (r0 : Registry) (i j : Entity) : Prop :=
  r0.positions.has i = true ∧ r0.positions.has j = true ∧
  i ∈ r0.players.entities ∧
  ((j ∈ r0.deadlys.entities ∧ onCooldown r0 j = some false) ∨
   j ∈ r0.enemyProjectiles.entities ∨
   j ∈ r0.consumables.entities ∨
   (j ∈ r0.interactable.entities ∧ onCooldown r0 j = some false))

/-- Pairs tested by `detectWallCollisions`; the player test records the
player first and the wall second. -/
def WallPair (r0 : Registry) (i j : Entity) : Prop :=
  r0.positions.has i = true ∧ r0.positions.has j = true ∧
  ((i ∈ r0.activeWalls.entities ∧
      (j ∈ r0.deadlys.entities ∨ j ∈ r0.enemyProjectiles.entities ∨
        (j ∈ r0.masses.entities ∧ i ≠ j ∧ r0.players.has j = false))) ∨
   (j ∈ r0.activeWalls.entities ∧ i ∈ r0.masses.entities ∧ j ≠ i ∧ r0.players.has i = true))

/-- Pairs tested by `detectDoorCollisions`; the player test records the
player first and the door second. -/
def DoorPair (r0 : Registry) (i j : Entity) : Prop :=
  r0.positions.has i = true ∧ r0.positions.has j = true ∧
  ((i ∈ r0.activeDoors.entities ∧ j ∈ r0.deadlys.entities) ∨
   (j ∈ r0.activeDoors.entities ∧ i ∈ r0.players.entities))

/-- Pairs any phase of `collision_detection` can record. -/
def DetectedPair (r0 : Registry) (i j : Entity) : Prop :=
  ProjPair r0 i j ∨ PlayerPair r0 i j ∨ WallPair r0 i j ∨ DoorPair r0 i j

/-- Length of the intersection of the intervals `[a0, a1]` and `[b0, b1]`. -/
def overlapLength (a0 a1 b0 b1 : Rat) : Rat := max 0 (min a1 b1 - max a0 b0)

/-- The axis test of `resolveStopOnWall`: X is chosen when the smaller
horizontal overlap is strictly below the smaller vertical overlap. -/
def stopAxisIsX (wall_position entity_position : Position) : Bool :=
  let w := get_bounds wall_position
  let e := get_bounds entity_position
  decide (min (e.v1 - w.v0) (w.v1 - e.v0) < min (e.v3 - w.v2) (w.v3 - e.v2))

/-- The signed horizontal correction of `resolveStopOnWall` (the final value
of `overlapX`). -/
def pushX (wall_position entity_position : Position) : Rat :=
  let w := get_bounds wall_position
  let e := get_bounds entity_position
  let overlapX := min (e.v1 - w.v0) (w.v1 - e.v0)
  if entity_position.position.x < wall_position.position.x then -1 * overlapX else overlapX

/-- The signed vertical correction of `resolveStopOnWall` (the final value of
`overlapY`). -/
def pushY (wall_position entity_position : Position) : Rat :=
  let w := get_bounds wall_position
  let e := get_bounds entity_position
  let overlapY := min (e.v3 - w.v2) (w.v3 - e.v2)
  if entity_position.position.y < wall_position.position.y then -1 * overlapY else overlapY

/-- The position write of `resolveStopOnWall` on the chosen axis. -/
def stopCorrection (wall_position entity_position : Position) (p : Position) : Position :=
  if stopAxisIsX wall_position entity_position then
    { p with position := ⟨p.position.x + pushX wall_position entity_position, p.position.y⟩ }
  else
    { p with position := ⟨p.position.x, p.position.y + pushY wall_position entity_position⟩ }

/-- The axis test of `resolveMassCollision`: horizontal when the centres differ
more in x than in y. -/
def massAxisIsX (wall_pos other_pos : Position) : Bool :=
  decide (|wall_pos.position.x - other_pos.position.x| >
    |wall_pos.position.y - other_pos.position.y|)

/-- Component of a vector on the collision axis. -/
def onAxis (isX : Bool) (v : vec2) : Rat := if isX then v.x else v.y

/-- The early-return test of `resolveMassCollision`: the bodies are already
separating along the collision axis. -/
def separating (wall_pos other_pos : Position) (wall_motion other_motion : Motion) : Prop :=
  let isX := massAxisIsX wall_pos other_pos
  (onAxis isX other_pos.position > onAxis isX wall_pos.position ∧
    onAxis isX other_motion.velocity > onAxis isX wall_motion.velocity) ∨
  (onAxis isX other_pos.position < onAxis isX wall_pos.position ∧
    onAxis isX other_motion.velocity < onAxis isX wall_motion.velocity)

/-- The common velocity `v_final` computed by `resolveMassCollision`. -/
def massFinalVelocity (isX : Bool) (wall_mass other_mass : Mass)
    (wall_motion other_motion : Motion) : Rat :=
  (wall_mass.mass * onAxis isX wall_motion.velocity +
    other_mass.mass * onAxis isX other_motion.velocity) / (wall_mass.mass + other_mass.mass)

/-- The velocity write of `resolveMassCollision` on the collision axis. -/
def setOnAxis (isX : Bool) (v : Rat) (m : Motion) : Motion :=
  if isX then { m with velocity := ⟨v, m.velocity.y⟩ }
  else { m with velocity := ⟨m.velocity.x, v⟩ }

/-- The registry after the two velocity writes of `resolveMassCollision`. -/
def massCollisionResult (r : Registry) (wall other : Entity) (isX : Bool) (v : Rat) : Registry :=
  let f := setOnAxis isX v
  { r with motions := (r.motions.update wall f).update other f }

/-- The entity carries none of the tags that select the other side of a
detection test or the first side of the player, wall and door phases. -/
def onlyProjectile (r : Registry) (p : Entity) : Prop :=
  r.players.has p = false ∧ r.deadlys.has p = false ∧ r.enemyProjectiles.has p = false ∧
  r.consumables.has p = false ∧ r.interactable.has p = false ∧ r.activeWalls.has p = false ∧
  r.activeDoors.has p = false ∧ r.masses.has p = false

/-- The first enemy, in enemy-table order, that the circle test of
`checkCircleCollision` reports as colliding with `p`. -/
def firstEnemyHit (ext : Ext) (r : Registry) (p : Entity) : Option Entity :=
  r.deadlys.entities.find? (fun e => circleHit ext r p e)

/-! ## Concrete scenes -/

/-- A registry with every table empty. -/
def emptyRegistry : Registry :=
  { motions := [], positions := [], collisions := [], deathTimers := [], players := [],
    playerProjectiles := [], inventory := [], deadlys := [], enemyProjectiles := [],
    modifyOxygenCd := [], actsAsProjectile := [], trackPlayer := [], bosses := [],
    activeWalls := [], activeDoors := [], breakables := [], masses := [],
    doorConnections := [], roomTransitions := [], interactable := [], consumables := [],
    aoe := [], sounds := [], player := 0, player_weapon := 0, player_projectile := 0,
    harpoon := 0, harpoon_gun := 0, wep_type := PROJECTILES.HARPOON, rt_entity := 0,
    transitioning := false, room_transitioning := false, id_count := 100, calls := [] }

/-- One instance of the collaborators, used to run the model on concrete
scenes: the spatial predicates as modelled above, the player mesh approximated
by the box of the mesh entity, `is_tracking` read from the tracking flag and an
integer square root. -/
def sampleExt : Ext :=
  { box_collides := box_collides
    circle_collides := circle_collides
    circle_box_collides := circle_box_collides
    mesh_collides := fun r mesh other =>
      match r.positions.get mesh, r.positions.get other with
      | some a, some b => box_collides a b
      | _, _ => false
    is_tracking := fun r e =>
      match r.trackPlayer.get e with
      | some t => t.active_track
      | none => false
    sqrt := fun q => (Nat.sqrt q.num.toNat : Rat) / (Nat.sqrt q.den : Rat)
    SHARKMAN_SELF_DMG := -50
    SHARKMAN_MS_INC := 10
    SHARKMAN_AI_CD := 5000 }

/-- A unit box centred at `(x, y)`. -/
def unitBoxAt (x y : Rat) : Position := ⟨⟨x, y⟩, 0, ⟨1, 1⟩⟩

/-- A wall (entity 1) and a body (entity 2), both with Motion, Position and
Mass; the wall rests at the origin and the body sits at `(x, 0)` moving with
horizontal velocity `v`. -/
def massScene (x v : Rat) : Registry :=
  { emptyRegistry with
    positions := [(1, unitBoxAt 0 0), (2, unitBoxAt x 0)]
    motions := [(1, ⟨⟨0, 0⟩, ⟨0, 0⟩⟩), (2, ⟨⟨v, 0⟩, ⟨0, 0⟩⟩)]
    masses := [(1, ⟨3⟩), (2, ⟨1⟩)]
    activeWalls := [(1, ())] }

/-- A torpedo (entity 1) at the origin with an AOE radius of 5, the directly
hit enemy (entity 2) and two more enemies: entity 3 at (3, 0) and entity 4 at
(10, 0).  The hit enemy has a Position only when `hitHasPosition` is set. -/
def explosionScene (hitHasPosition : Bool) : Registry :=
  { emptyRegistry with
    positions :=
      (if hitHasPosition then [(2, unitBoxAt 0 0)] else []) ++
        [(1, unitBoxAt 0 0), (3, unitBoxAt 3 0), (4, unitBoxAt 10 0)]
    motions := [(1, ⟨⟨3, 0⟩, ⟨0, 0⟩⟩)]
    playerProjectiles := [(1, ⟨false, PROJECTILES.TORPEDO, false⟩)]
    aoe := [(1, ⟨5⟩)]
    deadlys := [(2, ()), (3, ()), (4, ())]
    player_projectile := 1 }

/-- The frame of the HARPOON scenario: one active HARPOON projectile `p` with
Position and Motion, two enemies `e1`, `e2` in that table order, and nothing
else; `equipped` is the currently equipped projectile. -/
def harpoonFrame (p e1 e2 equipped : Entity) (pp p1 p2 : Position) (m : Motion) : Registry :=
  { emptyRegistry with
    positions := [(p, pp), (e1, p1), (e2, p2)]
    motions := [(p, m)]
    playerProjectiles := [(p, ⟨false, PROJECTILES.HARPOON, false⟩)]
    deadlys := [(e1, ()), (e2, ())]
    player_projectile := equipped }

/-- The frame of the door scenario: a player `pl` with Position, Player
component (collision mesh `mesh`) and, when `playerMotion` is given, Motion; one
door `d` with Position and DoorConnection `dc`; the equipped projectile `q`,
loaded, with Motion; and nothing else. -/
def doorFrame (pl mesh d q : Entity) (ppl pd : Position) (playerMotion : Option Motion)
    (mq : Motion) (dc : DoorConnection) : Registry :=
  { emptyRegistry with
    positions := [(pl, ppl), (d, pd)]
    motions := (match playerMotion with
      | some mp => [(pl, mp), (q, mq)]
      | none => [(q, mq)])
    players := [(pl, ⟨mesh⟩)]
    playerProjectiles := [(q, ⟨true, PROJECTILES.HARPOON, false⟩)]
    activeDoors := [(d, ())]
    doorConnections := [(d, dc)]
    player := pl
    player_projectile := q }

/-- A scene with one active wall (entity 1) and one loaded HARPOON projectile
(entity 2) that carries no other tag; their unit boxes coincide. -/
def loadedScene : Registry :=
  { emptyRegistry with
    positions := [(1, unitBoxAt 0 0), (2, unitBoxAt 0 0)]
    activeWalls := [(1, ())]
    playerProjectiles := [(2, ⟨true, PROJECTILES.HARPOON, false⟩)] }

/-- A scene with one active wall (entity 1) and one loaded HARPOON projectile
(entity 2) that also has a Mass; their unit boxes coincide. -/
def loadedMassScene : Registry :=
  { emptyRegistry with
    positions := [(1, unitBoxAt 0 0), (2, unitBoxAt 0 0)]
    activeWalls := [(1, ())]
    playerProjectiles := [(2, ⟨true, PROJECTILES.HARPOON, false⟩)]
    masses := [(2, ⟨1⟩)] }

/-- A scene with one active projectile (entity 1) of the given type and two
enemies (entities 2 and 3), all three unit boxes within reach of each other. -/
def twoEnemyScene (t : PROJECTILES) : Registry :=
  { emptyRegistry with
    positions := [(1, unitBoxAt 0 0), (2, unitBoxAt (1/2) 0), (3, unitBoxAt 0 (1/2))]
    motions := [(1, ⟨⟨3, 0⟩, ⟨0, 0⟩⟩)]
    playerProjectiles := [(1, ⟨false, t, false⟩)]
    deadlys := [(2, ()), (3, ())]
    player_projectile := 1 }

/-! ## Predicates and scenes for the resolution properties -/
/-- The tag tables and the collision table: tables that no resolver writes
except through `remove_all_components_of`. -/
def KeepsTags (r r2 : Registry) : Prop :=
  r2.collisions = r.collisions ∧ r2.players = r.players ∧ r2.deadlys = r.deadlys ∧
  r2.enemyProjectiles = r.enemyProjectiles ∧ r2.activeWalls = r.activeWalls ∧
  r2.activeDoors = r.activeDoors ∧ r2.breakables = r.breakables ∧ r2.masses = r.masses ∧
  r2.consumables = r.consumables ∧ r2.interactable = r.interactable

/-- Frame of a resolver that does not remove entities: it keeps the tag tables,
the collision table and the acts-as-projectile table. -/
def Frame (r r2 : Registry) : Prop :=
  KeepsTags r r2 ∧ r2.actsAsProjectile = r.actsAsProjectile

/-- The registry `r2` differs from `r` at most in the sound table and in calls
appended to the call trace. -/
def OnlySoundsCalls (r r2 : Registry) : Prop :=
  ∃ s l, r2 = { r with sounds := s, calls := r.calls ++ l }

/-- The write that returns a projectile to the ready state: velocity (0, 0) on
its Motion and `is_loaded = true` on its PlayerProjectile. -/
def zeroAndLoad (proj : Entity) (r : Registry) : Registry :=
  { r with
    motions := r.motions.update proj fun m => { m with velocity := ⟨0, 0⟩ }
    playerProjectiles := r.playerProjectiles.update proj fun c => { c with is_loaded := true } }

/-- The projectile type is one of those that are stopped and reloaded after
hitting an enemy. -/
def stopsOnHit (t : PROJECTILES) : Bool :=
  decide (t ≠ PROJECTILES.CONCUSSIVE ∧ t ≠ PROJECTILES.SHRIMP)

/-- A scene with one enemy (entity 2) and one active projectile (entity 1) of
the given type, which has a Motion only when `hasMotion` is set. -/
def hitScene (t : PROJECTILES) (hasMotion : Bool) : Registry :=
  { emptyRegistry with
    positions := [(1, unitBoxAt 0 0), (2, unitBoxAt 0 0)]
    motions := if hasMotion then [(1, ⟨⟨3, 0⟩, ⟨0, 0⟩⟩)] else []
    playerProjectiles := [(1, ⟨false, t, false⟩)]
    deadlys := [(2, ())]
    player_projectile := 1 }

/-- What routing one record whose other side is `other` guarantees: the
collision table does not grow, and unless `other` is an enemy projectile the
tag tables and the collision table are left as they were. -/
def RouterOk (other : Entity) (r r2 : Registry) : Prop :=
  r2.collisions.length ≤ r.collisions.length ∧
  (r.enemyProjectiles.has other = false → KeepsTags r r2)

/-- The branch dispatch of `routePlayerProjCollisions`: its three `if`
statements (lines 400-408), before the weapon-swap check. -/
def routePlayerProjDispatch (ext : Ext) (player_proj other : Entity) (r : Registry) :
    Option Registry :=
  (whenHas (fun s => s.deadlys.has other)
    (resolveEnemyPlayerProjCollision ext other player_proj) r).bind fun r1 =>
  (whenHas (fun s => s.activeWalls.has other)
    (resolveWallPlayerProjCollision ext other player_proj) r1).bind fun r2 =>
  whenHas (fun s => s.breakables.has other)
    (fun s => some (modifyOxygen other player_proj s)) r2

/-- What the branch dispatch of `routePlayerProjCollisions` preserves about
projectile `proj`: its type, and the equipped projectile unless `proj` is of a
type that is not stopped on a hit (CONCUSSIVE or SHRIMP, the types that can
trigger the weapon swap). -/
def DispatchInv (proj : Entity) (r r2 : Registry) : Prop :=
  (r2.playerProjectiles.get proj).map (fun c => c.type)
      = (r.playerProjectiles.get proj).map (fun c => c.type) ∧
  (r2.player_projectile = r.player_projectile ∨
    ∃ c, r.playerProjectiles.get proj = some c ∧ stopsOnHit c.type = false)

/-- A scene with one enemy (entity 2) that has the acts-as-projectile flag and
one player (entity 1). -/
def flaggedEnemyScene : Registry :=
  { emptyRegistry with
    players := [(1, ⟨1⟩)]
    deadlys := [(2, ())]
    actsAsProjectile := [(2, ())] }

/-- Every record of `l` belongs to the two records of a pair satisfying `P`. -/
def RecordsOf (P : Entity → Entity → Prop) (l : List (Entity × Collision)) : Prop :=
  ∀ x, x ∈ l → ∃ i j, P i j ∧ x ∈ pairRecords i j

/-- Routing the records of a given table in table order: the loop body of
`collision_resolution` applied to each record of the list, first to last. -/
def routeInTableOrder (ext : Ext) :
    List (Entity × Collision) → Registry → Option Registry
  | [], r => some r
  | (entity, c) :: rest, r =>
    (collision_resolution_body ext entity c.other r).bind (routeInTableOrder ext rest)

/-- A scene with a player (entity 1, which is its own collision mesh), one
enemy projectile (entity 2) and two consumables (entities 3 and 4), all four
unit boxes at the origin. -/
def pickupScene : Registry :=
  { emptyRegistry with
    positions := [(1, unitBoxAt 0 0), (2, unitBoxAt 0 0), (3, unitBoxAt 0 0), (4, unitBoxAt 0 0)]
    players := [(1, ⟨1⟩)]
    enemyProjectiles := [(2, ())]
    consumables := [(3, ()), (4, ())]
    player := 1 }

/-- The list of records holds both records of the pair `(i, j)`. -/
def HasPair (i j : Entity) (l : List (Entity × Collision)) : Prop :=
  (i, (⟨j⟩ : Collision)) ∈ l ∧ (j, (⟨i⟩ : Collision)) ∈ l

/-- A scene with a player (entity 1, which is its own collision mesh) and one
entity 2 at the same place that has a ModifyOxygenCD with the given `curr_cd`;
entity 2 is an enemy, and also a consumable when `alsoConsumable` is set. -/
def cooldownScene (curr_cd : Rat) (alsoConsumable : Bool) : Registry :=
  { emptyRegistry with
    positions := [(1, unitBoxAt 0 0), (2, unitBoxAt 0 0)]
    players := [(1, ⟨1⟩)]
    deadlys := [(2, ())]
    consumables := if alsoConsumable then [(2, ())] else []
    modifyOxygenCd := [(2, ⟨curr_cd⟩)]
    player := 1 }

/-! ## Predicates and scenes for the frame properties -/

/-- The velocity write of `resolveStopOnWall` on the chosen axis. -/
def zeroOnAxis (isX : Bool) (m : Motion) : Motion :=
  if isX then { m with velocity := ⟨0, m.velocity.y⟩ }
  else { m with velocity := ⟨m.velocity.x, 0⟩ }

/-- The registry after the writes of `resolveStopOnWall` on a wall at
`wall_position` and an entity at `entity_position`. -/
def stopOnWallResult (r : Registry) (entity : Entity) (wall_position entity_position : Position) :
    Registry :=
  let positions := r.positions.update entity (stopCorrection wall_position entity_position)
  if r.motions.has entity && !r.players.has entity then
    { r with
      positions := positions
      motions := r.motions.update entity (zeroOnAxis (stopAxisIsX wall_position entity_position)) }
  else { r with positions := positions }

/-- A wall (entity 1) at the origin and a body (entity 2) at (1/2, 0), both
moving with velocity (2, 0), with masses `m1` and `m2`. -/
def equalVelocityScene (m1 m2 : Rat) : Registry :=
  { emptyRegistry with
    positions := [(1, unitBoxAt 0 0), (2, unitBoxAt (1 / 2) 0)]
    motions := [(1, ⟨⟨2, 0⟩, ⟨0, 0⟩⟩), (2, ⟨⟨2, 0⟩, ⟨0, 0⟩⟩)]
    masses := [(1, ⟨m1⟩), (2, ⟨m2⟩)]
    activeWalls := [(1, ())] }

/-- A torpedo (entity 1) at the origin with Position and an AOE radius of 5,
the directly hit enemy (entity 2) with a Position, and a second enemy (entity
3) that has no Position. -/
def explosionGapScene : Registry :=
  { emptyRegistry with
    positions := [(1, unitBoxAt 0 0), (2, unitBoxAt 0 0)]
    motions := [(1, ⟨⟨3, 0⟩, ⟨0, 0⟩⟩)]
    playerProjectiles := [(1, ⟨false, PROJECTILES.TORPEDO, false⟩)]
    aoe := [(1, ⟨5⟩)]
    deadlys := [(2, ()), (3, ())]
    player_projectile := 1 }

/-! ## The registry header -/

/-- The component tables declared as members of `ECSRegistry`
(`tiny_ecs_registry.hpp`, lines 25-75), in declaration order. -/
inductive ECSTable where
  | motions
  | positions
  | collisions
  | deathTimers
  | players
  | playerWeapons
  | playerProjectiles
  | inventory
  | playerHUD
  | deadlys
  | attackCD
  | oxygen
  | oxygenModifiers
  | wanders
  | stuns
  | meshPtrs
  | renderRequests
  | colors
  | screenStates
  | bounding_boxes
  | vectors
  | spaces
  | adjacencies
  | activeWalls
  | interactable
  | lowOxygen
  | stunned
  | sounds
  | musics
  | consumables
  | debugComponents
deriving DecidableEq, Repr

/-- The `registry_list` built by the constructor `ECSRegistry()` (lines 79-122):
one `push_back` per line, in that order. -/
def registry_list : List ECSTable :=
  [ECSTable.motions, ECSTable.collisions, ECSTable.positions,
   ECSTable.deathTimers, ECSTable.players, ECSTable.playerWeapons,
   ECSTable.playerProjectiles, ECSTable.inventory, ECSTable.playerHUD,
   ECSTable.deadlys, ECSTable.attackCD,
   ECSTable.oxygen, ECSTable.oxygenModifiers,
   ECSTable.wanders,
   ECSTable.stuns, ECSTable.stunned,
   ECSTable.meshPtrs, ECSTable.renderRequests, ECSTable.screenStates, ECSTable.colors,
   ECSTable.bounding_boxes, ECSTable.vectors, ECSTable.spaces, ECSTable.adjacencies,
   ECSTable.activeWalls,
   ECSTable.lowOxygen,
   ECSTable.sounds, ECSTable.musics, ECSTable.interactable,
   ECSTable.debugComponents, ECSTable.consumables]

/-- The state of the registry of the header: every declared table with rows of
its own component type `Component t` (the component declarations are not in
src). -/
abbrev ECSRegistry (Component : ECSTable → Type) :=
  (t : ECSTable) → ComponentContainer (Component t)

/-- A loop `for (ContainerInterface* reg : registry_list) reg->op();`. -/
def forEachTable {Component : ECSTable → Type}
    (op : (t : ECSTable) → ComponentContainer (Component t) → ComponentContainer (Component t))
    (l : List ECSTable) (reg : ECSRegistry Component) : ECSRegistry Component :=
  l.foldl (fun s t => Function.update s t (op t (s t))) reg

/-- `ECSRegistry::remove_all_components_of` (lines 142-144). -/
def ECSRegistry.remove_all_components_of {Component : ECSTable → Type} (e : Entity)
    (reg : ECSRegistry Component) : ECSRegistry Component :=
  forEachTable (fun _ tbl => tbl.remove e) registry_list reg

/-- A frame with one active HARPOON projectile (entity 1) at the origin with
Motion, and two enemies in table order: entity 2 at (-3/4, 0) and entity 3 at
(3/4, 0).  Entity 3 is also an active wall.  Both enemies are within reach of
the projectile and their boxes do not touch each other.  Entity 0 is the
player, of which only the Inventory matters here. -/
def wallEnemyFrame : Registry :=
  { emptyRegistry with
    positions := [(1, unitBoxAt 0 0), (2, unitBoxAt (-3/4) 0), (3, unitBoxAt (3/4) 0)]
    motions := [(1, ⟨⟨3, 0⟩, ⟨0, 0⟩⟩)]
    playerProjectiles := [(1, ⟨false, PROJECTILES.HARPOON, false⟩)]
    deadlys := [(2, ()), (3, ())]
    activeWalls := [(3, ())]
    inventory := [(0, ⟨0, 0, 0, 0, 0⟩)]
    player_projectile := 1 }

/-- A frame with one active HARPOON projectile (entity 1) at the origin with
Motion, two enemies in table order, entity 2 at (-3/4, 0) and entity 3 at
(3/4, 0), and an active wall (entity 4) at (0, 3/4) that is not an enemy.  The
enemies and the wall are within reach of the projectile. -/
def wallAndEnemiesFrame : Registry :=
  { emptyRegistry with
    positions := [(1, unitBoxAt 0 0), (2, unitBoxAt (-3/4) 0), (3, unitBoxAt (3/4) 0),
      (4, unitBoxAt 0 (3/4))]
    motions := [(1, ⟨⟨3, 0⟩, ⟨0, 0⟩⟩)]
    playerProjectiles := [(1, ⟨false, PROJECTILES.HARPOON, false⟩)]
    deadlys := [(2, ()), (3, ())]
    activeWalls := [(4, ())]
    inventory := [(0, ⟨0, 0, 0, 0, 0⟩)]
    player_projectile := 1 }

/-! ## Single-precision arithmetic -/

/-- The integer nearest to `x`, the even one when `x` lies half way between two
integers. -/
def roundHalfEven (x : Rat) : Int :=
  let f := ⌊x⌋
  let d := x - f
  if d < 1 / 2 then f else if 1 / 2 < d then f + 1 else if f % 2 = 0 then f else f + 1

/-- Halving `a` until it is below 2, at most `fuel` times, counting the steps. -/
def log2Fuel : Nat → Nat → Nat
  | 0, _ => 0
  | fuel + 1, a => if a < 2 then 0 else log2Fuel fuel (a / 2) + 1

/-- The position of the leading bit of `a`: the `k` with 2^k ≤ a < 2^(k+1), for
`a ≠ 0`. -/
def natLog2 (a : Nat) : Nat := log2Fuel a a

/-- The integer `k` with 2^k ≤ |q| < 2^(k+1), for `q ≠ 0`.  The difference `d`
of the leading bit positions of numerator and denominator is `k` or `k + 1`. -/
def floorLog2 (q : Rat) : Int :=
  let d : Int := (natLog2 q.num.natAbs : Int) - (natLog2 q.den : Int)
  if (2 : Rat) ^ d ≤ |q| then d else d - 1

/-- Exponent of the unit in the last place of the binary32 numbers of the
magnitude of `q`: 24 significant bits, and never below the exponent -149 of the
subnormal range. -/
def ulpExponent (q : Rat) : Int := max (floorLog2 q - 23) (-149)

/-- The value of type `float` (IEEE 754 binary32) that a C++ operation with the
exact result `q` produces: the nearest multiple of the unit in the last place,
ties to even.  Overflow to infinity (from 2^128 on) and NaN are not part of
this model. -/
def f32 (q : Rat) : Rat := (roundHalfEven (q / 2 ^ ulpExponent q) : Rat) * 2 ^ ulpExponent q

/-- Modelled from the spec: `get_bounds` (not in src, see above) when the result
of every arithmetic operation is passed through `rnd`. -/
def get_bounds_with (rnd : Rat → Rat) (p : Position) : vec4 :=
  ⟨rnd (p.position.x - rnd (|p.scale.x| / 2)), rnd (p.position.x + rnd (|p.scale.x| / 2)),
   rnd (p.position.y - rnd (|p.scale.y| / 2)), rnd (p.position.y + rnd (|p.scale.y| / 2))⟩

/-- `resolveStopOnWall` (lines 737-794) with the result of every `float`
operation passed through `rnd`.  With the identity this is `resolveStopOnWall`
above, in exact arithmetic; with `f32` every operation is rounded to binary32 as
in the compiled code, where each intermediate value is stored in a `float`. -/
def resolveStopOnWallWith (rnd : Rat → Rat) (wall entity : Entity) (r : Registry) :
    Option Registry :=
  match r.positions.get wall, r.positions.get entity with
  | some wall_position, some entity_position =>
    let wall_bounds := get_bounds_with rnd wall_position
    let left_bound_wall := wall_bounds.v0
    let right_bound_wall := wall_bounds.v1
    let top_bound_wall := wall_bounds.v2
    let bot_bound_wall := wall_bounds.v3
    let entity_bounds := get_bounds_with rnd entity_position
    let left_bound_entity := entity_bounds.v0
    let right_bound_entity := entity_bounds.v1
    let top_bound_entity := entity_bounds.v2
    let bot_bound_entity := entity_bounds.v3
    let entitys_right_overlaps_left_wall := rnd (right_bound_entity - left_bound_wall)
    let entitys_left_overlaps_right_wall := rnd (right_bound_wall - left_bound_entity)
    let entitys_bot_overlaps_top_wall := rnd (bot_bound_entity - top_bound_wall)
    let entitys_top_overlaps_bot_wall := rnd (bot_bound_wall - top_bound_entity)
    let overlapX := min entitys_right_overlaps_left_wall entitys_left_overlaps_right_wall
    let overlapY := min entitys_bot_overlaps_top_wall entitys_top_overlaps_bot_wall
    if overlapX < overlapY then
      let overlapX2 :=
        if entity_position.position.x < wall_position.position.x then rnd (-1 * overlapX)
        else overlapX
      let r1 := { r with positions := r.positions.update entity fun p =>
        { p with position := ⟨rnd (p.position.x + overlapX2), p.position.y⟩ } }
      if r1.motions.has entity && !r1.players.has entity then
        some { r1 with motions := r1.motions.update entity fun m =>
          { m with velocity := ⟨0, m.velocity.y⟩ } }
      else some r1
    else
      let overlapY2 :=
        if entity_position.position.y < wall_position.position.y then rnd (-1 * overlapY)
        else overlapY
      let r1 := { r with positions := r.positions.update entity fun p =>
        { p with position := ⟨p.position.x, rnd (p.position.y + overlapY2)⟩ } }
      if r1.motions.has entity && !r1.players.has entity then
        some { r1 with motions := r1.motions.update entity fun m =>
          { m with velocity := ⟨m.velocity.x, 0⟩ } }
      else some r1
  | _, _ => none

/-- `resolveMassCollision` (lines 796-846) with the result of every `float`
operation passed through `rnd`: the identity gives `resolveMassCollision` above,
`f32` the binary32 arithmetic of the compiled code. -/
def resolveMassCollisionWith (rnd : Rat → Rat) (wall other : Entity) (r : Registry) :
    Option Registry :=
  match r.motions.get wall, r.motions.get other, r.positions.get wall, r.positions.get other with
  | some wall_motion, some other_motion, some wall_pos, some other_pos =>
    let pos_diff : vec2 := ⟨rnd (wall_pos.position.x - other_pos.position.x),
      rnd (wall_pos.position.y - other_pos.position.y)⟩
    let is_horizontal_collision : Bool := decide (|pos_diff.x| > |pos_diff.y|)
    let wall_position := if is_horizontal_collision then wall_pos.position.x else wall_pos.position.y
    let wall_velo := if is_horizontal_collision then wall_motion.velocity.x else wall_motion.velocity.y
    let other_position :=
      if is_horizontal_collision then other_pos.position.x else other_pos.position.y
    let other_velo :=
      if is_horizontal_collision then other_motion.velocity.x else other_motion.velocity.y
    if (other_position > wall_position ∧ other_velo > wall_velo) ∨
        (other_position < wall_position ∧ other_velo < wall_velo) then some r
    else
      match r.masses.get wall, r.masses.get other with
      | some wall_mass, some other_mass =>
        let p_wall :=
          if is_horizontal_collision then rnd (wall_mass.mass * wall_motion.velocity.x)
          else rnd (wall_mass.mass * wall_motion.velocity.y)
        let p_other :=
          if is_horizontal_collision then rnd (other_mass.mass * other_motion.velocity.x)
          else rnd (other_mass.mass * other_motion.velocity.y)
        let v_final := rnd (rnd (p_wall + p_other) / rnd (wall_mass.mass + other_mass.mass))
        if is_horizontal_collision then
          let setX : Motion → Motion := fun m => { m with velocity := ⟨v_final, m.velocity.y⟩ }
          some { r with motions := (r.motions.update wall setX).update other setX }
        else
          let setY : Motion → Motion := fun m => { m with velocity := ⟨m.velocity.x, v_final⟩ }
          some { r with motions := (r.motions.update wall setY).update other setY }
      | _, _ => none
  | _, _, _, _ => none

/-- A wall (entity 1) with the unit box at the origin and an entity 2 with
Motion whose box of extent 0.7f is centred at (0.3f, 0); 0.3f and 0.7f are the
`float` constants nearest to 0.3 and 0.7.  The boxes overlap on both axes, by
less horizontally than vertically. -/
def floatStopScene : Registry :=
  { emptyRegistry with
    positions := [(1, unitBoxAt 0 0), (2, ⟨⟨f32 (3 / 10), 0⟩, 0, ⟨f32 (7 / 10), f32 (7 / 10)⟩⟩)]
    motions := [(2, ⟨⟨-1, 0⟩, ⟨0, 0⟩⟩)]
    activeWalls := [(1, ())] }

/-- Two bodies of mass 5 with Motion, Position and Mass, entity 1 at the origin
and entity 2 at (1/2, 0), both moving with the horizontal velocity 0.92f, the
`float` constant nearest to 0.92. -/
def floatMassScene : Registry :=
  { emptyRegistry with
    positions := [(1, unitBoxAt 0 0), (2, unitBoxAt (1 / 2) 0)]
    motions := [(1, ⟨⟨f32 (92 / 100), 0⟩, ⟨0, 0⟩⟩), (2, ⟨⟨f32 (92 / 100), 0⟩, ⟨0, 0⟩⟩)]
    masses := [(1, ⟨5⟩), (2, ⟨5⟩)]
    activeWalls := [(1, ())] }

/-! ## Theorems -/

theorem recordPair_eq (i j : Entity) (r : Registry) :
    recordPair i j r = { r with collisions := r.collisions ++ pairRecords i j } := by
  simp [recordPair, ComponentContainer.emplace_with_duplicates, pairRecords]

theorem checkBoxCollision_eq (ext : Ext) (i j : Entity) (r : Registry) :
    checkBoxCollision ext i j r
      = some (boxHit ext r i j, if boxHit ext r i j then recordPair i j r else r) := by
  unfold checkBoxCollision boxHit ComponentContainer.has
  cases hi : r.positions.get i <;> cases hj : r.positions.get j <;> simp
  split <;> simp_all

theorem checkCircleCollision_eq (ext : Ext) (i j : Entity) (r : Registry) :
    checkCircleCollision ext i j r
      = some (circleHit ext r i j, if circleHit ext r i j then recordPair i j r else r) := by
  unfold checkCircleCollision circleHit ComponentContainer.has
  cases hi : r.positions.get i <;> cases hj : r.positions.get j <;> simp
  split <;> simp_all

theorem checkPlayerMeshCollision_eq (ext : Ext) (i j mesh : Entity) (r : Registry) :
    checkPlayerMeshCollision ext i j mesh r
      = some (meshHit ext r i j mesh, if meshHit ext r i j mesh then recordPair i j r else r) := by
  unfold checkPlayerMeshCollision meshHit boxHit ComponentContainer.has
  cases hi : r.positions.get i <;> cases hj : r.positions.get j <;> simp
  split <;> split <;> simp_all

theorem boxHit_has (ext : Ext) (r : Registry) (i j : Entity) (h : boxHit ext r i j = true) :
    r.positions.has i = true ∧ r.positions.has j = true := by
  unfold boxHit at h
  unfold ComponentContainer.has
  cases hi : r.positions.get i <;> cases hj : r.positions.get j <;> simp_all

theorem circleHit_has (ext : Ext) (r : Registry) (i j : Entity) (h : circleHit ext r i j = true) :
    r.positions.has i = true ∧ r.positions.has j = true := by
  unfold circleHit at h
  unfold ComponentContainer.has
  cases hi : r.positions.get i <;> cases hj : r.positions.get j <;> simp_all

theorem meshHit_has (ext : Ext) (r : Registry) (i j mesh : Entity)
    (h : meshHit ext r i j mesh = true) :
    r.positions.has i = true ∧ r.positions.has j = true := by
  unfold meshHit at h
  simp only [Bool.and_eq_true] at h
  exact boxHit_has ext r i j h.1

theorem emits_pure (r0 : Registry) (Q : List (Entity × Collision) → Prop) (hnil : Q []) :
    Emits r0 Q some := by
  intro c
  exact ⟨[], by simp, hnil⟩

theorem emits_weaken (r0 : Registry) (Q Q2 : List (Entity × Collision) → Prop)
    (f : Registry → Option Registry) (h : ∀ l, Q l → Q2 l) (hf : Emits r0 Q f) :
    Emits r0 Q2 f := by
  intro c
  obtain ⟨l, h1, h2⟩ := hf c
  exact ⟨l, h1, h l h2⟩

theorem emits_congr (r0 : Registry) (Q : List (Entity × Collision) → Prop)
    (f g : Registry → Option Registry)
    (h : ∀ c, g { r0 with collisions := c } = f { r0 with collisions := c })
    (hf : Emits r0 Q f) : Emits r0 Q g := by
  intro c
  rw [h c]
  exact hf c

theorem emits_bind (r0 : Registry) (Q1 Q2 Q : List (Entity × Collision) → Prop)
    (f g : Registry → Option Registry)
    (happ : ∀ a b, Q1 a → Q2 b → Q (a ++ b))
    (hf : Emits r0 Q1 f) (hg : Emits r0 Q2 g) :
    Emits r0 Q (fun r => (f r).bind g) := by
  intro c
  obtain ⟨l1, h1, q1⟩ := hf c
  obtain ⟨l2, h2, q2⟩ := hg (c ++ l1)
  refine ⟨l1 ++ l2, ?_, happ l1 l2 q1 q2⟩
  simp only [h1, Option.some_bind, h2, List.append_assoc]

theorem emits_forEachEntity (r0 : Registry) (Q : List (Entity × Collision) → Prop)
    (body : Entity → Registry → Option Registry)
    (hnil : Q []) (happ : ∀ a b, Q a → Q b → Q (a ++ b)) (es : List Entity)
    (hbody : ∀ e, e ∈ es → Emits r0 Q (body e)) :
    Emits r0 Q (forEachEntity body es) := by
  induction es with
  | nil => exact emits_pure r0 Q hnil
  | cons e es ih =>
    have h1 : Emits r0 Q (body e) := hbody e (List.mem_cons_self e es)
    have h2 : Emits r0 Q (forEachEntity body es) :=
      ih (fun x hx => hbody x (List.mem_cons_of_mem e hx))
    exact emits_bind r0 Q Q Q (body e) (forEachEntity body es) happ h1 h2

theorem emits_loop (r0 : Registry) (Q : List (Entity × Collision) → Prop)
    (body : Entity → Registry → Option Registry) (sel : Registry → List Entity)
    (hsel : ∀ c, sel { r0 with collisions := c } = sel r0)
    (hnil : Q []) (happ : ∀ a b, Q a → Q b → Q (a ++ b))
    (hbody : ∀ e, e ∈ sel r0 → Emits r0 Q (body e)) :
    Emits r0 Q (fun r => forEachEntity body (sel r) r) := by
  intro c
  simp only [hsel c]
  exact emits_forEachEntity r0 Q body hnil happ (sel r0) hbody c

theorem emits_forEachRow {T : Type} (r0 : Registry) (Q : List (Entity × Collision) → Prop)
    (body : Entity × T → Registry → Option Registry)
    (hnil : Q []) (happ : ∀ a b, Q a → Q b → Q (a ++ b)) (rows : List (Entity × T))
    (hbody : ∀ e, e ∈ rows → Emits r0 Q (body e)) :
    Emits r0 Q (forEachRow body rows) := by
  induction rows with
  | nil => exact emits_pure r0 Q hnil
  | cons e es ih =>
    have h1 : Emits r0 Q (body e) := hbody e (List.mem_cons_self e es)
    have h2 : Emits r0 Q (forEachRow body es) :=
      ih (fun x hx => hbody x (List.mem_cons_of_mem e hx))
    exact emits_bind r0 Q Q Q (body e) (forEachRow body es) happ h1 h2

theorem emits_checkBox (ext : Ext) (r0 : Registry) (Q : List (Entity × Collision) → Prop)
    (i j : Entity) (hnil : Q [])
    (hpair : boxHit ext r0 i j = true → Q (pairRecords i j)) :
    Emits r0 Q (fun r => (checkBoxCollision ext i j r).map Prod.snd) := by
  intro c
  have hb : boxHit ext { r0 with collisions := c } i j = boxHit ext r0 i j := rfl
  simp only [checkBoxCollision_eq, Option.map_some', hb, recordPair_eq]
  by_cases h : boxHit ext r0 i j = true
  · exact ⟨pairRecords i j, by simp [h], hpair h⟩
  · exact ⟨[], by simp [h], hnil⟩

theorem emits_checkCircle (ext : Ext) (r0 : Registry) (Q : List (Entity × Collision) → Prop)
    (i j : Entity) (hnil : Q [])
    (hpair : circleHit ext r0 i j = true → Q (pairRecords i j)) :
    Emits r0 Q (fun r => (checkCircleCollision ext i j r).map Prod.snd) := by
  intro c
  have hb : circleHit ext { r0 with collisions := c } i j = circleHit ext r0 i j := rfl
  simp only [checkCircleCollision_eq, Option.map_some', hb, recordPair_eq]
  by_cases h : circleHit ext r0 i j = true
  · exact ⟨pairRecords i j, by simp [h], hpair h⟩
  · exact ⟨[], by simp [h], hnil⟩

theorem emits_checkMesh (ext : Ext) (r0 : Registry) (Q : List (Entity × Collision) → Prop)
    (i j mesh : Entity) (hnil : Q [])
    (hpair : boxHit ext r0 i j = true → Q (pairRecords i j)) :
    Emits r0 Q (fun r => (checkPlayerMeshCollision ext i j mesh r).map Prod.snd) := by
  intro c
  simp only [checkPlayerMeshCollision_eq, Option.map_some', recordPair_eq]
  by_cases h : meshHit ext { r0 with collisions := c } i j mesh = true
  · have hb : boxHit ext r0 i j = true := by
      unfold meshHit at h
      simp only [Bool.and_eq_true] at h
      exact h.1
    exact ⟨pairRecords i j, by simp [h], hpair hb⟩
  · exact ⟨[], by simp [h], hnil⟩

theorem get_isSome_of_mem_entities {T : Type} (c : ComponentContainer T) (e : Entity)
    (h : e ∈ c.entities) : ∃ v, c.get e = some v := by
  induction c with
  | nil => simp [ComponentContainer.entities] at h
  | cons hd tl ih =>
    obtain ⟨k, v⟩ := hd
    by_cases hk : k = e
    · exact ⟨v, by simp [ComponentContainer.get, hk]⟩
    · have : e ∈ ComponentContainer.entities tl := by
        simp only [ComponentContainer.entities, List.map_cons, List.mem_cons] at h
        rcases h with h | h
        · exact absurd h.symm hk
        · exact h
      obtain ⟨w, hw⟩ := ih this
      exact ⟨w, by simp [ComponentContainer.get, hk, hw]⟩

theorem mem_entities_of_get {T : Type} (c : ComponentContainer T) (e : Entity) (v : T)
    (h : c.get e = some v) : e ∈ c.entities := by
  induction c with
  | nil => simp [ComponentContainer.get] at h
  | cons hd tl ih =>
    obtain ⟨k, w⟩ := hd
    by_cases hk : k = e
    · simp [ComponentContainer.entities, hk]
    · simp only [ComponentContainer.get, hk, if_false] at h
      have := ih h
      simp only [ComponentContainer.entities, List.map_cons, List.mem_cons]
      exact Or.inr this

theorem has_iff_mem_entities {T : Type} (c : ComponentContainer T) (e : Entity) :
    c.has e = true ↔ e ∈ c.entities := by
  constructor
  · intro h
    unfold ComponentContainer.has at h
    cases hg : c.get e with
    | none => simp [hg] at h
    | some v => exact mem_entities_of_get c e v hg
  · intro h
    obtain ⟨v, hv⟩ := get_isSome_of_mem_entities c e h
    simp [ComponentContainer.has, hv]

theorem emits_detectProjectileEnemies (ext : Ext) (r0 : Registry)
    (Q : List (Entity × Collision) → Prop) (p : Entity) (comp : PlayerProjectile)
    (hnil : Q []) (happ : ∀ a b, Q a → Q b → Q (a ++ b)) (es : List Entity)
    (hpair : ∀ e, e ∈ es → circleHit ext r0 p e = true → Q (pairRecords p e)) :
    Emits r0 Q (detectProjectileEnemies ext p comp es) := by
  induction es with
  | nil => exact emits_pure r0 Q hnil
  | cons e es ih =>
    have ih2 := ih (fun x hx => hpair x (List.mem_cons_of_mem e hx))
    intro c
    have hb : circleHit ext { r0 with collisions := c } p e = circleHit ext r0 p e := rfl
    simp only [detectProjectileEnemies, checkCircleCollision_eq, hb, recordPair_eq]
    by_cases h : circleHit ext r0 p e = true
    · have q1 : Q (pairRecords p e) := hpair e (List.mem_cons_self e es) h
      by_cases hs : isSingleTarget comp.type = true
      · exact ⟨pairRecords p e, by simp [h, hs], q1⟩
      · obtain ⟨l, h1, q2⟩ := ih2 (c ++ pairRecords p e)
        refine ⟨pairRecords p e ++ l, ?_, happ _ _ q1 q2⟩
        simp [h, hs, h1]
    · obtain ⟨l, h1, q2⟩ := ih2 c
      exact ⟨l, by simp [h, h1], q2⟩

theorem emits_detectPlayerProjectileCollisions_body (ext : Ext) (r0 : Registry)
    (Q : List (Entity × Collision) → Prop)
    (hnil : Q []) (happ : ∀ a b, Q a → Q b → Q (a ++ b))
    (hpair : ∀ i j, ProjPair r0 i j → Q (pairRecords i j))
    (row : Entity × PlayerProjectile) (hrow : row ∈ r0.playerProjectiles) :
    Emits r0 Q (detectPlayerProjectileCollisions_body ext row) := by
  intro c
  have hmem : row.1 ∈ r0.playerProjectiles.entities :=
    List.mem_map_of_mem Prod.fst hrow
  unfold detectPlayerProjectileCollisions_body
  by_cases hp : r0.positions.has row.1 = true
  · obtain ⟨comp, hcomp⟩ := get_isSome_of_mem_entities _ _ hmem
    by_cases hl : comp.is_loaded = true
    · exact ⟨[], by simp [hp, hcomp, hl], hnil⟩
    · have hl2 : comp.is_loaded = false := by simpa using hl
      have hwalls : Emits r0 Q (forEachEntity
          (fun entity_j r1 => (checkBoxCollision ext row.1 entity_j r1).map Prod.snd)
          r0.activeWalls.entities) := by
        apply emits_forEachEntity r0 Q _ hnil happ
        intro e he
        apply emits_checkBox ext r0 Q row.1 e hnil
        intro hb
        exact hpair _ _ ⟨hp, (boxHit_has ext r0 _ _ hb).2, hmem, ⟨comp, hcomp, hl2⟩, Or.inl he⟩
      have henemies : Emits r0 Q
          (fun r1 => detectProjectileEnemies ext row.1 row.2 r1.deadlys.entities r1) := by
        apply emits_congr r0 Q (detectProjectileEnemies ext row.1 row.2 r0.deadlys.entities) _
          (fun _ => rfl)
        apply emits_detectProjectileEnemies ext r0 Q row.1 row.2 hnil happ
        intro e he hb
        exact hpair _ _ ⟨hp, (circleHit_has ext r0 _ _ hb).2, hmem, ⟨comp, hcomp, hl2⟩, Or.inr he⟩
      have := emits_bind r0 Q Q Q _ _ happ hwalls henemies c
      simpa [hp, hcomp, hl2] using this
  · exact ⟨[], by simp [hp], hnil⟩

theorem emits_detectPlayerProjectileCollisions (ext : Ext) (r0 : Registry)
    (Q : List (Entity × Collision) → Prop)
    (hnil : Q []) (happ : ∀ a b, Q a → Q b → Q (a ++ b))
    (hpair : ∀ i j, ProjPair r0 i j → Q (pairRecords i j)) :
    Emits r0 Q (detectPlayerProjectileCollisions ext) := by
  intro c
  exact emits_forEachRow r0 Q _ hnil happ r0.playerProjectiles
    (emits_detectPlayerProjectileCollisions_body ext r0 Q hnil happ hpair) c

theorem onCooldown_total (r : Registry) (e : Entity) : ∃ b, onCooldown r e = some b := by
  unfold onCooldown ComponentContainer.has
  cases h : r.modifyOxygenCd.get e <;> simp

theorem emits_detectPlayerCollisions (ext : Ext) (r0 : Registry)
    (Q : List (Entity × Collision) → Prop)
    (hnil : Q []) (happ : ∀ a b, Q a → Q b → Q (a ++ b))
    (hpair : ∀ i j, PlayerPair r0 i j → Q (pairRecords i j)) :
    Emits r0 Q (detectPlayerCollisions ext) := by
  have hbody : ∀ i, i ∈ r0.players.entities →
      Emits r0 Q (detectPlayerCollisions_body ext i) := by
    intro i hmem c
    unfold detectPlayerCollisions_body
    by_cases hp : r0.positions.has i = true
    · obtain ⟨comp, hcomp⟩ := get_isSome_of_mem_entities _ _ hmem
      have hguard : ∀ (sel : Registry → List Entity),
          (∀ c, sel { r0 with collisions := c } = sel r0) →
          (∀ e, e ∈ sel r0 → boxHit ext r0 i e = true → onCooldown r0 e = some false →
            Q (pairRecords i e)) →
          Emits r0 Q (fun r => forEachEntity (fun entity_j r1 =>
            match onCooldown r1 entity_j with
            | none => none
            | some true => some r1
            | some false =>
              (checkPlayerMeshCollision ext i entity_j comp.collisionMesh r1).map Prod.snd)
            (sel r) r) := by
        intro sel hsel hes
        apply emits_loop r0 Q _ sel hsel hnil happ
        intro e he
        obtain ⟨b, hb⟩ := onCooldown_total r0 e
        cases b with
        | true =>
          apply emits_congr r0 Q some _ _ (emits_pure r0 Q hnil)
          intro c2
          have : onCooldown { r0 with collisions := c2 } e = some true := hb
          simp only [this]
        | false =>
          apply emits_congr r0 Q
            (fun r1 => (checkPlayerMeshCollision ext i e comp.collisionMesh r1).map Prod.snd) _ _
            (emits_checkMesh ext r0 Q i e comp.collisionMesh hnil (fun h => hes e he h hb))
          intro c2
          have : onCooldown { r0 with collisions := c2 } e = some false := hb
          simp only [this]
      have hplain : ∀ (sel : Registry → List Entity),
          (∀ c, sel { r0 with collisions := c } = sel r0) →
          (∀ e, e ∈ sel r0 → boxHit ext r0 i e = true → Q (pairRecords i e)) →
          Emits r0 Q (fun r => forEachEntity (fun entity_j r1 =>
              (checkPlayerMeshCollision ext i entity_j comp.collisionMesh r1).map Prod.snd)
              (sel r) r) := by
        intro sel hsel hes
        apply emits_loop r0 Q _ sel hsel hnil happ
        intro e he
        exact emits_checkMesh ext r0 Q i e comp.collisionMesh hnil (fun h => hes e he h)
      have h1 := hguard (fun r => r.deadlys.entities) (fun _ => rfl) (fun e he hb hcd =>
        hpair _ _ ⟨hp, (boxHit_has ext r0 _ _ hb).2, hmem, Or.inl ⟨he, hcd⟩⟩)
      have h2 := hplain (fun r => r.enemyProjectiles.entities) (fun _ => rfl) (fun e he hb =>
        hpair _ _ ⟨hp, (boxHit_has ext r0 _ _ hb).2, hmem, Or.inr (Or.inl he)⟩)
      have h3 := hplain (fun r => r.consumables.entities) (fun _ => rfl) (fun e he hb =>
        hpair _ _ ⟨hp, (boxHit_has ext r0 _ _ hb).2, hmem, Or.inr (Or.inr (Or.inl he))⟩)
      have h4 := hguard (fun r => r.interactable.entities) (fun _ => rfl) (fun e he hb hcd =>
        hpair _ _ ⟨hp, (boxHit_has ext r0 _ _ hb).2, hmem, Or.inr (Or.inr (Or.inr ⟨he, hcd⟩))⟩)
      have h34 := emits_bind r0 Q Q Q _ _ happ h3 h4
      have h234 := emits_bind r0 Q Q Q _ _ happ h2 h34
      have h1234 := emits_bind r0 Q Q Q _ _ happ h1 h234 c
      simpa [hp, hcomp] using h1234
    · exact ⟨[], by simp [hp], hnil⟩
  exact emits_loop r0 Q _ (fun r => r.players.entities) (fun _ => rfl) hnil happ hbody

theorem emits_detectWallCollisions (ext : Ext) (r0 : Registry)
    (Q : List (Entity × Collision) → Prop)
    (hnil : Q []) (happ : ∀ a b, Q a → Q b → Q (a ++ b))
    (hpair : ∀ i j, WallPair r0 i j → Q (pairRecords i j)) :
    Emits r0 Q (detectWallCollisions ext) := by
  have hbody : ∀ i, i ∈ r0.activeWalls.entities →
      Emits r0 Q (detectWallCollisions_body ext i) := by
    intro i hmem c
    unfold detectWallCollisions_body
    by_cases hp : r0.positions.has i = true
    · have hbox : ∀ (sel : Registry → List Entity),
          (∀ c, sel { r0 with collisions := c } = sel r0) →
          (∀ e, e ∈ sel r0 → boxHit ext r0 i e = true → Q (pairRecords i e)) →
          Emits r0 Q (fun r => forEachEntity (fun entity_j r1 =>
              (checkBoxCollision ext i entity_j r1).map Prod.snd) (sel r) r) := by
        intro sel hsel hes
        apply emits_loop r0 Q _ sel hsel hnil happ
        intro e he
        exact emits_checkBox ext r0 Q i e hnil (fun h => hes e he h)
      have hmass : Emits r0 Q (fun r => forEachEntity (fun entity_j r1 =>
          if i = entity_j then some r1
          else if r1.players.has entity_j then
            match r1.players.get entity_j with
            | none => none
            | some player_comp =>
              (checkPlayerMeshCollision ext entity_j i player_comp.collisionMesh r1).map Prod.snd
          else (checkBoxCollision ext i entity_j r1).map Prod.snd) r.masses.entities r) := by
        apply emits_loop r0 Q _ (fun r => r.masses.entities) (fun _ => rfl) hnil happ
        intro e he
        by_cases hie : i = e
        · apply emits_congr r0 Q some _ _ (emits_pure r0 Q hnil)
          intro c2
          simp [hie]
        · by_cases hpl : r0.players.has e = true
          · have hpl2 := hpl
            unfold ComponentContainer.has at hpl2
            cases hg : r0.players.get e with
            | none => simp [hg] at hpl2
            | some pc =>
              apply emits_congr r0 Q
                (fun r1 => (checkPlayerMeshCollision ext e i pc.collisionMesh r1).map Prod.snd) _ _
                (emits_checkMesh ext r0 Q e i pc.collisionMesh hnil (fun h =>
                  hpair _ _ ⟨(boxHit_has ext r0 _ _ h).1, hp, Or.inr ⟨hmem, he, hie, hpl⟩⟩))
              intro c2
              simp [hie, hpl, hg]
          · have hpl3 : r0.players.has e = false := by simpa using hpl
            apply emits_congr r0 Q
              (fun r1 => (checkBoxCollision ext i e r1).map Prod.snd) _ _
              (emits_checkBox ext r0 Q i e hnil (fun h =>
                hpair _ _ ⟨hp, (boxHit_has ext r0 _ _ h).2,
                  Or.inl ⟨hmem, Or.inr (Or.inr ⟨he, hie, hpl3⟩)⟩⟩))
            intro c2
            simp [hie, hpl3]
      have h1 := hbox (fun r => r.deadlys.entities) (fun _ => rfl) (fun e he hb =>
        hpair _ _ ⟨hp, (boxHit_has ext r0 _ _ hb).2, Or.inl ⟨hmem, Or.inl he⟩⟩)
      have h2 := hbox (fun r => r.enemyProjectiles.entities) (fun _ => rfl) (fun e he hb =>
        hpair _ _ ⟨hp, (boxHit_has ext r0 _ _ hb).2, Or.inl ⟨hmem, Or.inr (Or.inl he)⟩⟩)
      have h23 := emits_bind r0 Q Q Q _ _ happ h2 hmass
      have h123 := emits_bind r0 Q Q Q _ _ happ h1 h23 c
      simpa [hp] using h123
    · exact ⟨[], by simp [hp], hnil⟩
  exact emits_loop r0 Q _ (fun r => r.activeWalls.entities) (fun _ => rfl) hnil happ hbody

theorem emits_detectDoorCollisions (ext : Ext) (r0 : Registry)
    (Q : List (Entity × Collision) → Prop)
    (hnil : Q []) (happ : ∀ a b, Q a → Q b → Q (a ++ b))
    (hpair : ∀ i j, DoorPair r0 i j → Q (pairRecords i j)) :
    Emits r0 Q (detectDoorCollisions ext) := by
  have hbody : ∀ i, i ∈ r0.activeDoors.entities →
      Emits r0 Q (detectDoorCollisions_body ext i) := by
    intro i hmem c
    unfold detectDoorCollisions_body
    have h1 : Emits r0 Q (fun r => forEachEntity (fun entity_j r1 =>
        (checkBoxCollision ext i entity_j r1).map Prod.snd) r.deadlys.entities r) := by
      apply emits_loop r0 Q _ (fun r => r.deadlys.entities) (fun _ => rfl) hnil happ
      intro e he
      exact emits_checkBox ext r0 Q i e hnil (fun h =>
        hpair _ _ ⟨(boxHit_has ext r0 _ _ h).1, (boxHit_has ext r0 _ _ h).2, Or.inl ⟨hmem, he⟩⟩)
    have h2 : Emits r0 Q (fun r => forEachEntity (fun entity_j r1 =>
        match r1.players.get entity_j with
        | none => none
        | some player_comp =>
          (checkPlayerMeshCollision ext entity_j i player_comp.collisionMesh r1).map Prod.snd)
        r.players.entities r) := by
      apply emits_loop r0 Q _ (fun r => r.players.entities) (fun _ => rfl) hnil happ
      intro e he
      obtain ⟨pc, hg⟩ := get_isSome_of_mem_entities _ _ he
      apply emits_congr r0 Q
        (fun r1 => (checkPlayerMeshCollision ext e i pc.collisionMesh r1).map Prod.snd) _ _
        (emits_checkMesh ext r0 Q e i pc.collisionMesh hnil (fun h =>
          hpair _ _ ⟨(boxHit_has ext r0 _ _ h).1, (boxHit_has ext r0 _ _ h).2,
            Or.inr ⟨hmem, he⟩⟩))
      intro c2
      simp [hg]
    exact emits_bind r0 Q Q Q _ _ happ h1 h2 c
  exact emits_loop r0 Q _ (fun r => r.activeDoors.entities) (fun _ => rfl) hnil happ hbody

theorem emits_collision_detection (ext : Ext) (r0 : Registry)
    (Q : List (Entity × Collision) → Prop)
    (hnil : Q []) (happ : ∀ a b, Q a → Q b → Q (a ++ b))
    (hpair : ∀ i j, DetectedPair r0 i j → Q (pairRecords i j)) :
    Emits r0 Q (collision_detection ext) := by
  have h1 := emits_detectPlayerProjectileCollisions ext r0 Q hnil happ
    (fun i j h => hpair i j (Or.inl h))
  have h2 := emits_detectPlayerCollisions ext r0 Q hnil happ
    (fun i j h => hpair i j (Or.inr (Or.inl h)))
  have h3 := emits_detectWallCollisions ext r0 Q hnil happ
    (fun i j h => hpair i j (Or.inr (Or.inr (Or.inl h))))
  have h4 := emits_detectDoorCollisions ext r0 Q hnil happ
    (fun i j h => hpair i j (Or.inr (Or.inr (Or.inr h))))
  have h34 := emits_bind r0 Q Q Q _ _ happ h3 h4
  have h234 := emits_bind r0 Q Q Q _ _ happ h2 h34
  exact emits_bind r0 Q Q Q _ _ happ h1 h234

theorem with_collisions_self (r : Registry) : { r with collisions := r.collisions } = r := by
  cases r
  rfl

theorem emits_apply (r : Registry) (Q : List (Entity × Collision) → Prop)
    (f : Registry → Option Registry) (h : Emits r Q f) :
    ∃ l, f r = some { r with collisions := r.collisions ++ l } ∧ Q l := by
  have := h r.collisions
  rwa [with_collisions_self] at this

/-! ### C1: symmetry of the collision table -/

/-- C1. Starting from an empty collision table, `collision_detection` returns
a registry in which every collision record (i, j) has a matching record (j, i);
and on any registry each of `checkBoxCollision`, `checkCircleCollision` and
`checkPlayerMeshCollision` appends either both directions of the pair or
nothing. -/
theorem collision_detection_symmetric (ext : Ext) (r : Registry) (hempty : r.collisions = []) :
    (∃ r2, collision_detection ext r = some r2 ∧
      ∀ i j, (i, (⟨j⟩ : Collision)) ∈ r2.collisions → (j, (⟨i⟩ : Collision)) ∈ r2.collisions) ∧
    (∀ (s : Registry) (i j : Entity), ∃ b s2, checkBoxCollision ext i j s = some (b, s2) ∧
      (s2 = s ∨ s2 = { s with collisions := s.collisions ++ [(i, ⟨j⟩), (j, ⟨i⟩)] })) ∧
    (∀ (s : Registry) (i j : Entity), ∃ b s2, checkCircleCollision ext i j s = some (b, s2) ∧
      (s2 = s ∨ s2 = { s with collisions := s.collisions ++ [(i, ⟨j⟩), (j, ⟨i⟩)] })) ∧
    (∀ (s : Registry) (i j mesh : Entity), ∃ b s2,
      checkPlayerMeshCollision ext i j mesh s = some (b, s2) ∧
      (s2 = s ∨ s2 = { s with collisions := s.collisions ++ [(i, ⟨j⟩), (j, ⟨i⟩)] })) := by
  refine ⟨?_, ?_, ?_, ?_⟩
  · have hemit := emits_collision_detection ext r
      (fun l => ∀ x, x ∈ l → (x.2.other, (⟨x.1⟩ : Collision)) ∈ l)
      (by intro x hx; simp at hx)
      (by
        intro a b ha hb x hx
        rcases List.mem_append.mp hx with h | h
        · exact List.mem_append.mpr (Or.inl (ha x h))
        · exact List.mem_append.mpr (Or.inr (hb x h)))
      (by
        intro i j _ x hx
        simp only [pairRecords, List.mem_cons, List.mem_singleton, List.not_mem_nil,
          or_false] at hx
        rcases hx with h | h <;> subst h <;> simp [pairRecords])
    obtain ⟨l, hl, hq⟩ := emits_apply r _ _ hemit
    refine ⟨_, hl, ?_⟩
    intro i j hij
    simp only [hempty, List.nil_append] at hij ⊢
    exact hq (i, ⟨j⟩) hij
  · intro s i j
    refine ⟨_, _, checkBoxCollision_eq ext i j s, ?_⟩
    by_cases h : boxHit ext s i j = true
    · right
      simp [h, recordPair_eq, pairRecords]
    · left
      simp [h]
  · intro s i j
    refine ⟨_, _, checkCircleCollision_eq ext i j s, ?_⟩
    by_cases h : circleHit ext s i j = true
    · right
      simp [h, recordPair_eq, pairRecords]
    · left
      simp [h]
  · intro s i j mesh
    refine ⟨_, _, checkPlayerMeshCollision_eq ext i j mesh s, ?_⟩
    by_cases h : meshHit ext s i j mesh = true
    · right
      simp [h, recordPair_eq, pairRecords]
    · left
      simp [h]

/-! ### C2: loaded projectiles -/

/-- C2 (counterexample). In `loadedMassScene` the wall phase of
`collision_detection` records the pair of the wall 1 and the loaded projectile
2, which has a Mass: the table ends as [(1, 2), (2, 1)]. -/
theorem loaded_projectile_with_mass_recorded :
    collision_detection sampleExt loadedMassScene
      = some { loadedMassScene with collisions := [(1, ⟨2⟩), (2, ⟨1⟩)] } ∧
    loadedMassScene.collisions = [] ∧
    loadedMassScene.playerProjectiles.get 2 = some ⟨true, PROJECTILES.HARPOON, false⟩ := by
  refine ⟨?_, rfl, rfl⟩
  simp [collision_detection, detectPlayerProjectileCollisions, detectPlayerCollisions,
    detectWallCollisions, detectDoorCollisions, loadedMassScene, emptyRegistry, forEachRow,
    forEachEntity, detectPlayerProjectileCollisions_body, detectWallCollisions_body,
    ComponentContainer.entities, ComponentContainer.has, ComponentContainer.get,
    checkBoxCollision, sampleExt, box_collides, get_bounds, unitBoxAt, recordPair,
    ComponentContainer.emplace_with_duplicates]

theorem ne_of_mem_entities_of_not_has {T : Type} (c : ComponentContainer T) (e p : Entity)
    (hmem : e ∈ c.entities) (hp : c.has p = false) : e ≠ p := by
  intro h
  subst h
  have := (has_iff_mem_entities c e).mpr hmem
  simp [hp] at this

theorem detectedPair_ne_loaded (r : Registry) (p : Entity) (comp : PlayerProjectile)
    (hget : r.playerProjectiles.get p = some comp) (hloaded : comp.is_loaded = true)
    (honly : onlyProjectile r p) (i j : Entity) (h : DetectedPair r i j) :
    i ≠ p ∧ j ≠ p := by
  obtain ⟨hpl, hde, hep, hco, hin, hwa, hdo, hma⟩ := honly
  rcases h with h | h | h | h
  · obtain ⟨_, _, _, ⟨c2, hc2, hl2⟩, hj⟩ := h
    refine ⟨?_, ?_⟩
    · intro hip
      subst hip
      rw [hget] at hc2
      cases hc2
      simp [hloaded] at hl2
    · rcases hj with hj | hj
      · exact ne_of_mem_entities_of_not_has _ _ _ hj hwa
      · exact ne_of_mem_entities_of_not_has _ _ _ hj hde
  · obtain ⟨_, _, hi, hj⟩ := h
    refine ⟨ne_of_mem_entities_of_not_has _ _ _ hi hpl, ?_⟩
    rcases hj with hj | hj | hj | hj
    · exact ne_of_mem_entities_of_not_has _ _ _ hj.1 hde
    · exact ne_of_mem_entities_of_not_has _ _ _ hj hep
    · exact ne_of_mem_entities_of_not_has _ _ _ hj hco
    · exact ne_of_mem_entities_of_not_has _ _ _ hj.1 hin
  · obtain ⟨_, _, h⟩ := h
    rcases h with ⟨hi, hj⟩ | ⟨hj, hi, _, _⟩
    · refine ⟨ne_of_mem_entities_of_not_has _ _ _ hi hwa, ?_⟩
      rcases hj with hj | hj | hj
      · exact ne_of_mem_entities_of_not_has _ _ _ hj hde
      · exact ne_of_mem_entities_of_not_has _ _ _ hj hep
      · exact ne_of_mem_entities_of_not_has _ _ _ hj.1 hma
    · exact ⟨ne_of_mem_entities_of_not_has _ _ _ hi hma,
        ne_of_mem_entities_of_not_has _ _ _ hj hwa⟩
  · obtain ⟨_, _, h⟩ := h
    rcases h with ⟨hi, hj⟩ | ⟨hj, hi⟩
    · exact ⟨ne_of_mem_entities_of_not_has _ _ _ hi hdo,
        ne_of_mem_entities_of_not_has _ _ _ hj hde⟩
    · exact ⟨ne_of_mem_entities_of_not_has _ _ _ hi hpl,
        ne_of_mem_entities_of_not_has _ _ _ hj hdo⟩

/-- C2 (amended). For every registry state, `collision_detection` succeeds,
only appends to the collision table, and appends no record in which either
side is a player projectile whose `is_loaded` flag is true, provided that
entity carries no other detection tag (Player, Deadly, EnemyProjectile,
Consumable, Interactable, ActiveWall, ActiveDoor, Mass). -/
theorem collision_detection_excludes_loaded (ext : Ext) (r : Registry) (p : Entity)
    (comp : PlayerProjectile)
    (hget : r.playerProjectiles.get p = some comp) (hloaded : comp.is_loaded = true)
    (honly : onlyProjectile r p) :
    ∃ l, collision_detection ext r = some { r with collisions := r.collisions ++ l } ∧
      ∀ x, x ∈ l → x.1 ≠ p ∧ x.2.other ≠ p := by
  apply emits_apply r (fun l => ∀ x, x ∈ l → x.1 ≠ p ∧ x.2.other ≠ p)
  apply emits_collision_detection ext r
  · intro x hx
    simp at hx
  · intro a b ha hb x hx
    rcases List.mem_append.mp hx with h | h
    · exact ha x h
    · exact hb x h
  · intro i j hij x hx
    have hne := detectedPair_ne_loaded r p comp hget hloaded honly i j hij
    simp only [pairRecords, List.mem_cons, List.mem_singleton, List.not_mem_nil,
      or_false] at hx
    rcases hx with h | h <;> subst h
    · exact hne
    · exact ⟨hne.2, hne.1⟩

/-! ### C3, C4: single-target and multi-hit projectiles -/

theorem detectProjectileEnemies_single (ext : Ext) (p : Entity) (comp : PlayerProjectile)
    (hs : isSingleTarget comp.type = true) (es : List Entity) (r : Registry) :
    detectProjectileEnemies ext p comp es r
      = some (match es.find? (fun e => circleHit ext r p e) with
              | none => r
              | some e => recordPair p e r) := by
  induction es with
  | nil => simp [detectProjectileEnemies]
  | cons e es ih =>
    simp only [detectProjectileEnemies, checkCircleCollision_eq, hs, Bool.and_true,
      List.find?_cons]
    by_cases h : circleHit ext r p e = true
    · simp [h]
    · have h2 : circleHit ext r p e = false := by simpa using h
      simp [h2, ih]

theorem emits_wall_loop (ext : Ext) (r0 : Registry) (p : Entity) :
    Emits r0 (fun l => ∀ x, x ∈ l → ∃ w, w ∈ r0.activeWalls.entities ∧ x ∈ pairRecords p w)
      (fun r => forEachEntity
        (fun entity_j r1 => (checkBoxCollision ext p entity_j r1).map Prod.snd)
        r.activeWalls.entities r) := by
  apply emits_loop r0 _ _ (fun r => r.activeWalls.entities) (fun _ => rfl)
  · intro x hx
    simp at hx
  · intro a b ha hb x hx
    rcases List.mem_append.mp hx with h | h
    · exact ha x h
    · exact hb x h
  · intro e he
    apply emits_checkBox ext r0 _ p e
    · intro x hx
      simp at hx
    · intro _ x hx
      exact ⟨e, he, hx⟩

/-- The loop body of `detectPlayerProjectileCollisions` on the row of an active
single-target projectile `p`: it appends the wall-test records of `p` and then,
from the enemy test, the pair of `p` with the first enemy in enemy-table order
that circle-collides with it, or nothing. -/
theorem detectPlayerProjectileCollisions_body_single (ext : Ext) (r : Registry) (p : Entity)
    (comp : PlayerProjectile)
    (hsingle : comp.type = PROJECTILES.HARPOON ∨ comp.type = PROJECTILES.NET ∨
      comp.type = PROJECTILES.TORPEDO)
    (hpos : r.positions.has p = true)
    (hget : r.playerProjectiles.get p = some comp) (hactive : comp.is_loaded = false) :
    ∃ walls, (∀ x, x ∈ walls → ∃ w, w ∈ r.activeWalls.entities ∧ x ∈ pairRecords p w) ∧
      detectPlayerProjectileCollisions_body ext (p, comp) r
        = some { r with collisions := r.collisions ++ walls ++
            (match firstEnemyHit ext r p with
             | none => []
             | some e => [(p, ⟨e⟩), (e, ⟨p⟩)]) } := by
  have hs : isSingleTarget comp.type = true := by
    rcases hsingle with h | h | h <;> simp [isSingleTarget, h]
  obtain ⟨walls, hw, hq⟩ := emits_apply r _ _ (emits_wall_loop ext r p)
  refine ⟨walls, hq, ?_⟩
  unfold detectPlayerProjectileCollisions_body
  simp only [hpos, hget, hactive, hw, Option.some_bind, detectProjectileEnemies_single ext p comp hs]
  have hc : ∀ e, circleHit ext { r with collisions := r.collisions ++ walls } p e
      = circleHit ext r p e := fun _ => rfl
  simp only [hc, firstEnemyHit]
  cases List.find? (fun e => circleHit ext r p e) r.deadlys.entities with
  | none => simp
  | some e => simp [recordPair_eq, pairRecords]

theorem emits_detectProjectileEnemies_multi (ext : Ext) (r0 : Registry) (p : Entity)
    (comp : PlayerProjectile) (hm : isSingleTarget comp.type = false) (es : List Entity) :
    Emits r0 (fun l => ∀ e, e ∈ es → circleHit ext r0 p e = true →
        (p, (⟨e⟩ : Collision)) ∈ l ∧ (e, (⟨p⟩ : Collision)) ∈ l)
      (detectProjectileEnemies ext p comp es) := by
  induction es with
  | nil =>
    intro c
    exact ⟨[], by simp [detectProjectileEnemies], by intro e he; simp at he⟩
  | cons e es ih =>
    intro c
    have hb : circleHit ext { r0 with collisions := c } p e = circleHit ext r0 p e := rfl
    simp only [detectProjectileEnemies, checkCircleCollision_eq, hb, recordPair_eq, hm,
      Bool.and_false]
    by_cases h : circleHit ext r0 p e = true
    · obtain ⟨l, h1, q⟩ := ih (c ++ pairRecords p e)
      refine ⟨pairRecords p e ++ l, by simp [h, h1], ?_⟩
      intro x hx hhit
      rcases List.mem_cons.mp hx with hxe | hxe
      · subst hxe
        simp [pairRecords]
      · have := q x hxe hhit
        exact ⟨List.mem_append.mpr (Or.inr this.1), List.mem_append.mpr (Or.inr this.2)⟩
    · obtain ⟨l, h1, q⟩ := ih c
      refine ⟨l, by simp [h, h1], ?_⟩
      intro x hx hhit
      rcases List.mem_cons.mp hx with hxe | hxe
      · subst hxe
        exact absurd hhit h
      · exact q x hxe hhit

theorem mem_of_get {T : Type} (c : ComponentContainer T) (e : Entity) (v : T)
    (h : c.get e = some v) : (e, v) ∈ c := by
  induction c with
  | nil => simp [ComponentContainer.get] at h
  | cons hd tl ih =>
    obtain ⟨k, w⟩ := hd
    by_cases hk : k = e
    · simp only [ComponentContainer.get, hk, if_true, Option.some.injEq] at h
      simp [hk, h]
    · simp only [ComponentContainer.get, hk, if_false] at h
      exact List.mem_cons_of_mem _ (ih h)

theorem forEachRow_append {T : Type} (body : Entity × T → Registry → Option Registry)
    (a b : List (Entity × T)) (r : Registry) :
    forEachRow body (a ++ b) r = (forEachRow body a r).bind (forEachRow body b) := by
  induction a generalizing r with
  | nil => simp [forEachRow]
  | cons x xs ih =>
    simp only [List.cons_append, forEachRow]
    cases body x r with
    | none => simp
    | some r1 => simp [ih]

/-- C4. For an active (not loaded) projectile `p` of type CONCUSSIVE or SHRIMP
that has a Position, `detectPlayerProjectileCollisions` returns a registry
whose collision table holds both records of the pair of `p` with every enemy
that has a Position and circle-collides with `p`. -/
theorem multi_hit_records_every_enemy (ext : Ext) (r : Registry) (p : Entity)
    (comp : PlayerProjectile)
    (hmulti : comp.type = PROJECTILES.CONCUSSIVE ∨ comp.type = PROJECTILES.SHRIMP)
    (hpos : r.positions.has p = true)
    (hget : r.playerProjectiles.get p = some comp) (hactive : comp.is_loaded = false) :
    ∃ r2, detectPlayerProjectileCollisions ext r = some r2 ∧
      ∀ e, e ∈ r.deadlys.entities → r.positions.has e = true → circleHit ext r p e = true →
        (p, (⟨e⟩ : Collision)) ∈ r2.collisions ∧ (e, (⟨p⟩ : Collision)) ∈ r2.collisions := by
  have hm : isSingleTarget comp.type = false := by
    rcases hmulti with h | h <;> simp [isSingleTarget, h]
  obtain ⟨pre, post, hsplit⟩ := List.append_of_mem (mem_of_get _ _ _ hget)
  have hany : ∀ rows : List (Entity × PlayerProjectile), (∀ x, x ∈ rows → x ∈ r.playerProjectiles) →
      Emits r (fun _ => True) (forEachRow (detectPlayerProjectileCollisions_body ext) rows) := by
    intro rows hrows
    apply emits_forEachRow r (fun _ => True) _ trivial (fun _ _ _ _ => trivial)
    intro row hrow
    exact emits_detectPlayerProjectileCollisions_body ext r (fun _ => True) trivial
      (fun _ _ _ _ => trivial) (fun _ _ _ => trivial) row (hrows row hrow)
  have hpre := hany pre (by intro x hx; rw [hsplit]; exact List.mem_append.mpr (Or.inl hx))
  have hpost := hany post (by
    intro x hx
    rw [hsplit]
    exact List.mem_append.mpr (Or.inr (List.mem_cons_of_mem _ hx)))
  have hrow : Emits r (fun l => ∀ e, e ∈ r.deadlys.entities → circleHit ext r p e = true →
        (p, (⟨e⟩ : Collision)) ∈ l ∧ (e, (⟨p⟩ : Collision)) ∈ l)
      (detectPlayerProjectileCollisions_body ext (p, comp)) := by
    have hw := emits_weaken r _ (fun _ => True) _ (fun _ _ => trivial) (emits_wall_loop ext r p)
    have he : Emits r (fun l => ∀ e, e ∈ r.deadlys.entities → circleHit ext r p e = true →
        (p, (⟨e⟩ : Collision)) ∈ l ∧ (e, (⟨p⟩ : Collision)) ∈ l)
        (fun r1 => detectProjectileEnemies ext p comp r1.deadlys.entities r1) :=
      emits_congr r _ (detectProjectileEnemies ext p comp r.deadlys.entities) _ (fun _ => rfl)
        (emits_detectProjectileEnemies_multi ext r p comp hm r.deadlys.entities)
    have hboth := emits_bind r (fun _ => True) _
      (fun l => ∀ e, e ∈ r.deadlys.entities → circleHit ext r p e = true →
        (p, (⟨e⟩ : Collision)) ∈ l ∧ (e, (⟨p⟩ : Collision)) ∈ l) _ _
      (by
        intro a b _ hb e he hhit
        have := hb e he hhit
        exact ⟨List.mem_append.mpr (Or.inr this.1), List.mem_append.mpr (Or.inr this.2)⟩)
      hw he
    intro c
    have := hboth c
    unfold detectPlayerProjectileCollisions_body
    simpa [hpos, hget, hactive] using this
  have hrest := emits_bind r _ (fun _ => True)
    (fun l => ∀ e, e ∈ r.deadlys.entities → circleHit ext r p e = true →
        (p, (⟨e⟩ : Collision)) ∈ l ∧ (e, (⟨p⟩ : Collision)) ∈ l) _ _
    (by
      intro a b ha _ e he hhit
      have := ha e he hhit
      exact ⟨List.mem_append.mpr (Or.inl this.1), List.mem_append.mpr (Or.inl this.2)⟩)
    hrow hpost
  have hall := emits_bind r (fun _ => True) _
    (fun l => ∀ e, e ∈ r.deadlys.entities → circleHit ext r p e = true →
        (p, (⟨e⟩ : Collision)) ∈ l ∧ (e, (⟨p⟩ : Collision)) ∈ l) _ _
    (by
      intro a b _ hb e he hhit
      have := hb e he hhit
      exact ⟨List.mem_append.mpr (Or.inr this.1), List.mem_append.mpr (Or.inr this.2)⟩)
    hpre hrest
  obtain ⟨l, hl, hq⟩ := emits_apply r _ _ hall
  refine ⟨{ r with collisions := r.collisions ++ l }, ?_, ?_⟩
  · have hrows : forEachRow (detectPlayerProjectileCollisions_body ext) r.playerProjectiles
        = forEachRow (detectPlayerProjectileCollisions_body ext) (pre ++ (p, comp) :: post) := by
      rw [hsplit]
    unfold detectPlayerProjectileCollisions
    rw [hrows, forEachRow_append]
    simp only [forEachRow]
    exact hl
  · intro e he _ hhit
    have := hq e he hhit
    exact ⟨List.mem_append.mpr (Or.inr this.1), List.mem_append.mpr (Or.inr this.2)⟩

/-! ### Entity store lemmas -/

theorem get_update {T : Type} (c : ComponentContainer T) (e e2 : Entity) (f : T → T) :
    (c.update e f).get e2 = if e2 = e then (c.get e).map f else c.get e2 := by
  induction c with
  | nil => simp [ComponentContainer.update, ComponentContainer.get]
  | cons hd tl ih =>
    obtain ⟨k, v⟩ := hd
    by_cases hk : k = e
    · subst hk
      by_cases h2 : e2 = k
      · subst h2
        simp [ComponentContainer.update, ComponentContainer.get]
      · have h3 : ¬ k = e2 := fun h => h2 h.symm
        simp [ComponentContainer.update, ComponentContainer.get, h2, h3]
    · by_cases h2 : e2 = e
      · subst h2
        simp [ComponentContainer.update, ComponentContainer.get, hk, ih]
      · by_cases h3 : k = e2
        · simp [ComponentContainer.update, ComponentContainer.get, hk, h3, h2]
        · simp [ComponentContainer.update, ComponentContainer.get, hk, h3, h2, ih]

theorem has_update {T : Type} (c : ComponentContainer T) (e e2 : Entity) (f : T → T) :
    (c.update e f).has e2 = c.has e2 := by
  unfold ComponentContainer.has
  rw [get_update]
  by_cases h : e2 = e
  · subst h
    cases c.get e2 <;> simp
  · simp [h]

theorem entities_update {T : Type} (c : ComponentContainer T) (e : Entity) (f : T → T) :
    (c.update e f).entities = c.entities := by
  induction c with
  | nil => simp [ComponentContainer.update]
  | cons hd tl ih =>
    obtain ⟨k, v⟩ := hd
    by_cases hk : k = e
    · simp [ComponentContainer.update, ComponentContainer.entities, hk]
    · simp only [ComponentContainer.update, hk, if_false]
      simp only [ComponentContainer.entities, List.map_cons] at ih ⊢
      rw [ih]

/-! ### C5: stop-on-wall -/

theorem push_out_overlap_zero (ex wx a b : Rat) (ha : 0 ≤ a) (hb : 0 ≤ b) :
    overlapLength
      (ex + (if ex < wx then
          -1 * min (ex + a / 2 - (wx - b / 2)) (wx + b / 2 - (ex - a / 2))
        else min (ex + a / 2 - (wx - b / 2)) (wx + b / 2 - (ex - a / 2))) - a / 2)
      (ex + (if ex < wx then
          -1 * min (ex + a / 2 - (wx - b / 2)) (wx + b / 2 - (ex - a / 2))
        else min (ex + a / 2 - (wx - b / 2)) (wx + b / 2 - (ex - a / 2))) + a / 2)
      (wx - b / 2) (wx + b / 2) = 0 := by
  unfold overlapLength
  by_cases h : ex < wx
  · have hmin : min (ex + a / 2 - (wx - b / 2)) (wx + b / 2 - (ex - a / 2))
        = ex + a / 2 - (wx - b / 2) := min_eq_left (by linarith)
    simp only [h, if_true, hmin]
    have h1 : ex + -1 * (ex + a / 2 - (wx - b / 2)) + a / 2 = wx - b / 2 := by ring
    have h2 : ex + -1 * (ex + a / 2 - (wx - b / 2)) - a / 2 ≤ wx - b / 2 := by linarith
    have h3 : wx - b / 2 ≤ wx + b / 2 := by linarith
    rw [h1, min_eq_left h3, max_eq_right h2]
    simp
  · have hmin : min (ex + a / 2 - (wx - b / 2)) (wx + b / 2 - (ex - a / 2))
        = wx + b / 2 - (ex - a / 2) := min_eq_right (by linarith)
    simp only [h, if_false, hmin]
    have h1 : ex + (wx + b / 2 - (ex - a / 2)) - a / 2 = wx + b / 2 := by ring
    have h2 : wx + b / 2 ≤ ex + (wx + b / 2 - (ex - a / 2)) + a / 2 := by linarith
    have h3 : wx - b / 2 ≤ wx + b / 2 := by linarith
    rw [h1, min_eq_right h2, max_eq_left h3]
    simp

theorem resolveStopOnWall_positions (r : Registry) (wall entity : Entity)
    (wall_position entity_position : Position)
    (hwall : r.positions.get wall = some wall_position)
    (hentity : r.positions.get entity = some entity_position) :
    ∃ r2, resolveStopOnWall wall entity r = some r2 ∧
      r2.positions = r.positions.update entity (stopCorrection wall_position entity_position) := by
  unfold resolveStopOnWall
  simp only [hwall, hentity]
  by_cases hax : stopAxisIsX wall_position entity_position = true
  · have hax2 := hax
    simp only [stopAxisIsX, decide_eq_true_eq] at hax2
    have hf : stopCorrection wall_position entity_position = fun p =>
        { p with position := ⟨p.position.x + pushX wall_position entity_position, p.position.y⟩ } := by
      funext p
      simp [stopCorrection, hax]
    simp only [hax2, if_true, hf]
    split <;> exact ⟨_, rfl, rfl⟩
  · have hax2 := hax
    simp only [stopAxisIsX, decide_eq_true_eq] at hax2
    have hf : stopCorrection wall_position entity_position = fun p =>
        { p with position := ⟨p.position.x, p.position.y + pushY wall_position entity_position⟩ } := by
      funext p
      simp [stopCorrection, hax]
    simp only [hax2, if_false, hf]
    split <;> exact ⟨_, rfl, rfl⟩

theorem push_ne_zero_of_box_collides (wall_position entity_position : Position)
    (hoverlap : box_collides wall_position entity_position = true) :
    pushX wall_position entity_position ≠ 0 ∧ pushY wall_position entity_position ≠ 0 := by
  simp only [box_collides, Bool.and_eq_true, decide_eq_true_eq] at hoverlap
  obtain ⟨⟨⟨h1, h2⟩, h3⟩, h4⟩ := hoverlap
  have hx : 0 < min ((get_bounds entity_position).v1 - (get_bounds wall_position).v0)
      ((get_bounds wall_position).v1 - (get_bounds entity_position).v0) :=
    lt_min (by linarith) (by linarith)
  have hy : 0 < min ((get_bounds entity_position).v3 - (get_bounds wall_position).v2)
      ((get_bounds wall_position).v3 - (get_bounds entity_position).v2) :=
    lt_min (by linarith) (by linarith)
  constructor
  · unfold pushX
    simp only []
    split <;> linarith
  · unfold pushY
    simp only []
    split <;> linarith

/-- C5 (amended). In exact arithmetic: for a wall and another entity whose
axis-aligned bounding boxes overlap on both axes, `resolveStopOnWall(wall,
entity)` returns, leaves the wall where it is, moves the entity by a correction
that is not zero along the axis chosen as the minimal-overlap axis, and the
corrected bounding box of the entity then meets the bounding box of the wall in
an interval of zero length along that axis. -/
theorem resolveStopOnWall_separates (r : Registry) (wall entity : Entity)
    (wall_position entity_position : Position)
    (hwall : r.positions.get wall = some wall_position)
    (hentity : r.positions.get entity = some entity_position)
    (hne : wall ≠ entity)
    (hoverlap : box_collides wall_position entity_position = true) :
    ∃ r2 corrected, resolveStopOnWall wall entity r = some r2 ∧
      r2.positions.get entity = some corrected ∧
      r2.positions.get wall = some wall_position ∧
      (if stopAxisIsX wall_position entity_position then
        pushX wall_position entity_position ≠ 0 ∧
        overlapLength (get_bounds corrected).v0 (get_bounds corrected).v1
          (get_bounds wall_position).v0 (get_bounds wall_position).v1 = 0
       else
        pushY wall_position entity_position ≠ 0 ∧
        overlapLength (get_bounds corrected).v2 (get_bounds corrected).v3
          (get_bounds wall_position).v2 (get_bounds wall_position).v3 = 0) := by
  have hx := push_out_overlap_zero entity_position.position.x wall_position.position.x
    |entity_position.scale.x| |wall_position.scale.x| (abs_nonneg _) (abs_nonneg _)
  have hy := push_out_overlap_zero entity_position.position.y wall_position.position.y
    |entity_position.scale.y| |wall_position.scale.y| (abs_nonneg _) (abs_nonneg _)
  obtain ⟨hpx, hpy⟩ := push_ne_zero_of_box_collides wall_position entity_position hoverlap
  obtain ⟨r2, hr2, hpos⟩ := resolveStopOnWall_positions r wall entity wall_position
    entity_position hwall hentity
  refine ⟨r2, stopCorrection wall_position entity_position entity_position, hr2, ?_, ?_, ?_⟩
  · rw [hpos, get_update]
    simp [hentity]
  · rw [hpos, get_update]
    simp [hne, hwall]
  · by_cases hax : stopAxisIsX wall_position entity_position = true
    · simp only [hax, if_true, stopCorrection]
      exact ⟨hpx, by simpa [get_bounds, pushX] using hx⟩
    · simp only [hax, if_false, stopCorrection]
      exact ⟨hpy, by simpa [get_bounds, pushY] using hy⟩

/-! ### C6, C7: mass collision -/

theorem resolveMassCollision_separating (r : Registry) (wall other : Entity)
    (wall_motion other_motion : Motion) (wall_pos other_pos : Position)
    (hwm : r.motions.get wall = some wall_motion) (hom : r.motions.get other = some other_motion)
    (hwp : r.positions.get wall = some wall_pos) (hop : r.positions.get other = some other_pos)
    (hsep : separating wall_pos other_pos wall_motion other_motion) :
    resolveMassCollision wall other r = some r := by
  unfold resolveMassCollision
  simp only [hwm, hom, hwp, hop]
  unfold separating massAxisIsX onAxis at hsep
  simp only [vec2.sub]
  rw [if_pos hsep]

theorem resolveMassCollision_closing (r : Registry) (wall other : Entity)
    (wall_motion other_motion : Motion) (wall_pos other_pos : Position) (wall_mass other_mass : Mass)
    (hwm : r.motions.get wall = some wall_motion) (hom : r.motions.get other = some other_motion)
    (hwp : r.positions.get wall = some wall_pos) (hop : r.positions.get other = some other_pos)
    (hwmass : r.masses.get wall = some wall_mass) (homass : r.masses.get other = some other_mass)
    (hsep : ¬ separating wall_pos other_pos wall_motion other_motion) :
    resolveMassCollision wall other r
      = some (massCollisionResult r wall other (massAxisIsX wall_pos other_pos)
          (massFinalVelocity (massAxisIsX wall_pos other_pos) wall_mass other_mass
            wall_motion other_motion)) := by
  unfold resolveMassCollision massCollisionResult
  simp only [hwm, hom, hwp, hop, hwmass, homass]
  unfold separating massAxisIsX onAxis at hsep
  simp only [vec2.sub]
  rw [if_neg hsep]
  by_cases hax : massAxisIsX wall_pos other_pos = true
  · have hax2 := hax
    simp only [massAxisIsX, decide_eq_true_eq] at hax2
    have hf : setOnAxis true = fun v m => { m with velocity := ⟨v, m.velocity.y⟩ } := by
      funext v m
      simp [setOnAxis]
    simp [hax, hax2, onAxis, massFinalVelocity, hf]
  · have hax2 := hax
    simp only [massAxisIsX, decide_eq_true_eq] at hax2
    have hax3 : massAxisIsX wall_pos other_pos = false := by simpa using hax
    have hf : setOnAxis false = fun v m => { m with velocity := ⟨m.velocity.x, v⟩ } := by
      funext v m
      simp [setOnAxis]
    simp [hax3, hax2, onAxis, massFinalVelocity, hf]

theorem onAxis_setOnAxis (isX : Bool) (v : Rat) (m : Motion) :
    onAxis isX (setOnAxis isX v m).velocity = v := by
  cases isX <;> simp [onAxis, setOnAxis]

theorem get_update_update {T : Type} (c : ComponentContainer T) (a b : Entity) (f : T → T)
    (va vb : T) (ha : c.get a = some va) (hb : c.get b = some vb) :
    (∃ x, ((c.update a f).update b f).get a = some (f x)) ∧
    (∃ x, ((c.update a f).update b f).get b = some (f x)) := by
  by_cases hab : a = b
  · subst hab
    simp [get_update, ha]
  · have hba : ¬ b = a := fun h => hab h.symm
    simp [get_update, ha, hb, hab, hba]

/-- C6. For two bodies with Motion, Position and Mass whose masses satisfy
m1 + m2 ≠ 0, `resolveMassCollision` returns, leaves the masses unchanged, and
the total momentum m1 * v1 + m2 * v2 along the collision axis is the same
after the call as before it (exact rational arithmetic). -/
theorem resolveMassCollision_conserves_momentum (r : Registry) (wall other : Entity)
    (wall_motion other_motion : Motion) (wall_pos other_pos : Position) (wall_mass other_mass : Mass)
    (hwm : r.motions.get wall = some wall_motion) (hom : r.motions.get other = some other_motion)
    (hwp : r.positions.get wall = some wall_pos) (hop : r.positions.get other = some other_pos)
    (hwmass : r.masses.get wall = some wall_mass) (homass : r.masses.get other = some other_mass)
    (hsum : wall_mass.mass + other_mass.mass ≠ 0) :
    ∃ r2 wall_motion2 other_motion2, resolveMassCollision wall other r = some r2 ∧
      r2.motions.get wall = some wall_motion2 ∧ r2.motions.get other = some other_motion2 ∧
      r2.masses = r.masses ∧
      wall_mass.mass * onAxis (massAxisIsX wall_pos other_pos) wall_motion2.velocity +
        other_mass.mass * onAxis (massAxisIsX wall_pos other_pos) other_motion2.velocity
      = wall_mass.mass * onAxis (massAxisIsX wall_pos other_pos) wall_motion.velocity +
        other_mass.mass * onAxis (massAxisIsX wall_pos other_pos) other_motion.velocity := by
  by_cases hsep : separating wall_pos other_pos wall_motion other_motion
  · exact ⟨r, wall_motion, other_motion,
      resolveMassCollision_separating r wall other _ _ _ _ hwm hom hwp hop hsep, hwm, hom, rfl, rfl⟩
  · have h := resolveMassCollision_closing r wall other _ _ _ _ _ _ hwm hom hwp hop hwmass homass hsep
    obtain ⟨⟨x, hx⟩, ⟨y, hy⟩⟩ := get_update_update r.motions wall other
      (setOnAxis (massAxisIsX wall_pos other_pos)
        (massFinalVelocity (massAxisIsX wall_pos other_pos) wall_mass other_mass
          wall_motion other_motion)) wall_motion other_motion hwm hom
    refine ⟨_, _, _, h, hx, hy, rfl, ?_⟩
    simp only [onAxis_setOnAxis, massFinalVelocity]
    field_simp
    ring

/-- C7 (counterexample). In `massScene 5 1` the body sits on the positive side
of the wall and moves away from it: `resolveMassCollision` returns early on the
horizontal axis and the two velocities stay 0 and 1. -/
theorem resolveMassCollision_separating_keeps_velocities :
    resolveMassCollision 1 2 (massScene 5 1) = some (massScene 5 1) ∧
    massAxisIsX (unitBoxAt 0 0) (unitBoxAt 5 0) = true ∧
    (massScene 5 1).motions.get 1 = some ⟨⟨0, 0⟩, ⟨0, 0⟩⟩ ∧
    (massScene 5 1).motions.get 2 = some ⟨⟨1, 0⟩, ⟨0, 0⟩⟩ ∧
    onAxis true (⟨0, 0⟩ : vec2) ≠ onAxis true (⟨1, 0⟩ : vec2) := by
  refine ⟨?_, ?_, rfl, rfl, ?_⟩
  · apply resolveMassCollision_separating (massScene 5 1) 1 2 ⟨⟨0, 0⟩, ⟨0, 0⟩⟩ ⟨⟨1, 0⟩, ⟨0, 0⟩⟩
      (unitBoxAt 0 0) (unitBoxAt 5 0) rfl rfl rfl rfl
    left
    norm_num [massAxisIsX, onAxis, unitBoxAt]
  · norm_num [massAxisIsX, unitBoxAt]
  · norm_num [onAxis]

/-- C7 (amended). For two bodies with Motion, Position and Mass that are not
already separating along the collision axis and whose total mass m1 + m2 is not
zero, `resolveMassCollision` returns and, in exact arithmetic, the two bodies
then have the same velocity on the collision axis: the computed `v_final`, which
is the quotient of the total momentum m1 * v1 + m2 * v2 by m1 + m2. -/
theorem resolveMassCollision_equal_velocity (r : Registry) (wall other : Entity)
    (wall_motion other_motion : Motion) (wall_pos other_pos : Position) (wall_mass other_mass : Mass)
    (hwm : r.motions.get wall = some wall_motion) (hom : r.motions.get other = some other_motion)
    (hwp : r.positions.get wall = some wall_pos) (hop : r.positions.get other = some other_pos)
    (hwmass : r.masses.get wall = some wall_mass) (homass : r.masses.get other = some other_mass)
    (hsum : wall_mass.mass + other_mass.mass ≠ 0)
    (hsep : ¬ separating wall_pos other_pos wall_motion other_motion) :
    ∃ r2 wall_motion2 other_motion2, resolveMassCollision wall other r = some r2 ∧
      r2.motions.get wall = some wall_motion2 ∧ r2.motions.get other = some other_motion2 ∧
      onAxis (massAxisIsX wall_pos other_pos) wall_motion2.velocity
        = onAxis (massAxisIsX wall_pos other_pos) other_motion2.velocity ∧
      onAxis (massAxisIsX wall_pos other_pos) wall_motion2.velocity
        = massFinalVelocity (massAxisIsX wall_pos other_pos) wall_mass other_mass
            wall_motion other_motion ∧
      (wall_mass.mass + other_mass.mass) *
          onAxis (massAxisIsX wall_pos other_pos) wall_motion2.velocity
        = wall_mass.mass * onAxis (massAxisIsX wall_pos other_pos) wall_motion.velocity +
          other_mass.mass * onAxis (massAxisIsX wall_pos other_pos) other_motion.velocity := by
  have h := resolveMassCollision_closing r wall other _ _ _ _ _ _ hwm hom hwp hop hwmass homass hsep
  obtain ⟨⟨x, hx⟩, ⟨y, hy⟩⟩ := get_update_update r.motions wall other
    (setOnAxis (massAxisIsX wall_pos other_pos)
      (massFinalVelocity (massAxisIsX wall_pos other_pos) wall_mass other_mass
        wall_motion other_motion)) wall_motion other_motion hwm hom
  refine ⟨_, _, _, h, hx, hy, ?_, ?_, ?_⟩
  · simp only [onAxis_setOnAxis]
  · simp only [onAxis_setOnAxis]
  · simp only [onAxis_setOnAxis, massFinalVelocity]
    field_simp

/-! ### C8: explosion splash -/

/-- C8. Evaluation of `detectAndResolveExplosion(1, 2)` with the torpedo at
(0, 0) and radius 5.  When the hit enemy 2 has a Position, the enemy at (3, 0)
gets the oxygen modification and the damage-indicator timer and the enemy at
(10, 0) gets nothing.  When the hit enemy has no Position, the guard
`!registry.positions.has(hit_entity)` skips every scanned entity and the enemy
at (3, 0) gets nothing. -/
theorem detectAndResolveExplosion_needs_hit_position :
    detectAndResolveExplosion sampleExt 1 2 (explosionScene true)
      = some { explosionScene true with
          sounds := [(1, ⟨SOUND_ASSET_ID.EXPLOSION⟩)]
          calls := [Call.modifyOxygen 3 1, Call.addDamageIndicatorTimer 3] } ∧
    detectAndResolveExplosion sampleExt 1 2 (explosionScene false)
      = some { explosionScene false with
          sounds := [(1, ⟨SOUND_ASSET_ID.EXPLOSION⟩)]
          calls := [] } := by
  constructor
  · simp [detectAndResolveExplosion, explosionScene, emptyRegistry, forEachEntity, explosionScan,
      ComponentContainer.entities, ComponentContainer.has, ComponentContainer.get,
      ComponentContainer.insert, sampleExt, circle_box_collides, get_bounds, unitBoxAt,
      modifyOxygen, addDamageIndicatorTimer, logCall, vec2.dot]
    norm_num [ComponentContainer.get]
    rfl
  · simp [detectAndResolveExplosion, explosionScene, emptyRegistry, forEachEntity, explosionScan,
      ComponentContainer.entities, ComponentContainer.has, ComponentContainer.get,
      ComponentContainer.insert]

/-! ### C9: the HARPOON scenario -/

theorem detection_harpoonFrame (ext : Ext) (p e1 e2 equipped : Entity) (pp p1 p2 : Position)
    (m : Motion) (h1 : p ≠ e1)
    (hc1 : ext.circle_collides pp p1 = true) :
    collision_detection ext (harpoonFrame p e1 e2 equipped pp p1 p2 m)
      = some { harpoonFrame p e1 e2 equipped pp p1 p2 m with
          collisions := [(p, ⟨e1⟩), (e1, ⟨p⟩)] } := by
  simp [collision_detection, detectPlayerProjectileCollisions, detectPlayerCollisions,
    detectWallCollisions, detectDoorCollisions, harpoonFrame, emptyRegistry, forEachRow,
    forEachEntity, detectPlayerProjectileCollisions_body, detectProjectileEnemies,
    checkCircleCollision, isSingleTarget, recordPair,
    ComponentContainer.entities, ComponentContainer.has, ComponentContainer.get,
    ComponentContainer.emplace_with_duplicates, h1, hc1]

set_option maxHeartbeats 1000000 in
theorem resolution_harpoonFrame (ext : Ext) (p e1 e2 equipped : Entity) (pp p1 p2 : Position)
    (m : Motion) (h1 : p ≠ e1) (h2 : p ≠ e2) :
    collision_resolution ext { harpoonFrame p e1 e2 equipped pp p1 p2 m with
          collisions := [(p, ⟨e1⟩), (e1, ⟨p⟩)] }
      = some { harpoonFrame p e1 e2 equipped pp p1 p2 m with
          motions := [(p, { m with velocity := ⟨0, 0⟩ })]
          playerProjectiles := [(p, ⟨true, PROJECTILES.HARPOON, false⟩)]
          calls := [Call.modifyOxygen e1 p, Call.addDamageIndicatorTimer e1] ++
            (if p ≠ equipped then [Call.destroyGunOrProjectile p] else []) ++
            [Call.modifyOxygen e1 p, Call.addDamageIndicatorTimer e1] } := by
  have h1b : ¬ e1 = p := fun h => h1 h.symm
  have h2b : ¬ e2 = p := fun h => h2 h.symm
  by_cases heq : p = equipped
  · subst heq
    simp [harpoonFrame, emptyRegistry,
      ComponentContainer.entities, ComponentContainer.has, ComponentContainer.get,
      ComponentContainer.update,
      collision_resolution, collision_resolution_loop, collision_resolution_body, whenHas,
      routePlayerProjCollisions, routeEnemyCollisions, routeConsumableCollisions,
      routeInteractableCollisions, resolveEnemyPlayerProjCollision, modifyOxygen,
      addDamageIndicatorTimer, destroyGunOrProjectile, logCall,
      h1, h2, h1b, h2b]
  · simp [harpoonFrame, emptyRegistry,
      ComponentContainer.entities, ComponentContainer.has, ComponentContainer.get,
      ComponentContainer.update,
      collision_resolution, collision_resolution_loop, collision_resolution_body, whenHas,
      routePlayerProjCollisions, routeEnemyCollisions, routeConsumableCollisions,
      routeInteractableCollisions, resolveEnemyPlayerProjCollision, modifyOxygen,
      addDamageIndicatorTimer, destroyGunOrProjectile, logCall,
      h1, h2, h1b, h2b, heq]

theorem detection_doorFrame (ext : Ext) (pl mesh d q : Entity) (ppl pd : Position)
    (pm : Option Motion) (mq : Motion) (dc : DoorConnection)
    (hpd : pl ≠ d)
    (hbox : ext.box_collides ppl pd = true)
    (hmesh : ext.mesh_collides (doorFrame pl mesh d q ppl pd pm mq dc) mesh d = true) :
    collision_detection ext (doorFrame pl mesh d q ppl pd pm mq dc)
      = some { doorFrame pl mesh d q ppl pd pm mq dc with
          collisions := [(pl, ⟨d⟩), (d, ⟨pl⟩)] } := by
  unfold collision_detection detectPlayerProjectileCollisions detectPlayerCollisions
    detectWallCollisions detectDoorCollisions
  have hm2 := hmesh
  simp only [doorFrame, emptyRegistry] at hm2
  simp [doorFrame, emptyRegistry, forEachRow,
    forEachEntity, detectPlayerProjectileCollisions_body, detectPlayerCollisions_body,
    detectDoorCollisions_body, checkPlayerMeshCollision, recordPair,
    ComponentContainer.entities, ComponentContainer.has, ComponentContainer.get,
    ComponentContainer.emplace_with_duplicates, hpd, hbox, hm2]

set_option maxHeartbeats 1000000 in
theorem body_player_door (ext : Ext) (pl mesh d q : Entity) (ppl pd : Position)
    (mp mq : Motion) (dc : DoorConnection) (c : ComponentContainer Collision)
    (hpd : pl ≠ d) (hpq : pl ≠ q) :
    collision_resolution_body ext pl d
        { doorFrame pl mesh d q ppl pd (some mp) mq dc with collisions := c }
      = some { doorFrame pl mesh d q ppl pd (some mp) mq dc with
          collisions := c
          motions := [(pl, mp), (q, { mq with velocity := ⟨0, 0⟩ })]
          roomTransitions := [(100, ⟨dc⟩)]
          sounds := [(100, ⟨SOUND_ASSET_ID.DOOR⟩)]
          rt_entity := 100
          id_count := 101
          transitioning := true } := by
  have hdp : ¬ d = pl := fun h => hpd h.symm
  have hqp : ¬ q = pl := fun h => hpq h.symm
  simp [doorFrame, emptyRegistry,
    ComponentContainer.has, ComponentContainer.get,
    ComponentContainer.update, ComponentContainer.insert,
    ComponentContainer.emplace_with_duplicates,
    collision_resolution_body, whenHas,
    routePlayerCollisions, resolveDoorPlayerCollision,
    hpd, hpq, hdp, hqp]

set_option maxHeartbeats 1000000 in
theorem body_door_player (ext : Ext) (pl mesh d q : Entity) (ppl pd : Position)
    (mp mq : Motion) (dc : DoorConnection) (c : ComponentContainer Collision)
    (hpd : pl ≠ d) (hpq : pl ≠ q) (hdq : d ≠ q) :
    collision_resolution_body ext d pl
        { doorFrame pl mesh d q ppl pd (some mp) mq dc with
          collisions := c
          motions := [(pl, mp), (q, { mq with velocity := ⟨0, 0⟩ })]
          roomTransitions := [(100, ⟨dc⟩)]
          sounds := [(100, ⟨SOUND_ASSET_ID.DOOR⟩)]
          rt_entity := 100
          id_count := 101
          transitioning := true }
      = some { doorFrame pl mesh d q ppl pd (some mp) mq dc with
          collisions := c
          motions := [(pl, mp), (q, { mq with velocity := ⟨0, 0⟩ })]
          roomTransitions := [(100, ⟨dc⟩), (101, ⟨dc⟩)]
          sounds := [(100, ⟨SOUND_ASSET_ID.DOOR⟩), (101, ⟨SOUND_ASSET_ID.DOOR⟩)]
          rt_entity := 101
          id_count := 102
          transitioning := true } := by
  have hdp : ¬ d = pl := fun h => hpd h.symm
  have hqp : ¬ q = pl := fun h => hpq h.symm
  have hqd : ¬ q = d := fun h => hdq h.symm
  simp [doorFrame, emptyRegistry,
    ComponentContainer.has, ComponentContainer.get,
    ComponentContainer.update, ComponentContainer.insert,
    ComponentContainer.emplace_with_duplicates,
    collision_resolution_body, whenHas,
    routeDoorCollisions, resolveDoorPlayerCollision,
    hpd, hpq, hdq, hdp, hqp, hqd]

theorem step_doorFrame (ext : Ext) (pl mesh d q : Entity) (ppl pd : Position)
    (mp mq : Motion) (dc : DoorConnection)
    (hpd : pl ≠ d) (hpq : pl ≠ q) (hdq : d ≠ q)
    (hbox : ext.box_collides ppl pd = true)
    (hmesh : ext.mesh_collides (doorFrame pl mesh d q ppl pd (some mp) mq dc) mesh d = true) :
    step ext (doorFrame pl mesh d q ppl pd (some mp) mq dc)
      = some { doorFrame pl mesh d q ppl pd (some mp) mq dc with
          motions := [(pl, mp), (q, { mq with velocity := ⟨0, 0⟩ })]
          roomTransitions := [(100, ⟨dc⟩), (101, ⟨dc⟩)]
          sounds := [(100, ⟨SOUND_ASSET_ID.DOOR⟩), (101, ⟨SOUND_ASSET_ID.DOOR⟩)]
          rt_entity := 101
          id_count := 102
          transitioning := true } := by
  unfold step
  rw [detection_doorFrame ext pl mesh d q ppl pd (some mp) mq dc hpd hbox hmesh]
  have hA := body_player_door ext pl mesh d q ppl pd mp mq dc [(pl, ⟨d⟩), (d, ⟨pl⟩)] hpd hpq
  have hB := body_door_player ext pl mesh d q ppl pd mp mq dc [(pl, ⟨d⟩), (d, ⟨pl⟩)] hpd hpq hdq
  simp only [Option.some_bind, collision_resolution, List.length_cons, List.length_nil]
  rw [collision_resolution_loop]
  simp only [List.get?_cons_zero]
  rw [hA]
  simp only [Option.some_bind]
  rw [collision_resolution_loop]
  simp only [List.get?_cons_succ, List.get?_cons_zero, zero_add]
  rw [hB]
  simp only [Option.some_bind]
  rw [collision_resolution_loop]
  simp [doorFrame, emptyRegistry]

/-- C10 (counterexample). With a unit-box player (entity 1, mesh entity 1) and
a unit-box door (entity 2) at the same place, the player having Motion, one
`step` creates two RoomTransition entities, 100 and 101, not one. -/
theorem door_frame_creates_two_room_transitions :
    ∃ r2, step sampleExt
        (doorFrame 1 1 2 3 (unitBoxAt 0 0) (unitBoxAt 0 0) (some ⟨⟨1, 0⟩, ⟨0, 0⟩⟩)
          ⟨⟨0, 0⟩, ⟨0, 0⟩⟩ ⟨7⟩) = some r2 ∧
      r2.roomTransitions = [(100, ⟨⟨7⟩⟩), (101, ⟨⟨7⟩⟩)] ∧
      r2.roomTransitions.length ≠ 1 := by
  refine ⟨_, step_doorFrame sampleExt 1 1 2 3 (unitBoxAt 0 0) (unitBoxAt 0 0) ⟨⟨1, 0⟩, ⟨0, 0⟩⟩
    ⟨⟨0, 0⟩, ⟨0, 0⟩⟩ ⟨7⟩ (by decide) (by decide) (by decide) ?_ ?_, rfl, by simp⟩
  · norm_num [sampleExt, box_collides, get_bounds, unitBoxAt]
  · norm_num [sampleExt, doorFrame, emptyRegistry, ComponentContainer.get, box_collides,
      get_bounds, unitBoxAt]

/-- C10 (amended). In a frame that holds a player with Motion, one door the
player collides with (box test and mesh test both pass) and the loaded equipped
projectile, `collision_detection` followed by `collision_resolution` creates
exactly two RoomTransition entities, one for each direction record of the pair:
the player record is routed through `routePlayerCollisions` and the door record
through `routeDoorCollisions`, and both call `resolveDoorPlayerCollision`. -/
theorem door_collision_creates_two_room_transitions (ext : Ext) (pl mesh d q : Entity)
    (ppl pd : Position) (mp mq : Motion) (dc : DoorConnection)
    (hpd : pl ≠ d) (hpq : pl ≠ q) (hdq : d ≠ q)
    (hbox : ext.box_collides ppl pd = true)
    (hmesh : ext.mesh_collides (doorFrame pl mesh d q ppl pd (some mp) mq dc) mesh d = true) :
    ∃ r2, step ext (doorFrame pl mesh d q ppl pd (some mp) mq dc) = some r2 ∧
      (doorFrame pl mesh d q ppl pd (some mp) mq dc).roomTransitions = [] ∧
      r2.roomTransitions.length = 2 ∧
      r2.roomTransitions = [(100, ⟨dc⟩), (101, ⟨dc⟩)] ∧
      r2.rt_entity = 101 := by
  exact ⟨_, step_doorFrame ext pl mesh d q ppl pd mp mq dc hpd hpq hdq hbox hmesh, rfl, rfl,
    rfl, rfl⟩

/-! ### C12: resolution on an empty table -/

/-- C12. For every registry state whose collision table is empty,
`collision_resolution` returns the state unchanged (the loop body is never
run, so no resolver is invoked and the call trace is untouched), and running
it a second time returns the same state again. -/
theorem collision_resolution_empty_noop (ext : Ext) (r : Registry) (hempty : r.collisions = []) :
    collision_resolution_loop ext r.collisions.length 0 r = some r ∧
    collision_resolution ext r = some r ∧
    (collision_resolution ext r).bind (collision_resolution ext) = some r := by
  have hloop : collision_resolution_loop ext r.collisions.length 0 r = some r := by
    unfold collision_resolution_loop
    simp [hempty]
  have hclear : ({ r with collisions := [] } : Registry) = r := by
    have h := with_collisions_self r
    rw [hempty] at h
    exact h
  have hres : collision_resolution ext r = some r := by
    unfold collision_resolution
    rw [hloop]
    simp [hclear]
  exact ⟨hloop, hres, by rw [hres]; simpa using hres⟩

/-! ### C14: wall and door records against an entity without Motion -/

/-- C14. For every wall or door record whose other entity has no Motion
component, `routeWallCollisions` and `routeDoorCollisions` return the registry
state unchanged: no resolver is invoked and the call trace is untouched. -/
theorem route_wall_door_without_motion (ext : Ext) (r : Registry) (entity other : Entity)
    (hmotion : r.motions.has other = false) :
    routeWallCollisions ext entity other r = some r ∧
    routeDoorCollisions ext entity other r = some r := by
  constructor
  · simp [routeWallCollisions, hmotion]
  · simp [routeDoorCollisions, hmotion]

/-! ### Frames of the resolvers -/

theorem keepsTags_refl (r : Registry) : KeepsTags r r := by
  simp [KeepsTags]

theorem keepsTags_trans (a b c : Registry) (h1 : KeepsTags a b) (h2 : KeepsTags b c) :
    KeepsTags a c := by
  obtain ⟨a1, a2, a3, a4, a5, a6, a7, a8, a9, a10⟩ := h1
  obtain ⟨b1, b2, b3, b4, b5, b6, b7, b8, b9, b10⟩ := h2
  exact ⟨b1.trans a1, b2.trans a2, b3.trans a3, b4.trans a4, b5.trans a5, b6.trans a6,
    b7.trans a7, b8.trans a8, b9.trans a9, b10.trans a10⟩

theorem frame_refl (r : Registry) : Frame r r :=
  ⟨keepsTags_refl r, rfl⟩

theorem frame_trans (a b c : Registry) (h1 : Frame a b) (h2 : Frame b c) : Frame a c :=
  ⟨keepsTags_trans a b c h1.1 h2.1, h2.2.trans h1.2⟩

theorem whenHas_rel (P : Registry → Registry → Prop) (hrefl : ∀ r, P r r)
    (cond : Registry → Bool) (act : Registry → Option Registry) (r r2 : Registry)
    (hact : act r = some r2 → P r r2) (h : whenHas cond act r = some r2) : P r r2 := by
  unfold whenHas at h
  split at h
  · exact hact h
  · cases h
    exact hrefl r

theorem forEachEntity_rel (P : Registry → Registry → Prop) (hrefl : ∀ r, P r r)
    (htrans : ∀ a b c, P a b → P b c → P a c)
    (body : Entity → Registry → Option Registry)
    (hbody : ∀ e r r2, body e r = some r2 → P r r2) (es : List Entity) (r r2 : Registry)
    (h : forEachEntity body es r = some r2) : P r r2 := by
  induction es generalizing r with
  | nil =>
    simp only [forEachEntity, Option.some.injEq] at h
    subst h
    exact hrefl r
  | cons e es ih =>
    simp only [forEachEntity, Option.bind_eq_some] at h
    obtain ⟨r1, h1, h2⟩ := h
    exact htrans r r1 r2 (hbody e r r1 h1) (ih r1 h2)

theorem frame_logCall (c : Call) (r : Registry) : Frame r (logCall c r) := by
  simp [Frame, KeepsTags, logCall]

theorem frame_resolveStopOnWall (wall entity : Entity) (r r2 : Registry)
    (h : resolveStopOnWall wall entity r = some r2) : Frame r r2 := by
  unfold resolveStopOnWall at h
  split at h
  · simp only [] at h
    split at h <;> split at h <;> cases h <;> simp [Frame, KeepsTags]
  · cases h

theorem onlySoundsCalls_refl (r : Registry) : OnlySoundsCalls r r :=
  ⟨r.sounds, [], by cases r; simp⟩

theorem onlySoundsCalls_trans (a b c : Registry) (h1 : OnlySoundsCalls a b)
    (h2 : OnlySoundsCalls b c) : OnlySoundsCalls a c := by
  obtain ⟨s1, l1, rfl⟩ := h1
  obtain ⟨s2, l2, rfl⟩ := h2
  exact ⟨s2, l1 ++ l2, by simp⟩

theorem frame_of_onlySoundsCalls (r r2 : Registry) (h : OnlySoundsCalls r r2) : Frame r r2 := by
  obtain ⟨s, l, rfl⟩ := h
  simp [Frame, KeepsTags]

theorem explosionScan_onlySoundsCalls (ext : Ext) (proj hit e : Entity) (r r2 : Registry)
    (h : explosionScan ext proj hit e r = some r2) : OnlySoundsCalls r r2 := by
  unfold explosionScan at h
  split at h
  · cases h
    exact onlySoundsCalls_refl r
  · split at h
    · split at h
      · cases h
        exact ⟨r.sounds, [Call.modifyOxygen e proj, Call.addDamageIndicatorTimer e], by
          simp [addDamageIndicatorTimer, modifyOxygen, logCall]⟩
      · cases h
        exact onlySoundsCalls_refl r
    · cases h

theorem detectAndResolveExplosion_onlySoundsCalls (ext : Ext) (proj hit : Entity)
    (r r2 : Registry) (h : detectAndResolveExplosion ext proj hit r = some r2) :
    OnlySoundsCalls r r2 := by
  unfold detectAndResolveExplosion at h
  simp only [Option.bind_eq_some] at h
  obtain ⟨r1, h1, r3, h3, h4⟩ := h
  have hr1 : OnlySoundsCalls r r1 := by
    split at h1
    · simp only [Option.map_eq_some'] at h1
      obtain ⟨s, _, rfl⟩ := h1
      exact ⟨s, [], by simp⟩
    · cases h1
      exact onlySoundsCalls_refl r
  have h13 := forEachEntity_rel OnlySoundsCalls onlySoundsCalls_refl onlySoundsCalls_trans _
    (explosionScan_onlySoundsCalls ext proj hit) _ r1 r3 h3
  have h32 := forEachEntity_rel OnlySoundsCalls onlySoundsCalls_refl onlySoundsCalls_trans _
    (explosionScan_onlySoundsCalls ext proj hit) _ r3 r2 h4
  exact onlySoundsCalls_trans _ _ _ hr1 (onlySoundsCalls_trans _ _ _ h13 h32)

theorem frame_resolvePlayerEnemyCollision (player enemy : Entity) (r r2 : Registry)
    (h : resolvePlayerEnemyCollision player enemy r = some r2) : Frame r r2 := by
  unfold resolvePlayerEnemyCollision at h
  cases h
  simp [Frame, KeepsTags, modifyOxygen, addDamageIndicatorTimer, handle_debuffs, logCall]

theorem frame_resolvePlayerConsumableCollision (player consumable : Entity) (r r2 : Registry)
    (h : resolvePlayerConsumableCollision player consumable r = some r2) : Frame r r2 := by
  unfold resolvePlayerConsumableCollision at h
  cases h
  simp [Frame, KeepsTags, handle_consumable_collisions, logCall]

theorem frame_resolvePlayerInteractableCollision (player interactable : Entity)
    (r r2 : Registry)
    (h : resolvePlayerInteractableCollision player interactable r = some r2) : Frame r r2 := by
  unfold resolvePlayerInteractableCollision at h
  split at h <;> cases h <;> simp [Frame, KeepsTags, modifyOxygen, logCall]

theorem frame_resolveEnemyPlayerProjCollision (ext : Ext) (enemy player_proj : Entity)
    (r r2 : Registry)
    (h : resolveEnemyPlayerProjCollision ext enemy player_proj r = some r2) : Frame r r2 := by
  unfold resolveEnemyPlayerProjCollision at h
  split at h
  · cases h
  · split at h
    · cases h
      exact frame_refl r
    · split at h
      · cases h
      · simp only [Option.bind_eq_some] at h
        obtain ⟨r3, h3, r6, h6, h7⟩ := h
        have f3 : Frame r r3 := by
          split at h3
          · cases h3
            simp [Frame, KeepsTags, modifyOxygen, logCall]
          · cases h3
            simp [Frame, KeepsTags, modifyOxygen, handle_debuffs, logCall]
          · split at h3 <;> cases h3 <;>
              simp [Frame, KeepsTags, modifyOxygen, handle_debuffs, logCall]
          · exact frame_trans _ _ _ (frame_logCall _ r)
              (frame_of_onlySoundsCalls _ _
                (detectAndResolveExplosion_onlySoundsCalls ext _ _ _ _ h3))
          · cases h3
            simp [Frame, KeepsTags, modifyOxygen, logCall]
        have f6 : Frame r3 r6 := by
          split at h6
          · split at h6
            · cases h6
            · cases h6
              simp [Frame, KeepsTags, addDamageIndicatorTimer, logCall]
          · cases h6
            simp [Frame, KeepsTags, addDamageIndicatorTimer, logCall]
        have f7 : Frame r6 r2 := by
          split at h7 <;> cases h7 <;> simp [Frame, KeepsTags]
        exact frame_trans _ _ _ f3 (frame_trans _ _ _ f6 f7)

/-! ### C19, C20: a player projectile hits an enemy -/

theorem get_of_has {T : Type} (c : ComponentContainer T) (e : Entity) (h : c.has e = true) :
    ∃ v, c.get e = some v := by
  unfold ComponentContainer.has at h
  exact Option.isSome_iff_exists.mp h

theorem has_of_get {T : Type} (c : ComponentContainer T) (e : Entity) (v : T)
    (h : c.get e = some v) : c.has e = true := by
  unfold ComponentContainer.has
  rw [h]
  rfl

/-- Shape of the result of `resolveEnemyPlayerProjCollision` on a projectile
that has a Motion: the damage call is appended first, and besides the call
trace only the sound table, the tracking table and (for the stopping types) the
projectile's own Motion and PlayerProjectile change. -/
theorem resolveEnemyPlayerProjCollision_shape (ext : Ext) (enemy proj : Entity)
    (r r2 : Registry) (comp : PlayerProjectile)
    (hget : r.playerProjectiles.get proj = some comp) (hmot : r.motions.has proj = true)
    (h : resolveEnemyPlayerProjCollision ext enemy proj r = some r2) :
    ∃ s tp rest,
      r2 = (if stopsOnHit comp.type then zeroAndLoad proj else id)
        { r with sounds := s, trackPlayer := tp,
                 calls := r.calls ++ Call.modifyOxygen enemy proj :: rest } := by
  obtain ⟨m, hm⟩ := get_of_has _ _ hmot
  unfold resolveEnemyPlayerProjCollision at h
  simp only [hget, hmot, hm, Bool.not_true, Bool.false_eq_true, if_false,
    Option.bind_eq_some] at h
  obtain ⟨r3, h3, r6, h6, h7⟩ := h
  have f3 : ∃ s rest, r3 =
      { r with sounds := s, calls := r.calls ++ Call.modifyOxygen enemy proj :: rest } := by
    split at h3
    · cases h3
      exact ⟨r.sounds, [], by simp [modifyOxygen, logCall]⟩
    · cases h3
      exact ⟨r.sounds, [Call.handle_debuffs enemy proj], by
        simp [modifyOxygen, handle_debuffs, logCall]⟩
    · split at h3 <;> cases h3
      · exact ⟨r.sounds, [Call.handle_debuffs enemy proj], by
          simp [modifyOxygen, handle_debuffs, logCall]⟩
      · exact ⟨r.sounds, [], by simp [modifyOxygen, logCall]⟩
    · obtain ⟨s, l, rfl⟩ := detectAndResolveExplosion_onlySoundsCalls ext _ _ _ _ h3
      exact ⟨s, l, by simp [modifyOxygen, logCall]⟩
    · cases h3
      exact ⟨r.sounds, [], by simp [modifyOxygen, logCall]⟩
  obtain ⟨s, rest, rfl⟩ := f3
  have f6 : ∃ tp, r6 =
      { r with
        sounds := s, trackPlayer := tp,
        calls := r.calls ++ Call.modifyOxygen enemy proj ::
          (rest ++ [Call.addDamageIndicatorTimer enemy]) } := by
    split at h6
    · split at h6
      · cases h6
      · cases h6
        exact ⟨r.trackPlayer.update enemy fun t => { t with active_track := true }, by
          simp [addDamageIndicatorTimer, logCall]⟩
    · cases h6
      exact ⟨r.trackPlayer, by simp [addDamageIndicatorTimer, logCall]⟩
  obtain ⟨tp, rfl⟩ := f6
  refine ⟨s, tp, rest ++ [Call.addDamageIndicatorTimer enemy], ?_⟩
  split at h7
  · rename_i hc
    cases h7
    have : stopsOnHit comp.type = true := by simpa [stopsOnHit] using hc
    simp [this, zeroAndLoad]
  · rename_i hc
    cases h7
    have : stopsOnHit comp.type = false := by simpa [stopsOnHit] using hc
    simp [this]

/-- Existence of the result of `resolveEnemyPlayerProjCollision` on a projectile
with Motion, given that the type-specific step (the explosion scan of a
TORPEDO) returns. -/
theorem resolveEnemyPlayerProjCollision_returns (ext : Ext) (enemy proj : Entity)
    (r : Registry) (comp : PlayerProjectile)
    (hget : r.playerProjectiles.get proj = some comp) (hmot : r.motions.has proj = true)
    (hexp : comp.type = PROJECTILES.TORPEDO →
      ∃ r3, detectAndResolveExplosion ext proj enemy (modifyOxygen enemy proj r) = some r3) :
    ∃ r2, resolveEnemyPlayerProjCollision ext enemy proj r = some r2 := by
  obtain ⟨m, hm⟩ := get_of_has _ _ hmot
  have htrack : ∀ r4 : Registry, ∃ r6,
      (if r4.trackPlayer.has enemy then
        match r4.trackPlayer.get enemy with
        | none => none
        | some _ =>
          some { r4 with trackPlayer :=
            r4.trackPlayer.update enemy fun t => { t with active_track := true } }
      else some r4) = some r6 := by
    intro r4
    by_cases ht : r4.trackPlayer.has enemy = true
    · obtain ⟨t, ht2⟩ := get_of_has _ _ ht
      rw [if_pos ht, ht2]
      exact ⟨_, rfl⟩
    · rw [if_neg ht]
      exact ⟨_, rfl⟩
  have hfinal : ∀ r6 : Registry, ∃ r2,
      (if comp.type ≠ PROJECTILES.CONCUSSIVE ∧ comp.type ≠ PROJECTILES.SHRIMP then
        some { r6 with
          motions := r6.motions.update proj fun m => { m with velocity := ⟨0, 0⟩ }
          playerProjectiles :=
            r6.playerProjectiles.update proj fun c => { c with is_loaded := true } }
      else some r6) = some r2 := by
    intro r6
    split
    · exact ⟨_, rfl⟩
    · exact ⟨_, rfl⟩
  have hstep : ∃ r3, (match comp.type with
      | PROJECTILES.HARPOON => some (modifyOxygen enemy proj r)
      | PROJECTILES.NET => some (handle_debuffs enemy proj (modifyOxygen enemy proj r))
      | PROJECTILES.CONCUSSIVE =>
        if !(modifyOxygen enemy proj r).activeWalls.has enemy &&
            (modifyOxygen enemy proj r).motions.has enemy then
          some (handle_debuffs enemy proj (modifyOxygen enemy proj r))
        else some (modifyOxygen enemy proj r)
      | PROJECTILES.TORPEDO => detectAndResolveExplosion ext proj enemy (modifyOxygen enemy proj r)
      | PROJECTILES.SHRIMP => some (modifyOxygen enemy proj r)) = some r3 := by
    cases hty : comp.type with
    | HARPOON => exact ⟨_, rfl⟩
    | NET => exact ⟨_, rfl⟩
    | CONCUSSIVE =>
      simp only []
      split
      · exact ⟨_, rfl⟩
      · exact ⟨_, rfl⟩
    | TORPEDO => exact hexp hty
    | SHRIMP => exact ⟨_, rfl⟩
  obtain ⟨r3, h3⟩ := hstep
  obtain ⟨r6, h6⟩ := htrack (addDamageIndicatorTimer enemy r3)
  obtain ⟨r2, h2⟩ := hfinal r6
  refine ⟨r2, ?_⟩
  unfold resolveEnemyPlayerProjCollision
  simp only [hget, hmot, hm, Bool.not_true, Bool.false_eq_true, if_false,
    Option.bind_eq_some]
  exact ⟨r3, h3, r6, h6, h2⟩

/-- C19 (counterexample). A HARPOON projectile (entity 1) that has a
PlayerProjectile component but no Motion hits enemy 2:
`resolveEnemyPlayerProjCollision` returns at the `motions.has` guard with the
registry unchanged, so no `modifyOxygen(2, 1)` request is made. -/
theorem projectile_without_motion_deals_no_damage :
    (hitScene PROJECTILES.HARPOON false).playerProjectiles.get 1
      = some ⟨false, PROJECTILES.HARPOON, false⟩ ∧
    (hitScene PROJECTILES.HARPOON false).motions.has 1 = false ∧
    ∃ r2, resolveEnemyPlayerProjCollision sampleExt 2 1 (hitScene PROJECTILES.HARPOON false)
        = some r2 ∧
      r2 = hitScene PROJECTILES.HARPOON false ∧
      Call.modifyOxygen 2 1 ∉ r2.calls :=
  ⟨rfl, rfl, _, rfl, rfl, by simp [hitScene, emptyRegistry]⟩

/-- C19 (amended). For a projectile that has a PlayerProjectile component of
any type and any `is_loaded` state and that has a Motion component, every
result of `resolveEnemyPlayerProjCollision(enemy, proj)` has the damage request
`modifyOxygen(enemy, proj)` appended to the call trace before anything else;
and the call returns whenever the type-specific step of a TORPEDO (the
explosion scan) returns, so always for the four other types. -/
theorem resolveEnemyPlayerProjCollision_damages_with_motion (ext : Ext) (enemy proj : Entity)
    (r : Registry) (comp : PlayerProjectile)
    (hget : r.playerProjectiles.get proj = some comp) (hmot : r.motions.has proj = true) :
    (∀ r2, resolveEnemyPlayerProjCollision ext enemy proj r = some r2 →
      ∃ rest, r2.calls = r.calls ++ Call.modifyOxygen enemy proj :: rest) ∧
    ((comp.type = PROJECTILES.TORPEDO →
        ∃ r3, detectAndResolveExplosion ext proj enemy (modifyOxygen enemy proj r) = some r3) →
      ∃ r2, resolveEnemyPlayerProjCollision ext enemy proj r = some r2) := by
  constructor
  · intro r2 h
    obtain ⟨s, tp, rest, rfl⟩ :=
      resolveEnemyPlayerProjCollision_shape ext enemy proj r r2 comp hget hmot h
    refine ⟨rest, ?_⟩
    cases stopsOnHit comp.type <;> simp [zeroAndLoad]
  · exact resolveEnemyPlayerProjCollision_returns ext enemy proj r comp hget hmot

/-- C20. For a projectile with PlayerProjectile component `comp` and Motion
`m`, every result of `resolveEnemyPlayerProjCollision(enemy, proj)` satisfies:
if the type is HARPOON, NET or TORPEDO the projectile's Motion is `m` with
velocity (0, 0) and its component is `comp` with `is_loaded = true`; if the type
is CONCUSSIVE or SHRIMP both are unchanged.  The call returns whenever the
explosion scan of a TORPEDO returns, so always for the four other types. -/
theorem resolveEnemyPlayerProjCollision_stops_projectile (ext : Ext) (enemy proj : Entity)
    (r : Registry) (comp : PlayerProjectile) (m : Motion)
    (hget : r.playerProjectiles.get proj = some comp) (hm : r.motions.get proj = some m) :
    (∀ r2, resolveEnemyPlayerProjCollision ext enemy proj r = some r2 →
      ((comp.type = PROJECTILES.HARPOON ∨ comp.type = PROJECTILES.NET ∨
          comp.type = PROJECTILES.TORPEDO) →
        r2.motions.get proj = some { m with velocity := ⟨0, 0⟩ } ∧
        r2.playerProjectiles.get proj = some { comp with is_loaded := true }) ∧
      ((comp.type = PROJECTILES.CONCUSSIVE ∨ comp.type = PROJECTILES.SHRIMP) →
        r2.motions.get proj = some m ∧ r2.playerProjectiles.get proj = some comp)) ∧
    ((comp.type = PROJECTILES.TORPEDO →
        ∃ r3, detectAndResolveExplosion ext proj enemy (modifyOxygen enemy proj r) = some r3) →
      ∃ r2, resolveEnemyPlayerProjCollision ext enemy proj r = some r2) := by
  have hmot : r.motions.has proj = true := has_of_get _ _ _ hm
  constructor
  · intro r2 h
    obtain ⟨s, tp, rest, rfl⟩ :=
      resolveEnemyPlayerProjCollision_shape ext enemy proj r r2 comp hget hmot h
    constructor
    · intro hty
      have hs : stopsOnHit comp.type = true := by
        rcases hty with h1 | h1 | h1 <;> simp [stopsOnHit, h1]
      simp [hs, zeroAndLoad, get_update, hm, hget]
    · intro hty
      have hs : stopsOnHit comp.type = false := by
        rcases hty with h1 | h1 <;> simp [stopsOnHit, h1]
      simp [hs, hm, hget]
  · exact resolveEnemyPlayerProjCollision_returns ext enemy proj r comp hget hmot

/-! ### C11: the door resolver -/

theorem frame_resolveBreakablePlayerProjCollision (ext : Ext) (breakable player_proj : Entity)
    (r r2 : Registry)
    (h : resolveBreakablePlayerProjCollision ext breakable player_proj r = some r2) :
    Frame r r2 := by
  unfold resolveBreakablePlayerProjCollision at h
  split at h
  · cases h
    exact frame_refl r
  · split at h
    · cases h
    · split at h
      · exact frame_trans _ _ _ (frame_logCall _ r)
          (frame_of_onlySoundsCalls _ _
            (detectAndResolveExplosion_onlySoundsCalls ext _ _ _ _ h))
      · cases h
        exact frame_logCall _ r

theorem frame_zeroAndLoad (proj : Entity) (r : Registry) : Frame r (zeroAndLoad proj r) := by
  simp [Frame, KeepsTags, zeroAndLoad]

theorem frame_resolveWallPlayerProjCollision (ext : Ext) (wall player_proj : Entity)
    (r r2 : Registry)
    (h : resolveWallPlayerProjCollision ext wall player_proj r = some r2) : Frame r r2 := by
  unfold resolveWallPlayerProjCollision at h
  split at h
  · cases h
    exact frame_refl r
  · split at h
    · simp only [] at h
      split at h
      · split at h <;> cases h <;> split <;>
          simp [Frame, KeepsTags, changeSelectedCounterColour, doWeaponSwap,
            destroyGunOrProjectile, logCall]
      · split at h
        · split at h <;> cases h <;> split <;>
            simp [Frame, KeepsTags, changeSelectedCounterColour, doWeaponSwap,
              destroyGunOrProjectile, logCall]
        · simp only [Option.map_eq_some'] at h
          obtain ⟨r3, h3, rfl⟩ := h
          have f1 : Frame r (zeroAndLoad player_proj r) := frame_zeroAndLoad _ r
          have f3 : Frame (zeroAndLoad player_proj r) r3 := by
            split at h3
            · exact frame_of_onlySoundsCalls _ _
                (detectAndResolveExplosion_onlySoundsCalls ext _ _ _ _ h3)
            · cases h3
              exact frame_refl _
          exact frame_trans _ _ _ f1 (frame_trans _ _ _ f3 (frame_zeroAndLoad _ r3))
    · cases h

theorem frame_resolveWallEnemyCollision (ext : Ext) (wall enemy : Entity) (r r2 : Registry)
    (h : resolveWallEnemyCollision ext wall enemy r = some r2) : Frame r r2 := by
  unfold resolveWallEnemyCollision at h
  split at h
  · cases h
    exact frame_refl r
  · split at h
    · simp only [Option.bind_eq_some] at h
      obtain ⟨r1, h1, tr, -, h3⟩ := h
      have f1 : Frame r r1 := frame_resolveStopOnWall wall enemy r r1 h1
      refine frame_trans _ _ _ f1 ?_
      cases tr <;> simp only [Bool.false_eq_true, if_false, if_true] at h3 <;>
        repeat' first
          | (cases h3 <;> exact frame_refl _)
          | (simp only [Option.map_eq_some'] at h3
             obtain ⟨r4, h4, rfl⟩ := h3
             refine frame_trans _ _ _ ?_ (frame_logCall _ r4)
             repeat' first
               | (cases h4 <;> exact frame_refl _)
               | split at h4)
          | split at h3
    · cases h

theorem frame_resolveMassCollision (wall other : Entity) (r r2 : Registry)
    (h : resolveMassCollision wall other r = some r2) : Frame r r2 := by
  unfold resolveMassCollision at h
  repeat' first
    | (cases h <;> exact frame_refl _)
    | split at h
    | simp only [] at h

theorem frame_resolveDoorPlayerCollision (door player : Entity) (r r2 : Registry)
    (h : resolveDoorPlayerCollision door player r = some r2) : Frame r r2 := by
  unfold resolveDoorPlayerCollision at h
  simp only [] at h
  split at h
  · cases h
  · split at h
    · cases h
    · split at h
      · cases h
      · split at h
        · cases h
          simp [Frame, KeepsTags]
        · cases h

theorem length_remove_le {T : Type} (c : ComponentContainer T) (e : Entity) :
    (c.remove e).length ≤ c.length := by
  unfold ComponentContainer.remove
  split
  · simp [List.length_dropLast, List.length_set]
  · exact Nat.le_refl _

theorem shrinks_remove_all_components_of (e : Entity) (r : Registry) :
    (remove_all_components_of e r).collisions.length ≤ r.collisions.length := by
  simp only [remove_all_components_of]
  exact length_remove_le _ _

theorem shrinks_resolvePlayerEnemyProjCollision (player enemy_proj : Entity) (r r2 : Registry)
    (h : resolvePlayerEnemyProjCollision player enemy_proj r = some r2) :
    r2.collisions.length ≤ r.collisions.length := by
  unfold resolvePlayerEnemyProjCollision at h
  cases h
  exact shrinks_remove_all_components_of _ _

theorem shrinks_resolveBreakableEnemyProjCollision (breakable enemy_proj : Entity)
    (r r2 : Registry) (h : resolveBreakableEnemyProjCollision breakable enemy_proj r = some r2) :
    r2.collisions.length ≤ r.collisions.length := by
  unfold resolveBreakableEnemyProjCollision at h
  split at h
  · cases h
    exact Nat.le_refl _
  · cases h
    exact shrinks_remove_all_components_of _ _

theorem shrinks_resolveWallEnemyProjCollision (wall enemy_proj : Entity) (r r2 : Registry)
    (h : resolveWallEnemyProjCollision wall enemy_proj r = some r2) :
    r2.collisions.length ≤ r.collisions.length := by
  unfold resolveWallEnemyProjCollision at h
  cases h
  exact shrinks_remove_all_components_of _ _

/-! ### Frames of the routers -/

theorem keepsTags_of_frame (r r2 : Registry) (h : Frame r r2) : KeepsTags r r2 := h.1

theorem routerOk_of_keepsTags (other : Entity) (r r2 : Registry) (h : KeepsTags r r2) :
    RouterOk other r r2 :=
  ⟨by rw [h.1], fun _ => h⟩

theorem routerOk_of_frame (other : Entity) (r r2 : Registry) (h : Frame r r2) :
    RouterOk other r r2 :=
  routerOk_of_keepsTags other r r2 h.1

theorem routerOk_refl (other : Entity) (r : Registry) : RouterOk other r r :=
  routerOk_of_keepsTags other r r (keepsTags_refl r)

theorem routerOk_trans (other : Entity) (a b c : Registry) (h1 : RouterOk other a b)
    (h2 : RouterOk other b c) : RouterOk other a c := by
  refine ⟨Nat.le_trans h2.1 h1.1, fun hep => ?_⟩
  have k1 := h1.2 hep
  have hb : b.enemyProjectiles.has other = false := by
    rw [k1.2.2.2.1]
    exact hep
  exact keepsTags_trans a b c k1 (h2.2 hb)

theorem routerOk_whenHas_enemyProj (other : Entity) (act : Registry → Option Registry)
    (r r2 : Registry)
    (hact : ∀ r2, act r = some r2 → r2.collisions.length ≤ r.collisions.length)
    (h : whenHas (fun s => s.enemyProjectiles.has other) act r = some r2) :
    RouterOk other r r2 := by
  unfold whenHas at h
  split at h
  · rename_i hc
    refine ⟨hact r2 h, fun hep => ?_⟩
    simp only [hep] at hc
    cases hc
  · cases h
    exact routerOk_refl other r

theorem frame_stopPlayerOnWall (player other : Entity) (r r2 : Registry)
    (h : ((resolveStopOnWall other player r).bind fun s1 =>
      match s1.players.get player with
      | none => none
      | some player_comp => resolveStopOnWall other player_comp.collisionMesh s1) = some r2) :
    Frame r r2 := by
  simp only [Option.bind_eq_some] at h
  obtain ⟨s1, h1, h2⟩ := h
  split at h2
  · cases h2
  · exact frame_trans _ _ _ (frame_resolveStopOnWall _ _ _ _ h1)
      (frame_resolveStopOnWall _ _ _ _ h2)

theorem routerOk_routePlayerCollisions (player other : Entity) (r r2 : Registry)
    (h : routePlayerCollisions player other r = some r2) : RouterOk other r r2 := by
  unfold routePlayerCollisions at h
  simp only [Option.bind_eq_some] at h
  obtain ⟨r1, h1, ra, h2, rb, h3, rc, h4, rd, h5, h6⟩ := h
  have f1 := routerOk_of_frame other _ _ (whenHas_rel Frame frame_refl _ _ _ _
    (frame_resolvePlayerEnemyCollision _ _ _ _) h1)
  have f2 := routerOk_whenHas_enemyProj other _ r1 ra
    (fun x hx => shrinks_resolvePlayerEnemyProjCollision _ _ _ _ hx) h2
  have f3 := routerOk_of_frame other _ _ (whenHas_rel Frame frame_refl _ _ _ _
    (frame_resolvePlayerConsumableCollision _ _ _ _) h3)
  have f4 := routerOk_of_frame other _ _ (whenHas_rel Frame frame_refl _ _ _ _
    (frame_stopPlayerOnWall player other _ _) h4)
  have f5 := routerOk_of_frame other _ _ (whenHas_rel Frame frame_refl _ _ _ _
    (frame_resolveDoorPlayerCollision _ _ _ _) h5)
  have f6 := routerOk_of_frame other _ _ (whenHas_rel Frame frame_refl _ _ _ _
    (frame_resolvePlayerInteractableCollision _ _ _ _) h6)
  exact routerOk_trans other _ _ _ f1 (routerOk_trans other _ _ _ f2
    (routerOk_trans other _ _ _ f3 (routerOk_trans other _ _ _ f4
      (routerOk_trans other _ _ _ f5 f6))))

theorem frame_massOrStop (wall other : Entity) (r r2 : Registry)
    (h : (if r.masses.has wall && r.masses.has other then resolveMassCollision wall other r
      else resolveStopOnWall wall other r) = some r2) : Frame r r2 := by
  split at h
  · exact frame_resolveMassCollision _ _ _ _ h
  · exact frame_resolveStopOnWall _ _ _ _ h

theorem frame_massOrStopPlayer (wall other : Entity) (r r2 : Registry)
    (h : (if r.masses.has wall && r.masses.has other then resolveMassCollision wall other r
      else
        (resolveStopOnWall wall other r).bind fun s1 =>
        match s1.players.get other with
        | none => none
        | some player => resolveStopOnWall wall player.collisionMesh s1) = some r2) :
    Frame r r2 := by
  split at h
  · exact frame_resolveMassCollision _ _ _ _ h
  · exact frame_stopPlayerOnWall other wall r r2 h

theorem frame_wallPlayerProj (ext : Ext) (wall other : Entity) (r r2 : Registry)
    (h : ((resolveWallPlayerProjCollision ext wall other r).bind
      (whenHas (fun t => t.breakables.has wall)
        (resolveBreakablePlayerProjCollision ext wall other))) = some r2) : Frame r r2 := by
  simp only [Option.bind_eq_some] at h
  obtain ⟨s1, h1, h2⟩ := h
  exact frame_trans _ _ _ (frame_resolveWallPlayerProjCollision ext _ _ _ _ h1)
    (whenHas_rel Frame frame_refl _ _ _ _ (frame_resolveBreakablePlayerProjCollision ext _ _ _ _) h2)

theorem routerOk_routeWallCollisions (ext : Ext) (wall other : Entity) (r r2 : Registry)
    (h : routeWallCollisions ext wall other r = some r2) : RouterOk other r r2 := by
  unfold routeWallCollisions at h
  split at h
  · cases h
    exact routerOk_refl other r
  · simp only [Option.bind_eq_some] at h
    obtain ⟨r1, h1, ra, h2, rb, h3, h4⟩ := h
    have f1 := routerOk_of_frame other _ _ (whenHas_rel Frame frame_refl _ _ _ _
      (frame_massOrStopPlayer wall other _ _) h1)
    have f2 := routerOk_of_frame other _ _ (whenHas_rel Frame frame_refl _ _ _ _
      (frame_massOrStop wall other _ _) h2)
    have f3 := routerOk_of_frame other _ _ (whenHas_rel Frame frame_refl _ _ _ _
      (frame_wallPlayerProj ext wall other _ _) h3)
    have f4 := routerOk_whenHas_enemyProj other _ rb r2
      (fun x hx => by
        split at hx
        · exact shrinks_resolveBreakableEnemyProjCollision _ _ _ _ hx
        · exact shrinks_resolveWallEnemyProjCollision _ _ _ _ hx) h4
    exact routerOk_trans other _ _ _ f1 (routerOk_trans other _ _ _ f2
      (routerOk_trans other _ _ _ f3 f4))

theorem frame_routeDoorCollisions (ext : Ext) (door other : Entity) (r r2 : Registry)
    (h : routeDoorCollisions ext door other r = some r2) : Frame r r2 := by
  unfold routeDoorCollisions at h
  split at h
  · cases h
    exact frame_refl r
  · simp only [Option.bind_eq_some] at h
    obtain ⟨r1, h1, ra, h2, h3⟩ := h
    exact frame_trans _ _ _
      (whenHas_rel Frame frame_refl _ _ _ _ (frame_resolveDoorPlayerCollision _ _ _ _) h1)
      (frame_trans _ _ _
        (whenHas_rel Frame frame_refl _ _ _ _
          (frame_resolveWallPlayerProjCollision ext _ _ _ _) h2)
        (whenHas_rel Frame frame_refl _ _ _ _ (frame_resolveWallEnemyCollision ext _ _ _ _) h3))

theorem keepsTags_routeEnemyCollisions (ext : Ext) (enemy other : Entity) (r r2 : Registry)
    (h : routeEnemyCollisions ext enemy other r = some r2) : KeepsTags r r2 := by
  unfold routeEnemyCollisions at h
  simp only [Option.bind_eq_some] at h
  obtain ⟨r1, h1, ra, h2, rb, h3, h4⟩ := h
  have f1 := whenHas_rel Frame frame_refl _ _ _ _ (frame_resolvePlayerEnemyCollision _ _ _ _) h1
  have f2 := whenHas_rel Frame frame_refl _ _ _ _
    (frame_resolveEnemyPlayerProjCollision ext _ _ _ _) h2
  have f3 := whenHas_rel Frame frame_refl _ _ _ _ (frame_resolveWallEnemyCollision ext _ _ _ _) h3
  have f : Frame r rb := frame_trans _ _ _ f1 (frame_trans _ _ _ f2 f3)
  refine keepsTags_trans _ _ _ f.1 ?_
  split at h4 <;> cases h4 <;> simp [KeepsTags]

theorem frame_routePlayerProjCollisions (ext : Ext) (player_proj other : Entity)
    (r r2 : Registry) (h : routePlayerProjCollisions ext player_proj other r = some r2) :
    Frame r r2 := by
  unfold routePlayerProjCollisions at h
  simp only [Option.bind_eq_some] at h
  obtain ⟨r1, h1, ra, h2, rb, h3, h4⟩ := h
  have f1 := whenHas_rel Frame frame_refl _ _ _ _
    (frame_resolveEnemyPlayerProjCollision ext _ _ _ _) h1
  have f2 := whenHas_rel Frame frame_refl _ _ _ _
    (frame_resolveWallPlayerProjCollision ext _ _ _ _) h2
  have f3 := whenHas_rel Frame frame_refl _ _ _ _
    (fun hx => by cases hx; exact frame_logCall _ ra) h3
  have f4 : Frame rb r2 := by
    split at h4
    · cases h4
    · split at h4 <;> cases h4
      · exact frame_logCall _ _
      · exact frame_refl _
  exact frame_trans _ _ _ f1 (frame_trans _ _ _ f2 (frame_trans _ _ _ f3 f4))

theorem routerOk_collision_resolution_body (ext : Ext) (entity other : Entity)
    (r r2 : Registry) (h : collision_resolution_body ext entity other r = some r2) :
    RouterOk other r r2 := by
  unfold collision_resolution_body at h
  simp only [Option.bind_eq_some] at h
  obtain ⟨r1, h1, ra, h2, rb, h3, rc, h4, rd, h5, re, h6, h7⟩ := h
  have f1 := whenHas_rel (RouterOk other) (routerOk_refl other) _ _ _ _
    (routerOk_routePlayerCollisions entity other _ _) h1
  have f2 := whenHas_rel (RouterOk other) (routerOk_refl other) _ _ _ _
    (routerOk_routeWallCollisions ext entity other _ _) h2
  have f3 := routerOk_of_frame other _ _ (whenHas_rel Frame frame_refl _ _ _ _
    (frame_routeDoorCollisions ext entity other _ _) h3)
  have f4 := routerOk_of_keepsTags other _ _ (whenHas_rel KeepsTags keepsTags_refl _ _ _ _
    (keepsTags_routeEnemyCollisions ext entity other _ _) h4)
  have f5 := routerOk_of_frame other _ _ (whenHas_rel Frame frame_refl _ _ _ _
    (frame_routePlayerProjCollisions ext entity other _ _) h5)
  have f6 := routerOk_of_frame other _ _ (whenHas_rel Frame frame_refl _ _ _ _
    (fun hx => whenHas_rel Frame frame_refl _ _ _ _
      (frame_resolvePlayerConsumableCollision _ _ _ _) hx) h6)
  have f7 := routerOk_of_frame other _ _ (whenHas_rel Frame frame_refl _ _ _ _
    (fun hx => whenHas_rel Frame frame_refl _ _ _ _
      (frame_resolvePlayerInteractableCollision _ _ _ _) hx) h7)
  exact routerOk_trans other _ _ _ f1 (routerOk_trans other _ _ _ f2
    (routerOk_trans other _ _ _ f3 (routerOk_trans other _ _ _ f4
      (routerOk_trans other _ _ _ f5 (routerOk_trans other _ _ _ f6 f7)))))

/-! ### C13: the collision table after resolution -/

theorem collision_resolution_loop_fuel (ext : Ext) (fuel1 : Nat) :
    ∀ (fuel2 i : Nat) (r : Registry), r.collisions.length ≤ fuel1 + i →
      r.collisions.length ≤ fuel2 + i →
      collision_resolution_loop ext fuel1 i r = collision_resolution_loop ext fuel2 i r := by
  induction fuel1 with
  | zero =>
    intro fuel2 i r h1 _
    have hnone : r.collisions.get? i = none := List.get?_eq_none.mpr (by omega)
    rw [collision_resolution_loop, collision_resolution_loop, hnone]
  | succ f ih =>
    intro fuel2 i r h1 h2
    cases hrec : r.collisions.get? i with
    | none => rw [collision_resolution_loop, collision_resolution_loop, hrec]
    | some rec =>
      obtain ⟨entity, c⟩ := rec
      have hi : i < r.collisions.length := by
        by_contra hcon
        have : r.collisions.get? i = none := List.get?_eq_none.mpr (by omega)
        rw [this] at hrec
        cases hrec
      cases fuel2 with
      | zero => omega
      | succ f2 =>
        rw [collision_resolution_loop, collision_resolution_loop, hrec]
        simp only []
        cases hbody : collision_resolution_body ext entity c.other r with
        | none => rfl
        | some r1 =>
          have hle := (routerOk_collision_resolution_body ext entity c.other r r1 hbody).1
          simp only [Option.some_bind]
          exact ih f2 (i + 1) r1 (by omega) (by omega)

theorem collision_resolution_collisions (ext : Ext) (r r2 : Registry)
    (h : collision_resolution ext r = some r2) : r2.collisions = [] := by
  unfold collision_resolution at h
  simp only [Option.map_eq_some'] at h
  obtain ⟨r1, _, rfl⟩ := h
  rfl

/-- C13. For every registry state, every result of `collision_resolution`, and
therefore every result of `step`, has an empty collision table.  The loop of
`collision_resolution` never stops for lack of iterations: no resolver lets the
collision table grow, so any iteration bound of at least the initial table size
gives the same outcome. -/
theorem collision_resolution_clears (ext : Ext) (r : Registry) :
    (∀ r2, collision_resolution ext r = some r2 → r2.collisions = []) ∧
    (∀ r2, step ext r = some r2 → r2.collisions = []) ∧
    (∀ fuel, r.collisions.length ≤ fuel →
      collision_resolution_loop ext fuel 0 r
        = collision_resolution_loop ext r.collisions.length 0 r) := by
  refine ⟨collision_resolution_collisions ext r, ?_, ?_⟩
  · intro r2 h
    unfold step at h
    simp only [Option.bind_eq_some] at h
    obtain ⟨r1, _, h2⟩ := h
    exact collision_resolution_collisions ext r1 r2 h2
  · intro fuel hfuel
    exact collision_resolution_loop_fuel ext fuel r.collisions.length 0 r (by omega) (by omega)

/-! ### C15: the acts-as-projectile flag -/

theorem key_unique_of_nodup {T : Type} (tbl : ComponentContainer T) (h : tbl.entities.Nodup)
    (a b : Nat) (x y : Entity × T) (ha : tbl[a]? = some x) (hb : tbl[b]? = some y)
    (hxy : x.1 = y.1) : a = b := by
  have hlen : ∀ (n : Nat) (z : Entity × T), tbl[n]? = some z → n < tbl.entities.length := by
    intro n z hz
    have := (List.getElem?_eq_some_iff.mp hz).1
    simpa [ComponentContainer.entities] using this
  have hne := List.nodup_iff_getElem?_ne_getElem?.mp h
  rcases Nat.lt_trichotomy a b with hlt | heq | hgt
  · exfalso
    apply hne a b hlt (hlen b y hb)
    simp [ComponentContainer.entities, List.getElem?_map, ha, hb, hxy]
  · exact heq
  · exfalso
    apply hne b a hgt (hlen a x ha)
    simp [ComponentContainer.entities, List.getElem?_map, ha, hb, hxy]

/-- With one row per entity, `remove` leaves no row for the removed entity. -/
theorem has_remove_self {T : Type} (tbl : ComponentContainer T) (e : Entity)
    (h : tbl.entities.Nodup) : (tbl.remove e).has e = false := by
  rw [Bool.eq_false_iff]
  intro hhas
  rw [has_iff_mem_entities] at hhas
  unfold ComponentContainer.remove at hhas
  cases hf : tbl.findIdx? (fun p => decide (p.1 = e)) with
  | none =>
    rw [hf] at hhas
    simp only [] at hhas
    have hnone := List.findIdx?_eq_none_iff.mp hf
    simp only [ComponentContainer.entities, List.mem_map] at hhas
    obtain ⟨x, hx, hxe⟩ := hhas
    have := hnone x hx
    simp [hxe] at this
  | some i =>
    cases hl : tbl.getLast? with
    | none =>
      have : tbl = [] := List.getLast?_eq_none_iff.mp hl
      subst this
      simp at hf
    | some last =>
      rw [hf, hl] at hhas
      simp only [] at hhas
      obtain ⟨hi, hpi, -⟩ := List.findIdx?_eq_some_iff_getElem.mp hf
      have hci : tbl[i]? = some tbl[i] := List.getElem?_eq_getElem hi
      have hkey : (tbl[i]).1 = e := by simpa using hpi
      have hlast : tbl[tbl.length - 1]? = some last := by
        rw [← List.getLast?_eq_getElem?]
        exact hl
      simp only [ComponentContainer.entities, List.mem_map] at hhas
      obtain ⟨x, hx, hxe⟩ := hhas
      obtain ⟨n, hn⟩ := List.mem_iff_getElem?.mp hx
      rw [List.getElem?_dropLast] at hn
      split at hn
      · rename_i hlt
        simp only [List.length_set] at hlt
        rw [List.getElem?_set] at hn
        split at hn
        · rename_i hin
          subst hin
          simp only [hi, if_true, Option.some.injEq] at hn
          subst hn
          have := key_unique_of_nodup tbl h i (tbl.length - 1) _ _ hci hlast (by rw [hkey, hxe])
          omega
        · rename_i hin
          have := key_unique_of_nodup tbl h i n _ _ hci hn (by rw [hkey, hxe])
          exact hin this
      · cases hn

/-- Removing the row of an entity that has one shortens the table by one. -/
theorem length_remove_of_has {T : Type} (c : ComponentContainer T) (e : Entity)
    (h : c.has e = true) : (c.remove e).length + 1 = c.length := by
  rw [has_iff_mem_entities] at h
  simp only [ComponentContainer.entities, List.mem_map] at h
  obtain ⟨x, hx, hxe⟩ := h
  have hf := List.findIdx?_eq_some_of_exists
    (⟨x, hx, by simp [hxe]⟩ : ∃ y, y ∈ c ∧ (fun p : Entity × T => decide (p.1 = e)) y = true)
  have hne : c ≠ [] := List.ne_nil_of_mem hx
  have hl : c.getLast? = some (c.getLast hne) := List.getLast?_eq_getLast c hne
  unfold ComponentContainer.remove
  rw [hf, hl]
  simp only [List.length_dropLast, List.length_set]
  have : 0 < c.length := List.length_pos.mpr hne
  omega

theorem resolvePlayerEnemyCollision_calls (player enemy : Entity) (r r2 : Registry)
    (h : resolvePlayerEnemyCollision player enemy r = some r2) :
    ∃ l, r2 = { r with calls := r.calls ++ l } := by
  unfold resolvePlayerEnemyCollision at h
  cases h
  exact ⟨[Call.handle_debuffs player enemy, Call.addDamageIndicatorTimer player,
    Call.modifyOxygen player enemy], by
    simp [modifyOxygen, addDamageIndicatorTimer, handle_debuffs, logCall]⟩

/-- The tables `routeEnemyCollisions` reads for its `routed` flag and the flag
table, after the three branches. -/
theorem routeEnemyCollisions_flag (ext : Ext) (enemy other : Entity) (r r2 : Registry)
    (h : routeEnemyCollisions ext enemy other r = some r2) :
    r2.actsAsProjectile =
      if (r.players.has other || r.playerProjectiles.has other || r.activeWalls.has other) &&
          r.actsAsProjectile.has enemy then r.actsAsProjectile.remove enemy
      else r.actsAsProjectile := by
  unfold routeEnemyCollisions at h
  simp only [Option.bind_eq_some] at h
  obtain ⟨r1, h1, ra, h2, rb, h3, h4⟩ := h
  have f1 := whenHas_rel Frame frame_refl _ _ _ _ (frame_resolvePlayerEnemyCollision _ _ _ _) h1
  have f2 := whenHas_rel Frame frame_refl _ _ _ _
    (frame_resolveEnemyPlayerProjCollision ext _ _ _ _) h2
  have f3 := whenHas_rel Frame frame_refl _ _ _ _ (frame_resolveWallEnemyCollision ext _ _ _ _) h3
  have hpp : r1.playerProjectiles = r.playerProjectiles := by
    have := whenHas_rel (fun a b => b.playerProjectiles = a.playerProjectiles) (fun _ => rfl)
      _ _ _ _ (fun hx => by
        obtain ⟨l, rfl⟩ := resolvePlayerEnemyCollision_calls _ _ _ _ hx
        rfl) h1
    exact this
  have hw : ra.activeWalls = r.activeWalls := by
    rw [f2.1.2.2.2.2.1, f1.1.2.2.2.2.1]
  have hflag : rb.actsAsProjectile = r.actsAsProjectile := by
    rw [f3.2, f2.2, f1.2]
  rw [hpp, hw, hflag] at h4
  split at h4
  · rename_i hc
    cases h4
    simp only [hc, if_true]
  · rename_i hc
    cases h4
    simp only [hc, hflag]
    rfl

theorem routeEnemyCollisions_no_branch (ext : Ext) (enemy other : Entity) (r : Registry)
    (h1 : r.players.has other = false) (h2 : r.playerProjectiles.has other = false)
    (h3 : r.activeWalls.has other = false) :
    routeEnemyCollisions ext enemy other r = some r := by
  simp [routeEnemyCollisions, whenHas, h1, h2, h3]

/-- C15. Every result of `routeEnemyCollisions(enemy, other)` has the enemy's
row removed from the acts-as-projectile table when the enemy had the flag and
`other` is a player, a player projectile or an active wall, and has the table
unchanged otherwise; when none of the three branches fires the call returns the
registry unchanged.  Removing the row of a flagged enemy shortens the table by
one, and with one row per entity the enemy no longer has the flag. -/
theorem routeEnemyCollisions_clears_flag (ext : Ext) (enemy other : Entity) (r : Registry) :
    (∀ r2, routeEnemyCollisions ext enemy other r = some r2 →
      r2.actsAsProjectile =
        if (r.players.has other || r.playerProjectiles.has other || r.activeWalls.has other) &&
            r.actsAsProjectile.has enemy then r.actsAsProjectile.remove enemy
        else r.actsAsProjectile) ∧
    (r.players.has other = false → r.playerProjectiles.has other = false →
      r.activeWalls.has other = false → routeEnemyCollisions ext enemy other r = some r) ∧
    (r.actsAsProjectile.has enemy = true →
      (r.actsAsProjectile.remove enemy).length + 1 = r.actsAsProjectile.length) ∧
    (r.actsAsProjectile.entities.Nodup → (r.actsAsProjectile.remove enemy).has enemy = false) :=
  ⟨routeEnemyCollisions_flag ext enemy other r,
    routeEnemyCollisions_no_branch ext enemy other r,
    length_remove_of_has _ _, has_remove_self _ _⟩

/-! ### C16: destroying a swapped-out projectile -/

theorem routePlayerProjCollisions_eq (ext : Ext) (player_proj other : Entity) (r : Registry) :
    routePlayerProjCollisions ext player_proj other r =
      (routePlayerProjDispatch ext player_proj other r).bind fun r3 =>
        match r3.playerProjectiles.get player_proj with
        | none => none
        | some player_proj_component =>
          if decide (player_proj ≠ r3.player_projectile) &&
              decide (player_proj_component.type ≠ PROJECTILES.CONCUSSIVE) &&
              decide (player_proj_component.type ≠ PROJECTILES.SHRIMP) then
            some (destroyGunOrProjectile player_proj r3)
          else some r3 := by
  unfold routePlayerProjCollisions routePlayerProjDispatch
  cases whenHas (fun s => s.deadlys.has other)
    (resolveEnemyPlayerProjCollision ext other player_proj) r with
  | none => rfl
  | some r1 =>
    simp only [Option.some_bind]
    cases whenHas (fun s => s.activeWalls.has other)
      (resolveWallPlayerProjCollision ext other player_proj) r1 with
    | none => rfl
    | some r2 => rfl

theorem dispatchInv_refl (proj : Entity) (r : Registry) : DispatchInv proj r r :=
  ⟨rfl, Or.inl rfl⟩

theorem dispatchInv_trans (proj : Entity) (a b c : Registry) (h1 : DispatchInv proj a b)
    (h2 : DispatchInv proj b c) : DispatchInv proj a c := by
  refine ⟨h2.1.trans h1.1, ?_⟩
  rcases h1.2 with e1 | ⟨x, hx, hs⟩
  · rcases h2.2 with e2 | ⟨y, hy, hs⟩
    · exact Or.inl (e2.trans e1)
    · right
      have := h1.1
      rw [hy] at this
      cases hget : a.playerProjectiles.get proj with
      | none => simp [hget] at this
      | some z =>
        simp only [hget, Option.map_some', Option.some.injEq] at this
        exact ⟨z, rfl, by rw [← this]; exact hs⟩
  · exact Or.inr ⟨x, hx, hs⟩

theorem type_update_loaded (t : ComponentContainer PlayerProjectile) (p e : Entity) :
    ((t.update p fun c => { c with is_loaded := true }).get e).map (fun c => c.type)
      = (t.get e).map (fun c => c.type) := by
  rw [get_update]
  split
  · rename_i h
    subst h
    cases t.get e <;> rfl
  · rfl

theorem dispatchInv_zeroAndLoad (proj p : Entity) (r : Registry) :
    DispatchInv proj r (zeroAndLoad p r) :=
  ⟨type_update_loaded _ _ _, Or.inl rfl⟩

theorem dispatchInv_of_onlySoundsCalls (proj : Entity) (r r2 : Registry)
    (h : OnlySoundsCalls r r2) : DispatchInv proj r r2 := by
  obtain ⟨s, l, rfl⟩ := h
  exact ⟨rfl, Or.inl rfl⟩

theorem dispatchInv_resolveEnemyPlayerProjCollision (ext : Ext) (enemy proj p : Entity)
    (r r2 : Registry) (h : resolveEnemyPlayerProjCollision ext enemy p r = some r2) :
    DispatchInv proj r r2 := by
  cases hget : r.playerProjectiles.get p with
  | none => simp [resolveEnemyPlayerProjCollision, hget] at h
  | some comp =>
    by_cases hmot : r.motions.has p = true
    · obtain ⟨s, tp, rest, rfl⟩ :=
        resolveEnemyPlayerProjCollision_shape ext enemy p r r2 comp hget hmot h
      cases stopsOnHit comp.type
      · exact ⟨rfl, Or.inl rfl⟩
      · exact ⟨type_update_loaded _ _ _, Or.inl rfl⟩
    · simp [resolveEnemyPlayerProjCollision, hget, hmot] at h
      subst h
      exact dispatchInv_refl proj r

theorem dispatchInv_resolveWallPlayerProjCollision (ext : Ext) (wall proj : Entity)
    (r r2 : Registry) (h : resolveWallPlayerProjCollision ext wall proj r = some r2) :
    DispatchInv proj r r2 := by
  unfold resolveWallPlayerProjCollision at h
  split at h
  · cases h
    exact dispatchInv_refl proj r
  · split at h
    · rename_i m comp inv hm hcomp hinv
      simp only [] at h
      split at h
      · rename_i hty
        have hs : stopsOnHit comp.type = false := by simp [stopsOnHit, hty]
        split at h <;> cases h
        · exact ⟨by
            split <;> exact type_update_loaded _ _ _, Or.inr ⟨comp, hcomp, hs⟩⟩
        · exact ⟨by
            split <;> exact type_update_loaded _ _ _, Or.inr ⟨comp, hcomp, hs⟩⟩
      · split at h
        · rename_i hty
          have hs : stopsOnHit comp.type = false := by simp [stopsOnHit, hty]
          split at h <;> cases h
          · exact ⟨by
              split <;> exact type_update_loaded _ _ _, Or.inr ⟨comp, hcomp, hs⟩⟩
          · exact ⟨by
              split <;> exact type_update_loaded _ _ _, Or.inr ⟨comp, hcomp, hs⟩⟩
        · simp only [Option.map_eq_some'] at h
          obtain ⟨r3, h3, rfl⟩ := h
          have f1 : DispatchInv proj r (zeroAndLoad proj r) := dispatchInv_zeroAndLoad _ _ r
          have f3 : DispatchInv proj (zeroAndLoad proj r) r3 := by
            split at h3
            · exact dispatchInv_of_onlySoundsCalls _ _ _
                (detectAndResolveExplosion_onlySoundsCalls ext _ _ _ _ h3)
            · cases h3
              exact dispatchInv_refl _ _
          exact dispatchInv_trans _ _ _ _ f1
            (dispatchInv_trans _ _ _ _ f3 (dispatchInv_zeroAndLoad _ _ r3))
    · cases h

theorem dispatchInv_routePlayerProjDispatch (ext : Ext) (proj other : Entity)
    (r r3 : Registry) (h : routePlayerProjDispatch ext proj other r = some r3) :
    DispatchInv proj r r3 := by
  unfold routePlayerProjDispatch at h
  simp only [Option.bind_eq_some] at h
  obtain ⟨r1, h1, ra, h2, h3⟩ := h
  have f1 := whenHas_rel (DispatchInv proj) (dispatchInv_refl proj) _ _ _ _
    (dispatchInv_resolveEnemyPlayerProjCollision ext other proj proj _ _) h1
  have f2 := whenHas_rel (DispatchInv proj) (dispatchInv_refl proj) _ _ _ _
    (dispatchInv_resolveWallPlayerProjCollision ext other proj _ _) h2
  have f3 := whenHas_rel (DispatchInv proj) (dispatchInv_refl proj) _ _ _ _
    (fun hx => by cases hx; exact ⟨rfl, Or.inl rfl⟩) h3
  exact dispatchInv_trans _ _ _ _ f1 (dispatchInv_trans _ _ _ _ f2 f3)

/-- C16. Let `comp` be the PlayerProjectile component of `proj` and `r3` the
registry after the branch dispatch of `routePlayerProjCollisions(proj, other)`.
Then the call returns, and its result is `r3` with the request
`destroyGunOrProjectile(proj)` appended to the call trace when `proj` differs
from the equipped projectile and the type of `comp` is neither CONCUSSIVE nor
SHRIMP, and is `r3` itself otherwise.  The condition is the same whether the
equipped projectile and the type are read before or after the dispatch. -/
theorem routePlayerProjCollisions_destroys_iff (ext : Ext) (proj other : Entity)
    (r r3 : Registry) (comp : PlayerProjectile)
    (hget : r.playerProjectiles.get proj = some comp)
    (hdispatch : routePlayerProjDispatch ext proj other r = some r3) :
    routePlayerProjCollisions ext proj other r =
      some (if proj ≠ r.player_projectile ∧ comp.type ≠ PROJECTILES.CONCUSSIVE ∧
          comp.type ≠ PROJECTILES.SHRIMP then destroyGunOrProjectile proj r3 else r3) ∧
    (destroyGunOrProjectile proj r3).calls = r3.calls ++ [Call.destroyGunOrProjectile proj] ∧
    ((proj ≠ r.player_projectile ∧ comp.type ≠ PROJECTILES.CONCUSSIVE ∧
        comp.type ≠ PROJECTILES.SHRIMP) ↔
      (proj ≠ r3.player_projectile ∧
        ∃ comp3, r3.playerProjectiles.get proj = some comp3 ∧
          comp3.type ≠ PROJECTILES.CONCUSSIVE ∧ comp3.type ≠ PROJECTILES.SHRIMP)) := by
  obtain ⟨hty, heq⟩ := dispatchInv_routePlayerProjDispatch ext proj other r r3 hdispatch
  rw [hget] at hty
  cases hget3 : r3.playerProjectiles.get proj with
  | none => simp [hget3] at hty
  | some comp3 =>
    simp only [hget3, Option.map_some', Option.some.injEq] at hty
    have hiff : (proj ≠ r.player_projectile ∧ comp.type ≠ PROJECTILES.CONCUSSIVE ∧
        comp.type ≠ PROJECTILES.SHRIMP) ↔
        (proj ≠ r3.player_projectile ∧ comp3.type ≠ PROJECTILES.CONCUSSIVE ∧
          comp3.type ≠ PROJECTILES.SHRIMP) := by
      rw [hty]
      rcases heq with h1 | ⟨x, hx, hs⟩
      · rw [h1]
      · rw [hget] at hx
        cases hx
        have : comp.type = PROJECTILES.CONCUSSIVE ∨ comp.type = PROJECTILES.SHRIMP := by
          by_contra hcon
          simp only [not_or] at hcon
          simp [stopsOnHit, hcon.1, hcon.2] at hs
        constructor
        · intro h
          rcases this with h2 | h2
          · exact absurd h2 h.2.1
          · exact absurd h2 h.2.2
        · intro h
          rcases this with h2 | h2
          · exact absurd h2 h.2.1
          · exact absurd h2 h.2.2
    refine ⟨?_, rfl, ?_⟩
    · rw [routePlayerProjCollisions_eq, hdispatch]
      simp only [Option.some_bind, hget3]
      by_cases hc : proj ≠ r.player_projectile ∧ comp.type ≠ PROJECTILES.CONCUSSIVE ∧
          comp.type ≠ PROJECTILES.SHRIMP
      · have hc3 := hiff.mp hc
        simp [hc, hc3.1, hc3.2.1, hc3.2.2]
      · have hc3 : ¬ (proj ≠ r3.player_projectile ∧ comp3.type ≠ PROJECTILES.CONCUSSIVE ∧
            comp3.type ≠ PROJECTILES.SHRIMP) := fun h => hc (hiff.mpr h)
        rw [if_neg hc]
        simp only [Bool.and_eq_true, decide_eq_true_eq]
        rw [if_neg (by
          intro h
          exact hc3 ⟨h.1.1, h.1.2, h.2⟩)]
    · rw [hiff]
      constructor
      · intro h
        exact ⟨h.1, comp3, rfl, h.2⟩
      · rintro ⟨h1, c3, hc3, h2⟩
        cases hc3
        exact ⟨h1, h2⟩

/-! ### C17: phase order and routing order -/

theorem recordsOf_nil (P : Entity → Entity → Prop) : RecordsOf P [] := by
  intro x hx
  cases hx

theorem recordsOf_append (P : Entity → Entity → Prop) (a b : List (Entity × Collision))
    (ha : RecordsOf P a) (hb : RecordsOf P b) : RecordsOf P (a ++ b) := by
  intro x hx
  rcases List.mem_append.mp hx with h | h
  · exact ha x h
  · exact hb x h

theorem recordsOf_pair (P : Entity → Entity → Prop) (i j : Entity) (h : P i j) :
    RecordsOf P (pairRecords i j) :=
  fun _ hx => ⟨i, j, h, hx⟩

/-- The table after `collision_detection` is the initial table followed by the
records of the four phases, in the order player projectile, player, wall, door. -/
theorem collision_detection_phases (ext : Ext) (r : Registry) :
    ∃ l1 l2 l3 l4,
      RecordsOf (ProjPair r) l1 ∧ RecordsOf (PlayerPair r) l2 ∧
      RecordsOf (WallPair r) l3 ∧ RecordsOf (DoorPair r) l4 ∧
      detectPlayerProjectileCollisions ext r
        = some { r with collisions := r.collisions ++ l1 } ∧
      detectPlayerCollisions ext { r with collisions := r.collisions ++ l1 }
        = some { r with collisions := r.collisions ++ l1 ++ l2 } ∧
      detectWallCollisions ext { r with collisions := r.collisions ++ l1 ++ l2 }
        = some { r with collisions := r.collisions ++ l1 ++ l2 ++ l3 } ∧
      detectDoorCollisions ext { r with collisions := r.collisions ++ l1 ++ l2 ++ l3 }
        = some { r with collisions := r.collisions ++ l1 ++ l2 ++ l3 ++ l4 } ∧
      collision_detection ext r
        = some { r with collisions := r.collisions ++ l1 ++ l2 ++ l3 ++ l4 } := by
  obtain ⟨l1, h1, q1⟩ := emits_apply r _ _
    (emits_detectPlayerProjectileCollisions ext r (RecordsOf (ProjPair r))
      (recordsOf_nil _) (recordsOf_append _) (recordsOf_pair _))
  obtain ⟨l2, h2, q2⟩ := emits_detectPlayerCollisions ext r (RecordsOf (PlayerPair r))
    (recordsOf_nil _) (recordsOf_append _) (recordsOf_pair _) (r.collisions ++ l1)
  obtain ⟨l3, h3, q3⟩ := emits_detectWallCollisions ext r (RecordsOf (WallPair r))
    (recordsOf_nil _) (recordsOf_append _) (recordsOf_pair _) (r.collisions ++ l1 ++ l2)
  obtain ⟨l4, h4, q4⟩ := emits_detectDoorCollisions ext r (RecordsOf (DoorPair r))
    (recordsOf_nil _) (recordsOf_append _) (recordsOf_pair _) (r.collisions ++ l1 ++ l2 ++ l3)
  refine ⟨l1, l2, l3, l4, q1, q2, q3, q4, h1, h2, h3, h4, ?_⟩
  unfold collision_detection
  rw [h1]
  simp only [Option.some_bind]
  rw [h2]
  simp only [Option.some_bind]
  rw [h3]
  simp only [Option.some_bind]
  exact h4

theorem collision_resolution_loop_table_order (ext : Ext) (fuel : Nat) :
    ∀ (i : Nat) (r : Registry),
      (∀ rec, rec ∈ r.collisions → r.enemyProjectiles.has rec.2.other = false) →
      r.collisions.length ≤ fuel + i →
      collision_resolution_loop ext fuel i r
        = routeInTableOrder ext (r.collisions.drop i) r := by
  induction fuel with
  | zero =>
    intro i r _ hlen
    have hnone : r.collisions.get? i = none := List.get?_eq_none.mpr (by omega)
    have hdrop : r.collisions.drop i = [] := List.drop_eq_nil_of_le (by omega)
    rw [collision_resolution_loop, hnone, hdrop]
    rfl
  | succ f ih =>
    intro i r hno hlen
    cases hrec : r.collisions.get? i with
    | none =>
      have hge : r.collisions.length ≤ i := List.get?_eq_none.mp hrec
      have hdrop : r.collisions.drop i = [] := List.drop_eq_nil_of_le hge
      rw [collision_resolution_loop, hrec, hdrop]
      rfl
    | some rec =>
      obtain ⟨entity, c⟩ := rec
      have hmem : (entity, c) ∈ r.collisions := List.get?_mem hrec
      have hi : i < r.collisions.length := by
        by_contra hcon
        have : r.collisions.get? i = none := List.get?_eq_none.mpr (by omega)
        rw [this] at hrec
        cases hrec
      have hdrop : r.collisions.drop i = (entity, c) :: r.collisions.drop (i + 1) := by
        rw [List.drop_eq_getElem_cons hi]
        have : r.collisions[i] = (entity, c) := by
          have h2 := List.get?_eq_get hi
          rw [hrec] at h2
          simpa using h2.symm
        rw [this]
      rw [collision_resolution_loop, hrec, hdrop]
      simp only [routeInTableOrder]
      cases hbody : collision_resolution_body ext entity c.other r with
      | none => rfl
      | some r1 =>
        have hk := (routerOk_collision_resolution_body ext entity c.other r r1 hbody).2
          (hno (entity, c) hmem)
        have hcol : r1.collisions = r.collisions := hk.1
        have hep : r1.enemyProjectiles = r.enemyProjectiles := hk.2.2.2.1
        simp only [Option.some_bind]
        rw [ih (i + 1) r1 (by rw [hcol, hep]; exact hno) (by rw [hcol]; omega), hcol]

theorem detection_pickupScene :
    collision_detection sampleExt pickupScene
      = some { pickupScene with
          collisions := [(1, ⟨2⟩), (2, ⟨1⟩), (1, ⟨3⟩), (3, ⟨1⟩), (1, ⟨4⟩), (4, ⟨1⟩)] } := by
  unfold collision_detection detectPlayerProjectileCollisions detectPlayerCollisions
    detectWallCollisions detectDoorCollisions
  simp [pickupScene, emptyRegistry, forEachRow, forEachEntity, detectPlayerCollisions_body,
    checkPlayerMeshCollision, recordPair, onCooldown, sampleExt, box_collides, get_bounds,
    unitBoxAt, ComponentContainer.entities, ComponentContainer.has, ComponentContainer.get,
    ComponentContainer.emplace_with_duplicates]

/-- C17 (counterexample). In `pickupScene` detection records the player's
pairs with the enemy projectile 2 and the consumables 3 and 4, in that order.
Routing the first record removes the enemy projectile, and swap-with-last
removal moves the last record (4, 1) into the slot of the removed record
(2, 1): the loop of `collision_resolution` handles consumable 4 before
consumable 3 and never routes (2, 1) or the record in the last slot, while
routing the recorded table in table order handles consumable 3 first. -/
theorem enemy_projectile_removal_reorders_routing :
    ∃ d rLive rOrder,
      collision_detection sampleExt pickupScene = some d ∧
      d.collisions = [(1, ⟨2⟩), (2, ⟨1⟩), (1, ⟨3⟩), (3, ⟨1⟩), (1, ⟨4⟩), (4, ⟨1⟩)] ∧
      collision_resolution_loop sampleExt d.collisions.length 0 d = some rLive ∧
      routeInTableOrder sampleExt d.collisions d = some rOrder ∧
      rLive.calls = [Call.handle_debuffs 1 2, Call.modifyOxygen 1 2,
        Call.handle_consumable_collisions 1 4, Call.handle_consumable_collisions 1 3,
        Call.handle_consumable_collisions 1 3, Call.handle_consumable_collisions 1 4] ∧
      rOrder.calls = [Call.handle_debuffs 1 2, Call.modifyOxygen 1 2,
        Call.handle_consumable_collisions 1 3, Call.handle_consumable_collisions 1 3,
        Call.handle_consumable_collisions 1 4, Call.handle_consumable_collisions 1 4] ∧
      rLive.calls ≠ rOrder.calls :=
  ⟨_, _, _, detection_pickupScene, rfl, rfl, rfl, rfl, rfl, by decide⟩

/-- C17 (amended). Let `d` be the result of `collision_detection` on `r`.  The
collision table of `d` is the table of `r` followed by the records of the
player-projectile phase, then those of the player phase, then those of the wall
phase, then those of the door phase.  When no record of `d` has an enemy
projectile as its other entity (the only resolvers that remove an entity act on
enemy projectiles), `collision_resolution` routes the records of `d` in exactly
that table order, and `step` returns the outcome with the table cleared. -/
theorem detection_phase_order_and_table_order_routing (ext : Ext) (r d : Registry)
    (hdet : collision_detection ext r = some d)
    (hno : ∀ rec, rec ∈ d.collisions → d.enemyProjectiles.has rec.2.other = false) :
    (∃ l1 l2 l3 l4,
      RecordsOf (ProjPair r) l1 ∧ RecordsOf (PlayerPair r) l2 ∧
      RecordsOf (WallPair r) l3 ∧ RecordsOf (DoorPair r) l4 ∧
      detectPlayerProjectileCollisions ext r
        = some { r with collisions := r.collisions ++ l1 } ∧
      detectPlayerCollisions ext { r with collisions := r.collisions ++ l1 }
        = some { r with collisions := r.collisions ++ l1 ++ l2 } ∧
      detectWallCollisions ext { r with collisions := r.collisions ++ l1 ++ l2 }
        = some { r with collisions := r.collisions ++ l1 ++ l2 ++ l3 } ∧
      detectDoorCollisions ext { r with collisions := r.collisions ++ l1 ++ l2 ++ l3 }
        = some { r with collisions := r.collisions ++ l1 ++ l2 ++ l3 ++ l4 } ∧
      d = { r with collisions := r.collisions ++ l1 ++ l2 ++ l3 ++ l4 }) ∧
    collision_resolution_loop ext d.collisions.length 0 d
      = routeInTableOrder ext d.collisions d ∧
    step ext r
      = (routeInTableOrder ext d.collisions d).map fun r1 => { r1 with collisions := [] } := by
  have hloop : collision_resolution_loop ext d.collisions.length 0 d
      = routeInTableOrder ext d.collisions d := by
    have := collision_resolution_loop_table_order ext d.collisions.length 0 d hno (by omega)
    simpa using this
  refine ⟨?_, hloop, ?_⟩
  · obtain ⟨l1, l2, l3, l4, q1, q2, q3, q4, h1, h2, h3, h4, h⟩ :=
      collision_detection_phases ext r
    rw [hdet] at h
    exact ⟨l1, l2, l3, l4, q1, q2, q3, q4, h1, h2, h3, h4, Option.some.inj h⟩
  · unfold step
    rw [hdet]
    simp only [Option.some_bind]
    unfold collision_resolution
    rw [hloop]

/-! ### C18: the cooldown guard of the player phase -/

theorem emits_forEachEntity_at (r0 : Registry) (Q : List (Entity × Collision) → Prop)
    (body : Entity → Registry → Option Registry)
    (hl : ∀ a b, Q a → Q (a ++ b)) (hr : ∀ a b, Q b → Q (a ++ b))
    (es : List Entity) (e : Entity) (he : e ∈ es)
    (hall : ∀ x, x ∈ es → Emits r0 (fun _ => True) (body x))
    (hone : Emits r0 Q (body e)) : Emits r0 Q (forEachEntity body es) := by
  induction es with
  | nil => cases he
  | cons x xs ih =>
    have hrest : Emits r0 (fun _ => True) (forEachEntity body xs) :=
      emits_forEachEntity r0 (fun _ => True) body trivial (fun _ _ _ _ => trivial) xs
        (fun y hy => hall y (List.mem_cons_of_mem x hy))
    by_cases hx : e = x
    · subst hx
      exact emits_bind r0 Q (fun _ => True) Q (body e) (forEachEntity body xs)
        (fun a b ha _ => hl a b ha) hone hrest
    · have hmem : e ∈ xs := by
        rcases List.mem_cons.mp he with h | h
        · exact absurd h hx
        · exact h
      exact emits_bind r0 (fun _ => True) Q Q (body x) (forEachEntity body xs)
        (fun a b _ hb => hr a b hb) (hall x (List.mem_cons_self x xs))
        (ih hmem (fun y hy => hall y (List.mem_cons_of_mem x hy)))

theorem hasPair_left (i j : Entity) (a b : List (Entity × Collision)) (h : HasPair i j a) :
    HasPair i j (a ++ b) :=
  ⟨List.mem_append.mpr (Or.inl h.1), List.mem_append.mpr (Or.inl h.2)⟩

theorem hasPair_right (i j : Entity) (a b : List (Entity × Collision)) (h : HasPair i j b) :
    HasPair i j (a ++ b) :=
  ⟨List.mem_append.mpr (Or.inr h.1), List.mem_append.mpr (Or.inr h.2)⟩

/-- The mesh test of a pair that passes records the pair. -/
theorem emits_checkMesh_hit (ext : Ext) (r0 : Registry) (i j mesh : Entity)
    (hhit : ∀ c, meshHit ext { r0 with collisions := c } i j mesh = true) :
    Emits r0 (HasPair i j)
      (fun r => (checkPlayerMeshCollision ext i j mesh r).map Prod.snd) := by
  intro c
  simp only [checkPlayerMeshCollision_eq, Option.map_some', recordPair_eq, hhit c, if_true]
  exact ⟨pairRecords i j, rfl, by simp [HasPair, pairRecords]⟩

/-- One iteration of a cooldown-guarded loop of `detectPlayerCollisions` only
appends records. -/
theorem emits_guarded_any (ext : Ext) (r0 : Registry) (i mesh e : Entity) :
    Emits r0 (fun _ => True) (fun r1 =>
      match onCooldown r1 e with
      | none => none
      | some true => some r1
      | some false => (checkPlayerMeshCollision ext i e mesh r1).map Prod.snd) := by
  obtain ⟨b, hb⟩ := onCooldown_total r0 e
  cases b with
  | true =>
    apply emits_congr r0 _ some _ _ (emits_pure r0 _ trivial)
    intro c2
    have : onCooldown { r0 with collisions := c2 } e = some true := hb
    simp only [this]
  | false =>
    apply emits_congr r0 _
      (fun r1 => (checkPlayerMeshCollision ext i e mesh r1).map Prod.snd) _ _
      (emits_checkMesh ext r0 _ i e mesh trivial (fun _ => trivial))
    intro c2
    have : onCooldown { r0 with collisions := c2 } e = some false := hb
    simp only [this]

/-- A cooldown-guarded loop records the pair of an entity of its table that is
not on cooldown and passes the mesh test. -/
theorem emits_guarded_loop_hit (ext : Ext) (r0 : Registry) (i mesh j : Entity)
    (sel : Registry → List Entity) (hsel : ∀ c, sel { r0 with collisions := c } = sel r0)
    (hj : j ∈ sel r0) (hcd : onCooldown r0 j = some false)
    (hhit : ∀ c, meshHit ext { r0 with collisions := c } i j mesh = true) :
    Emits r0 (HasPair i j) (fun r => forEachEntity (fun entity_j r1 =>
      match onCooldown r1 entity_j with
      | none => none
      | some true => some r1
      | some false => (checkPlayerMeshCollision ext i entity_j mesh r1).map Prod.snd)
      (sel r) r) := by
  intro c
  simp only [hsel c]
  refine emits_forEachEntity_at r0 (HasPair i j) _ (hasPair_left i j) (hasPair_right i j)
    (sel r0) j hj (fun x _ => emits_guarded_any ext r0 i mesh x) ?_ c
  apply emits_congr r0 _
    (fun r1 => (checkPlayerMeshCollision ext i j mesh r1).map Prod.snd) _ _
    (emits_checkMesh_hit ext r0 i j mesh hhit)
  intro c2
  have : onCooldown { r0 with collisions := c2 } j = some false := hcd
  simp only [this]

theorem emits_guarded_loop_any (ext : Ext) (r0 : Registry) (i mesh : Entity)
    (sel : Registry → List Entity) (hsel : ∀ c, sel { r0 with collisions := c } = sel r0) :
    Emits r0 (fun _ => True) (fun r => forEachEntity (fun entity_j r1 =>
      match onCooldown r1 entity_j with
      | none => none
      | some true => some r1
      | some false => (checkPlayerMeshCollision ext i entity_j mesh r1).map Prod.snd)
      (sel r) r) :=
  emits_loop r0 _ _ sel hsel trivial (fun _ _ _ _ => trivial)
    (fun x _ => emits_guarded_any ext r0 i mesh x)

theorem emits_plain_loop_any (ext : Ext) (r0 : Registry) (i mesh : Entity)
    (sel : Registry → List Entity) (hsel : ∀ c, sel { r0 with collisions := c } = sel r0) :
    Emits r0 (fun _ => True) (fun r => forEachEntity (fun entity_j r1 =>
      (checkPlayerMeshCollision ext i entity_j mesh r1).map Prod.snd) (sel r) r) :=
  emits_loop r0 _ _ sel hsel trivial (fun _ _ _ _ => trivial)
    (fun x _ => emits_checkMesh ext r0 _ i x mesh trivial (fun _ => trivial))

/-- The body of the player loop records the pair of an enemy or interactable
that is not on cooldown and passes the box and mesh tests. -/
theorem emits_detectPlayerCollisions_body_hit (ext : Ext) (r0 : Registry) (i j : Entity)
    (comp : Player) (hcomp : r0.players.get i = some comp)
    (hj : j ∈ r0.deadlys.entities ∨ j ∈ r0.interactable.entities)
    (hcd : onCooldown r0 j = some false)
    (hhit : ∀ c, meshHit ext { r0 with collisions := c } i j comp.collisionMesh = true) :
    Emits r0 (HasPair i j) (detectPlayerCollisions_body ext i) := by
  intro c
  have hp : r0.positions.has i = true := by
    have h := hhit []
    unfold meshHit at h
    simp only [Bool.and_eq_true] at h
    exact (boxHit_has ext r0 i j h.1).1
  have g1 := emits_guarded_loop_any ext r0 i comp.collisionMesh
    (fun r => r.deadlys.entities) (fun _ => rfl)
  have g2 := emits_plain_loop_any ext r0 i comp.collisionMesh
    (fun r => r.enemyProjectiles.entities) (fun _ => rfl)
  have g3 := emits_plain_loop_any ext r0 i comp.collisionMesh
    (fun r => r.consumables.entities) (fun _ => rfl)
  have g4 := emits_guarded_loop_any ext r0 i comp.collisionMesh
    (fun r => r.interactable.entities) (fun _ => rfl)
  unfold detectPlayerCollisions_body
  rcases hj with hj | hj
  · have k1 := emits_guarded_loop_hit ext r0 i comp.collisionMesh j
      (fun r => r.deadlys.entities) (fun _ => rfl) hj hcd hhit
    have h34 := emits_bind r0 _ _ (fun _ => True) _ _ (fun _ _ _ _ => trivial) g3 g4
    have h234 := emits_bind r0 _ _ (fun _ => True) _ _ (fun _ _ _ _ => trivial) g2 h34
    have h1234 := emits_bind r0 _ _ (HasPair i j) _ _ (fun a b ha _ => hasPair_left i j a b ha)
      k1 h234 c
    simpa [hp, hcomp] using h1234
  · have k4 := emits_guarded_loop_hit ext r0 i comp.collisionMesh j
      (fun r => r.interactable.entities) (fun _ => rfl) hj hcd hhit
    have h34 := emits_bind r0 _ _ (HasPair i j) _ _ (fun a b _ hb => hasPair_right i j a b hb)
      g3 k4
    have h234 := emits_bind r0 _ _ (HasPair i j) _ _ (fun a b _ hb => hasPair_right i j a b hb)
      g2 h34
    have h1234 := emits_bind r0 _ _ (HasPair i j) _ _ (fun a b _ hb => hasPair_right i j a b hb)
      g1 h234 c
    simpa [hp, hcomp] using h1234

theorem emits_detectPlayerCollisions_body_any (ext : Ext) (r0 : Registry) (i : Entity)
    (hmem : i ∈ r0.players.entities) :
    Emits r0 (fun _ => True) (detectPlayerCollisions_body ext i) := by
  intro c
  unfold detectPlayerCollisions_body
  by_cases hp : r0.positions.has i = true
  · obtain ⟨comp, hcomp⟩ := get_isSome_of_mem_entities _ _ hmem
    have g1 := emits_guarded_loop_any ext r0 i comp.collisionMesh
      (fun r => r.deadlys.entities) (fun _ => rfl)
    have g2 := emits_plain_loop_any ext r0 i comp.collisionMesh
      (fun r => r.enemyProjectiles.entities) (fun _ => rfl)
    have g3 := emits_plain_loop_any ext r0 i comp.collisionMesh
      (fun r => r.consumables.entities) (fun _ => rfl)
    have g4 := emits_guarded_loop_any ext r0 i comp.collisionMesh
      (fun r => r.interactable.entities) (fun _ => rfl)
    have h34 := emits_bind r0 _ _ (fun _ => True) _ _ (fun _ _ _ _ => trivial) g3 g4
    have h234 := emits_bind r0 _ _ (fun _ => True) _ _ (fun _ _ _ _ => trivial) g2 h34
    have h1234 := emits_bind r0 _ _ (fun _ => True) _ _ (fun _ _ _ _ => trivial) g1 h234 c
    simpa [hp, hcomp] using h1234
  · exact ⟨[], by simp [hp], trivial⟩

/-- Completeness of the player phase for enemies and interactables that are
not on cooldown. -/
theorem detectPlayerCollisions_records_hit (ext : Ext) (r : Registry) (i j : Entity)
    (comp : Player) (hcomp : r.players.get i = some comp)
    (hj : j ∈ r.deadlys.entities ∨ j ∈ r.interactable.entities)
    (hcd : onCooldown r j = some false)
    (hhit : ∀ c, meshHit ext { r with collisions := c } i j comp.collisionMesh = true) :
    ∃ l, detectPlayerCollisions ext r = some { r with collisions := r.collisions ++ l } ∧
      HasPair i j l := by
  have hmem : i ∈ r.players.entities := mem_entities_of_get _ _ _ hcomp
  have hloop : Emits r (HasPair i j) (detectPlayerCollisions ext) := by
    intro c
    exact emits_forEachEntity_at r (HasPair i j) _ (hasPair_left i j) (hasPair_right i j)
      r.players.entities i hmem
      (fun x hx => emits_detectPlayerCollisions_body_any ext r x hx)
      (emits_detectPlayerCollisions_body_hit ext r i j comp hcomp hj hcd hhit) c
  exact emits_apply r _ _ hloop

/-- Soundness of the cooldown guard: an entity on cooldown that is neither an
enemy projectile, a consumable nor a player is in no record of the player
phase. -/
theorem detectPlayerCollisions_skips_cooldown (ext : Ext) (r : Registry) (j : Entity)
    (hcd : onCooldown r j = some true)
    (hep : j ∉ r.enemyProjectiles.entities) (hcons : j ∉ r.consumables.entities)
    (hpl : j ∉ r.players.entities) :
    ∃ l, detectPlayerCollisions ext r = some { r with collisions := r.collisions ++ l } ∧
      ∀ x, x ∈ l → x.1 ≠ j ∧ x.2.other ≠ j := by
  apply emits_apply r _ _
  apply emits_detectPlayerCollisions ext r (fun l => ∀ x, x ∈ l → x.1 ≠ j ∧ x.2.other ≠ j)
  · intro x hx
    cases hx
  · intro a b ha hb x hx
    rcases List.mem_append.mp hx with h | h
    · exact ha x h
    · exact hb x h
  · intro a b hpair x hx
    obtain ⟨_, _, ha, hb⟩ := hpair
    have haj : a ≠ j := fun h => hpl (h ▸ ha)
    have hbj : b ≠ j := by
      intro h
      subst h
      rcases hb with ⟨_, h2⟩ | h2 | h2 | ⟨_, h2⟩
      · rw [hcd] at h2
        cases h2
      · exact hep h2
      · exact hcons h2
      · rw [hcd] at h2
        cases h2
    simp only [pairRecords, List.mem_cons, List.mem_singleton, List.not_mem_nil, or_false] at hx
    rcases hx with rfl | rfl
    · exact ⟨haj, hbj⟩
    · exact ⟨hbj, haj⟩

theorem onCooldown_of_pos (r : Registry) (j : Entity) (cd : ModifyOxygenCD)
    (hget : r.modifyOxygenCd.get j = some cd) (hpos : cd.curr_cd > 0) :
    onCooldown r j = some true := by
  simp [onCooldown, ComponentContainer.has, hget, hpos]

theorem onCooldown_of_ready (r : Registry) (j : Entity)
    (h : r.modifyOxygenCd.get j = none ∨
      ∃ cd, r.modifyOxygenCd.get j = some cd ∧ cd.curr_cd ≤ 0) :
    onCooldown r j = some false := by
  rcases h with h | ⟨cd, hget, hle⟩
  · simp [onCooldown, ComponentContainer.has, h]
  · simp [onCooldown, ComponentContainer.has, hget, not_lt.mpr hle]

theorem not_mem_entities_of_has {T : Type} (t : ComponentContainer T) (e : Entity)
    (h : t.has e = false) : e ∉ t.entities := by
  intro hmem
  rw [← has_iff_mem_entities, h] at hmem
  cases hmem

theorem detection_cooldownScene :
    detectPlayerCollisions sampleExt (cooldownScene 5 true)
      = some { cooldownScene 5 true with collisions := [(1, ⟨2⟩), (2, ⟨1⟩)] } := by
  unfold detectPlayerCollisions
  simp [cooldownScene, emptyRegistry, forEachEntity, detectPlayerCollisions_body,
    checkPlayerMeshCollision, recordPair, onCooldown, sampleExt, box_collides, get_bounds,
    unitBoxAt, ComponentContainer.entities, ComponentContainer.has, ComponentContainer.get,
    ComponentContainer.emplace_with_duplicates]

/-- C18 (counterexample). In `cooldownScene 5 true` entity 2 is an enemy whose
ModifyOxygenCD has `curr_cd = 5 > 0` and is also a consumable.  The enemy loop
of `detectPlayerCollisions` skips it, but the consumable loop, which has no
cooldown guard, records its collision with player 1. -/
theorem enemy_on_cooldown_recorded_as_consumable :
    (cooldownScene 5 true).players.has 1 = true ∧
    (cooldownScene 5 true).deadlys.has 2 = true ∧
    (cooldownScene 5 true).modifyOxygenCd.get 2 = some ⟨5⟩ ∧
    (5 : Rat) > 0 ∧
    ∃ r2, detectPlayerCollisions sampleExt (cooldownScene 5 true) = some r2 ∧
      r2.collisions = [(1, ⟨2⟩), (2, ⟨1⟩)] :=
  ⟨rfl, rfl, rfl, by norm_num, _, detection_cooldownScene, rfl⟩

/-- C18 (amended). For every registry and entity `j`: if the ModifyOxygenCD of
`j` has `curr_cd > 0` and `j` is neither an enemy projectile, a consumable nor
a player, then `detectPlayerCollisions` returns and no record it appends has
`j` on either side (the enemy-projectile and consumable loops have no cooldown
guard); and if `j` is an enemy or an interactable with no cooldown component
or with `curr_cd <= 0`, then for every player `i` whose box test and mesh test
against `j` pass, `detectPlayerCollisions` returns and appends both records of
the pair. -/
theorem detectPlayerCollisions_cooldown_guard (ext : Ext) (r : Registry) (j : Entity) :
    (∀ cd, r.modifyOxygenCd.get j = some cd → cd.curr_cd > 0 →
      r.enemyProjectiles.has j = false → r.consumables.has j = false →
      r.players.has j = false →
      ∃ l, detectPlayerCollisions ext r = some { r with collisions := r.collisions ++ l } ∧
        ∀ x, x ∈ l → x.1 ≠ j ∧ x.2.other ≠ j) ∧
    (∀ i comp, r.players.get i = some comp →
      (r.deadlys.has j = true ∨ r.interactable.has j = true) →
      (r.modifyOxygenCd.get j = none ∨
        ∃ cd, r.modifyOxygenCd.get j = some cd ∧ cd.curr_cd ≤ 0) →
      (∀ c, meshHit ext { r with collisions := c } i j comp.collisionMesh = true) →
      ∃ l, detectPlayerCollisions ext r = some { r with collisions := r.collisions ++ l } ∧
        (i, (⟨j⟩ : Collision)) ∈ l ∧ (j, (⟨i⟩ : Collision)) ∈ l) := by
  constructor
  · intro cd hget hpos hep hcons hpl
    exact detectPlayerCollisions_skips_cooldown ext r j (onCooldown_of_pos r j cd hget hpos)
      (not_mem_entities_of_has _ _ hep) (not_mem_entities_of_has _ _ hcons)
      (not_mem_entities_of_has _ _ hpl)
  · intro i comp hcomp hj hready hhit
    have hj2 : j ∈ r.deadlys.entities ∨ j ∈ r.interactable.entities := by
      rcases hj with h | h
      · exact Or.inl ((has_iff_mem_entities _ _).mp h)
      · exact Or.inr ((has_iff_mem_entities _ _).mp h)
    exact detectPlayerCollisions_records_hit ext r i j comp hcomp hj2
      (onCooldown_of_ready r j hready) hhit

/-- C30. For every registry state `collision_detection` returns the same
registry with records appended to the collision table: no other table or global
changes, and both entities named by every appended record have a Position. -/
theorem collision_detection_read_only (ext : Ext) (r : Registry) :
    ∃ l, collision_detection ext r = some { r with collisions := r.collisions ++ l } ∧
      ∀ x, x ∈ l → r.positions.has x.1 = true ∧ r.positions.has x.2.other = true := by
  apply emits_apply r _ _
  apply emits_collision_detection ext r
    (fun l => ∀ x, x ∈ l → r.positions.has x.1 = true ∧ r.positions.has x.2.other = true)
  · intro x hx
    cases hx
  · intro a b ha hb x hx
    rcases List.mem_append.mp hx with h | h
    · exact ha x h
    · exact hb x h
  · intro i j hpair x hx
    have hij : r.positions.has i = true ∧ r.positions.has j = true := by
      rcases hpair with h | h | h | h
      · exact ⟨h.1, h.2.1⟩
      · exact ⟨h.1, h.2.1⟩
      · exact ⟨h.1, h.2.1⟩
      · exact ⟨h.1, h.2.1⟩
    simp only [pairRecords, List.mem_cons, List.mem_singleton, List.not_mem_nil, or_false] at hx
    rcases hx with rfl | rfl
    · exact hij
    · exact ⟨hij.2, hij.1⟩

/-! ### C24, C25, C29: the mass collision -/

theorem update_eq_self {T : Type} (tbl : ComponentContainer T) (e : Entity) (f : T → T) (v : T)
    (hget : tbl.get e = some v) (hf : f v = v) : tbl.update e f = tbl := by
  induction tbl with
  | nil => rfl
  | cons hd tl ih =>
    obtain ⟨k, w⟩ := hd
    by_cases hk : k = e
    · simp only [ComponentContainer.get, hk, if_true, Option.some.injEq] at hget
      subst hget
      simp [ComponentContainer.update, hk, hf]
    · simp only [ComponentContainer.get, hk, if_false] at hget
      simp [ComponentContainer.update, hk, ih hget]

theorem update_eq_self_of_forall {T : Type} (tbl : ComponentContainer T) (e : Entity)
    (f : T → T) (hf : ∀ v, f v = v) : tbl.update e f = tbl := by
  induction tbl with
  | nil => rfl
  | cons hd tl ih =>
    obtain ⟨k, w⟩ := hd
    by_cases hk : k = e
    · simp [ComponentContainer.update, hk, hf]
    · simp [ComponentContainer.update, hk, ih]

theorem update_update_idem {T : Type} (tbl : ComponentContainer T) (e : Entity) (f : T → T)
    (hf : ∀ v, f (f v) = f v) : (tbl.update e f).update e f = tbl.update e f := by
  induction tbl with
  | nil => rfl
  | cons hd tl ih =>
    obtain ⟨k, w⟩ := hd
    by_cases hk : k = e
    · simp [ComponentContainer.update, hk, hf]
    · simp [ComponentContainer.update, hk, ih]

theorem setOnAxis_idem (isX : Bool) (v : Rat) (m : Motion) :
    setOnAxis isX v (setOnAxis isX v m) = setOnAxis isX v m := by
  cases isX <;> simp [setOnAxis]

theorem setOnAxis_self (isX : Bool) (m : Motion) : setOnAxis isX (onAxis isX m.velocity) m = m := by
  cases isX <;> simp [setOnAxis, onAxis]

/-- The Motion of each of the two bodies after the two writes of
`resolveMassCollision`. -/
theorem massCollisionResult_get (r : Registry) (wall other : Entity) (isX : Bool) (v : Rat)
    (wall_motion other_motion : Motion)
    (hwm : r.motions.get wall = some wall_motion) (hom : r.motions.get other = some other_motion) :
    (massCollisionResult r wall other isX v).motions.get wall
      = some (setOnAxis isX v wall_motion) ∧
    (massCollisionResult r wall other isX v).motions.get other
      = some (setOnAxis isX v other_motion) ∧
    (∀ e, e ≠ wall → e ≠ other →
      (massCollisionResult r wall other isX v).motions.get e = r.motions.get e) := by
  unfold massCollisionResult
  refine ⟨?_, ?_, ?_⟩
  · by_cases hwo : wall = other
    · subst hwo
      simp [get_update, hwm, setOnAxis_idem]
    · simp [get_update, hwm, hwo]
  · by_cases hwo : other = wall
    · subst hwo
      simp [get_update, hom, setOnAxis_idem]
    · simp [get_update, hom, hwo]
  · intro e h1 h2
    simp [get_update, h1, h2]

theorem not_separating_of_equal (wall_pos other_pos : Position) (wall_motion other_motion : Motion)
    (heq : onAxis (massAxisIsX wall_pos other_pos) wall_motion.velocity
      = onAxis (massAxisIsX wall_pos other_pos) other_motion.velocity) :
    ¬ separating wall_pos other_pos wall_motion other_motion := by
  unfold separating
  simp only []
  rw [heq]
  rintro (⟨_, h⟩ | ⟨_, h⟩) <;> exact lt_irrefl _ h

theorem massFinalVelocity_of_equal (isX : Bool) (wall_mass other_mass : Mass)
    (wall_motion other_motion : Motion)
    (heq : onAxis isX wall_motion.velocity = onAxis isX other_motion.velocity)
    (hmass : wall_mass.mass + other_mass.mass ≠ 0) :
    massFinalVelocity isX wall_mass other_mass wall_motion other_motion
      = onAxis isX wall_motion.velocity := by
  unfold massFinalVelocity
  rw [← heq]
  field_simp
  ring

theorem massCollisionResult_self (r : Registry) (wall other : Entity) (isX : Bool)
    (wall_motion other_motion : Motion)
    (hwm : r.motions.get wall = some wall_motion) (hom : r.motions.get other = some other_motion)
    (heq : onAxis isX wall_motion.velocity = onAxis isX other_motion.velocity) :
    massCollisionResult r wall other isX (onAxis isX wall_motion.velocity) = r := by
  unfold massCollisionResult
  simp only []
  have h1 : r.motions.update wall (setOnAxis isX (onAxis isX wall_motion.velocity)) = r.motions :=
    update_eq_self _ _ _ _ hwm (setOnAxis_self isX wall_motion)
  rw [h1]
  have h2 : r.motions.update other (setOnAxis isX (onAxis isX wall_motion.velocity))
      = r.motions := by
    rw [heq]
    exact update_eq_self _ _ _ _ hom (setOnAxis_self isX other_motion)
  rw [h2]

/-- C24 (counterexample). In `equalVelocityScene 0 0` the wall and the body
both move with velocity (2, 0) and both masses are 0: the bodies are not
separating, the divisor `m1 + m2` of `v_final` is zero, and the velocity 2 of
both bodies on the collision axis is overwritten with the quotient, which is
not 2, so the state changes. -/
theorem massless_equal_velocities_changed :
    ¬ separating (unitBoxAt 0 0) (unitBoxAt (1 / 2) 0) ⟨⟨2, 0⟩, ⟨0, 0⟩⟩ ⟨⟨2, 0⟩, ⟨0, 0⟩⟩ ∧
    (equalVelocityScene 0 0).masses = [(1, ⟨0⟩), (2, ⟨0⟩)] ∧
    (equalVelocityScene 0 0).motions.get 1 = some ⟨⟨2, 0⟩, ⟨0, 0⟩⟩ ∧
    (equalVelocityScene 0 0).motions.get 2 = some ⟨⟨2, 0⟩, ⟨0, 0⟩⟩ ∧
    ∃ r2, resolveMassCollision 1 2 (equalVelocityScene 0 0) = some r2 ∧
      r2.motions.get 1 ≠ (equalVelocityScene 0 0).motions.get 1 ∧
      r2.motions.get 2 ≠ (equalVelocityScene 0 0).motions.get 2 ∧
      r2 ≠ equalVelocityScene 0 0 := by
  have hsep : ¬ separating (unitBoxAt 0 0) (unitBoxAt (1 / 2) 0) ⟨⟨2, 0⟩, ⟨0, 0⟩⟩
      ⟨⟨2, 0⟩, ⟨0, 0⟩⟩ := not_separating_of_equal _ _ _ _ rfl
  have hax : massAxisIsX (unitBoxAt 0 0) (unitBoxAt (1 / 2) 0) = true := by
    norm_num [massAxisIsX, unitBoxAt]
  have h := resolveMassCollision_closing (equalVelocityScene 0 0) 1 2 ⟨⟨2, 0⟩, ⟨0, 0⟩⟩
    ⟨⟨2, 0⟩, ⟨0, 0⟩⟩ (unitBoxAt 0 0) (unitBoxAt (1 / 2) 0) ⟨0⟩ ⟨0⟩ rfl rfl rfl rfl rfl rfl hsep
  have hv : massFinalVelocity true ⟨0⟩ ⟨0⟩ ⟨⟨2, 0⟩, ⟨0, 0⟩⟩ ⟨⟨2, 0⟩, ⟨0, 0⟩⟩ = 0 := by
    norm_num [massFinalVelocity]
  rw [hax, hv] at h
  obtain ⟨g1, g2, -⟩ := massCollisionResult_get (equalVelocityScene 0 0) 1 2 true 0
    ⟨⟨2, 0⟩, ⟨0, 0⟩⟩ ⟨⟨2, 0⟩, ⟨0, 0⟩⟩ rfl rfl
  have k1 : (massCollisionResult (equalVelocityScene 0 0) 1 2 true 0).motions.get 1
      ≠ (equalVelocityScene 0 0).motions.get 1 := by
    rw [g1]
    simp [setOnAxis, equalVelocityScene, ComponentContainer.get]
  have k2 : (massCollisionResult (equalVelocityScene 0 0) 1 2 true 0).motions.get 2
      ≠ (equalVelocityScene 0 0).motions.get 2 := by
    rw [g2]
    simp [setOnAxis, equalVelocityScene, ComponentContainer.get]
  refine ⟨hsep, rfl, rfl, rfl, _, h, k1, k2, ?_⟩
  intro heq
  rw [heq] at k1
  exact k1 rfl

/-- C24 (amended). For two bodies with Motion and Position: if they are
already separating along the collision axis, `resolveMassCollision` returns the
registry unchanged (no velocity, position or mass changes); and if their
velocities on the collision axis are equal, they carry masses and the total
mass is not zero, then the bodies are not separating, the computed `v_final`
equals the common velocity, and the registry is returned unchanged as well. -/
theorem resolveMassCollision_non_closing_unchanged (r : Registry) (wall other : Entity)
    (wall_motion other_motion : Motion) (wall_pos other_pos : Position)
    (hwm : r.motions.get wall = some wall_motion) (hom : r.motions.get other = some other_motion)
    (hwp : r.positions.get wall = some wall_pos) (hop : r.positions.get other = some other_pos) :
    (separating wall_pos other_pos wall_motion other_motion →
      resolveMassCollision wall other r = some r) ∧
    (∀ wall_mass other_mass, r.masses.get wall = some wall_mass →
      r.masses.get other = some other_mass →
      onAxis (massAxisIsX wall_pos other_pos) wall_motion.velocity
        = onAxis (massAxisIsX wall_pos other_pos) other_motion.velocity →
      wall_mass.mass + other_mass.mass ≠ 0 →
      ¬ separating wall_pos other_pos wall_motion other_motion ∧
      massFinalVelocity (massAxisIsX wall_pos other_pos) wall_mass other_mass
          wall_motion other_motion
        = onAxis (massAxisIsX wall_pos other_pos) wall_motion.velocity ∧
      resolveMassCollision wall other r = some r) := by
  constructor
  · exact resolveMassCollision_separating r wall other _ _ _ _ hwm hom hwp hop
  · intro wall_mass other_mass hwmass homass heq hmass
    have hsep := not_separating_of_equal wall_pos other_pos wall_motion other_motion heq
    have hv := massFinalVelocity_of_equal (massAxisIsX wall_pos other_pos) wall_mass other_mass
      wall_motion other_motion heq hmass
    refine ⟨hsep, hv, ?_⟩
    rw [resolveMassCollision_closing r wall other _ _ _ _ _ _ hwm hom hwp hop hwmass homass hsep,
      hv, massCollisionResult_self r wall other _ _ _ hwm hom heq]

theorem massFinalVelocity_between (isX : Bool) (wall_mass other_mass : Mass)
    (wall_motion other_motion : Motion) (hw : 0 < wall_mass.mass) (ho : 0 < other_mass.mass) :
    min (onAxis isX wall_motion.velocity) (onAxis isX other_motion.velocity)
      ≤ massFinalVelocity isX wall_mass other_mass wall_motion other_motion ∧
    massFinalVelocity isX wall_mass other_mass wall_motion other_motion
      ≤ max (onAxis isX wall_motion.velocity) (onAxis isX other_motion.velocity) := by
  unfold massFinalVelocity
  have hpos : 0 < wall_mass.mass + other_mass.mass := add_pos hw ho
  constructor
  · rw [le_div_iff₀ hpos]
    have h1 := min_le_left (onAxis isX wall_motion.velocity) (onAxis isX other_motion.velocity)
    have h2 := min_le_right (onAxis isX wall_motion.velocity) (onAxis isX other_motion.velocity)
    nlinarith [mul_le_mul_of_nonneg_left h1 hw.le, mul_le_mul_of_nonneg_left h2 ho.le]
  · rw [div_le_iff₀ hpos]
    have h1 := le_max_left (onAxis isX wall_motion.velocity) (onAxis isX other_motion.velocity)
    have h2 := le_max_right (onAxis isX wall_motion.velocity) (onAxis isX other_motion.velocity)
    nlinarith [mul_le_mul_of_nonneg_left h1 hw.le, mul_le_mul_of_nonneg_left h2 ho.le]

/-- C29 (amended). In exact arithmetic: for two bodies with Motion, Position and
strictly positive masses that are not separating, the divisor `m1 + m2` of
`resolveMassCollision` is not zero, the call returns, the velocity of both
bodies on the collision axis is `v_final = (m1*v1 + m2*v2)/(m1 + m2)`, and
`v_final` lies between the two velocities `v1` and `v2` they had on that
axis. -/
theorem resolveMassCollision_v_final_between (r : Registry) (wall other : Entity)
    (wall_motion other_motion : Motion) (wall_pos other_pos : Position)
    (wall_mass other_mass : Mass)
    (hwm : r.motions.get wall = some wall_motion) (hom : r.motions.get other = some other_motion)
    (hwp : r.positions.get wall = some wall_pos) (hop : r.positions.get other = some other_pos)
    (hwmass : r.masses.get wall = some wall_mass) (homass : r.masses.get other = some other_mass)
    (hw : 0 < wall_mass.mass) (ho : 0 < other_mass.mass)
    (hsep : ¬ separating wall_pos other_pos wall_motion other_motion) :
    wall_mass.mass + other_mass.mass ≠ 0 ∧
    ∃ r2 wall_motion2 other_motion2 v_final,
      resolveMassCollision wall other r = some r2 ∧
      r2.motions.get wall = some wall_motion2 ∧ r2.motions.get other = some other_motion2 ∧
      onAxis (massAxisIsX wall_pos other_pos) wall_motion2.velocity = v_final ∧
      onAxis (massAxisIsX wall_pos other_pos) other_motion2.velocity = v_final ∧
      v_final =
        (wall_mass.mass * onAxis (massAxisIsX wall_pos other_pos) wall_motion.velocity +
          other_mass.mass * onAxis (massAxisIsX wall_pos other_pos) other_motion.velocity) /
        (wall_mass.mass + other_mass.mass) ∧
      min (onAxis (massAxisIsX wall_pos other_pos) wall_motion.velocity)
          (onAxis (massAxisIsX wall_pos other_pos) other_motion.velocity) ≤ v_final ∧
      v_final ≤ max (onAxis (massAxisIsX wall_pos other_pos) wall_motion.velocity)
          (onAxis (massAxisIsX wall_pos other_pos) other_motion.velocity) := by
  obtain ⟨g1, g2, -⟩ := massCollisionResult_get r wall other (massAxisIsX wall_pos other_pos)
    (massFinalVelocity (massAxisIsX wall_pos other_pos) wall_mass other_mass
      wall_motion other_motion) wall_motion other_motion hwm hom
  have hb := massFinalVelocity_between (massAxisIsX wall_pos other_pos) wall_mass other_mass
    wall_motion other_motion hw ho
  exact ⟨ne_of_gt (add_pos hw ho), _, _, _, _,
    resolveMassCollision_closing r wall other _ _ _ _ _ _ hwm hom hwp hop hwmass homass hsep,
    g1, g2, onAxis_setOnAxis _ _ _, onAxis_setOnAxis _ _ _, rfl, hb.1, hb.2⟩

/-! ### C23, C27: stop-on-wall -/

theorem resolveStopOnWall_eq (r : Registry) (wall entity : Entity)
    (wall_position entity_position : Position)
    (hwall : r.positions.get wall = some wall_position)
    (hentity : r.positions.get entity = some entity_position) :
    resolveStopOnWall wall entity r
      = some (stopOnWallResult r entity wall_position entity_position) := by
  unfold resolveStopOnWall stopOnWallResult
  simp only [hwall, hentity]
  by_cases hax : stopAxisIsX wall_position entity_position = true
  · have hax2 := hax
    simp only [stopAxisIsX, decide_eq_true_eq] at hax2
    have hf : stopCorrection wall_position entity_position = fun p =>
        { p with position := ⟨p.position.x + pushX wall_position entity_position, p.position.y⟩ } := by
      funext p
      simp [stopCorrection, hax]
    have hz : zeroOnAxis true = fun m => { m with velocity := ⟨0, m.velocity.y⟩ } := by
      funext m
      simp [zeroOnAxis]
    simp only [hax2, if_true, hf, hax, hz]
    split <;> rfl
  · have hax2 := hax
    simp only [stopAxisIsX, decide_eq_true_eq] at hax2
    have hax3 : stopAxisIsX wall_position entity_position = false := by simpa using hax
    have hf : stopCorrection wall_position entity_position = fun p =>
        { p with position := ⟨p.position.x, p.position.y + pushY wall_position entity_position⟩ } := by
      funext p
      simp [stopCorrection, hax]
    have hz : zeroOnAxis false = fun m => { m with velocity := ⟨m.velocity.x, 0⟩ } := by
      funext m
      simp [zeroOnAxis]
    simp only [hax2, if_false, hf, hax3, hz]
    split <;> rfl

theorem zeroOnAxis_idem (isX : Bool) (m : Motion) :
    zeroOnAxis isX (zeroOnAxis isX m) = zeroOnAxis isX m := by
  cases isX <;> simp [zeroOnAxis]

/-- The tables after `resolveStopOnWall`, read entity by entity. -/
theorem stopOnWallResult_get (r : Registry) (entity : Entity)
    (wall_position entity_position : Position)
    (hentity : r.positions.get entity = some entity_position) :
    (stopOnWallResult r entity wall_position entity_position).positions.get entity
      = some (stopCorrection wall_position entity_position entity_position) ∧
    (∀ e, e ≠ entity →
      (stopOnWallResult r entity wall_position entity_position).positions.get e
        = r.positions.get e ∧
      (stopOnWallResult r entity wall_position entity_position).motions.get e
        = r.motions.get e) ∧
    (∀ m, r.motions.get entity = some m → r.players.has entity = false →
      (stopOnWallResult r entity wall_position entity_position).motions.get entity
        = some (zeroOnAxis (stopAxisIsX wall_position entity_position) m)) ∧
    (r.players.has entity = true →
      (stopOnWallResult r entity wall_position entity_position).motions = r.motions) ∧
    (r.motions.has entity = false →
      (stopOnWallResult r entity wall_position entity_position).motions = r.motions) ∧
    stopOnWallResult r entity wall_position entity_position
      = { r with
          positions := (stopOnWallResult r entity wall_position entity_position).positions
          motions := (stopOnWallResult r entity wall_position entity_position).motions } := by
  unfold stopOnWallResult
  simp only []
  refine ⟨?_, ?_, ?_, ?_, ?_, ?_⟩
  · split <;> simp [get_update, hentity]
  · intro e he
    split <;> simp [get_update, he]
  · intro m hm hpl
    have hhas : r.motions.has entity = true := has_of_get _ _ _ hm
    simp [hhas, hpl, get_update, hm]
  · intro hpl
    simp [hpl]
  · intro hm
    simp [hm]
  · split <;> rfl

theorem second_push_zero (ex wx a b : Rat)
    (hA : 0 < ex + a / 2 - (wx - b / 2)) (hB : 0 < wx + b / 2 - (ex - a / 2)) :
    min (ex + (if ex < wx then
            -1 * min (ex + a / 2 - (wx - b / 2)) (wx + b / 2 - (ex - a / 2))
          else min (ex + a / 2 - (wx - b / 2)) (wx + b / 2 - (ex - a / 2))) + a / 2
          - (wx - b / 2))
        (wx + b / 2 - (ex + (if ex < wx then
            -1 * min (ex + a / 2 - (wx - b / 2)) (wx + b / 2 - (ex - a / 2))
          else min (ex + a / 2 - (wx - b / 2)) (wx + b / 2 - (ex - a / 2))) - a / 2)) = 0 := by
  by_cases h : ex < wx
  · have hmin : min (ex + a / 2 - (wx - b / 2)) (wx + b / 2 - (ex - a / 2))
        = ex + a / 2 - (wx - b / 2) := min_eq_left (by linarith)
    simp only [h, if_true, hmin]
    have h1 : ex + -1 * (ex + a / 2 - (wx - b / 2)) + a / 2 - (wx - b / 2) = 0 := by ring
    rw [h1]
    exact min_eq_left (by linarith)
  · have hmin : min (ex + a / 2 - (wx - b / 2)) (wx + b / 2 - (ex - a / 2))
        = wx + b / 2 - (ex - a / 2) := min_eq_right (by linarith)
    simp only [h, if_false, hmin]
    have h1 : wx + b / 2 - (ex + (wx + b / 2 - (ex - a / 2)) - a / 2) = 0 := by ring
    rw [h1]
    exact min_eq_right (by linarith)

/-- After the push of `resolveStopOnWall` on overlapping boxes, the same axis
is chosen again and the signed overlap on it is zero. -/
theorem stopCorrection_second (wall_position entity_position : Position)
    (hoverlap : box_collides wall_position entity_position = true) :
    stopAxisIsX wall_position
        (stopCorrection wall_position entity_position entity_position)
      = stopAxisIsX wall_position entity_position ∧
    (if stopAxisIsX wall_position entity_position then
      pushX wall_position (stopCorrection wall_position entity_position entity_position) = 0
     else
      pushY wall_position (stopCorrection wall_position entity_position entity_position) = 0) := by
  simp only [box_collides, get_bounds, Bool.and_eq_true, decide_eq_true_eq] at hoverlap
  obtain ⟨⟨⟨h1, h2⟩, h3⟩, h4⟩ := hoverlap
  have hx := second_push_zero entity_position.position.x wall_position.position.x
    |entity_position.scale.x| |wall_position.scale.x| (by linarith) (by linarith)
  have hy := second_push_zero entity_position.position.y wall_position.position.y
    |entity_position.scale.y| |wall_position.scale.y| (by linarith) (by linarith)
  by_cases hax : stopAxisIsX wall_position entity_position = true
  · have hax2 := hax
    simp only [stopAxisIsX, get_bounds, decide_eq_true_eq] at hax2
    have hminx : min (entity_position.position.x + pushX wall_position entity_position
          + |entity_position.scale.x| / 2
          - (wall_position.position.x - |wall_position.scale.x| / 2))
        (wall_position.position.x + |wall_position.scale.x| / 2
          - (entity_position.position.x + pushX wall_position entity_position
            - |entity_position.scale.x| / 2)) = 0 := by
      simpa [pushX, get_bounds] using hx
    have hminy : 0 < min (entity_position.position.y + |entity_position.scale.y| / 2
          - (wall_position.position.y - |wall_position.scale.y| / 2))
        (wall_position.position.y + |wall_position.scale.y| / 2
          - (entity_position.position.y - |entity_position.scale.y| / 2)) :=
      lt_min (by linarith) (by linarith)
    refine ⟨?_, ?_⟩
    · rw [hax]
      simp only [stopCorrection, hax, if_true]
      generalize pushX wall_position entity_position = q at hminx ⊢
      simp only [stopAxisIsX, get_bounds, decide_eq_true_eq]
      rw [hminx]
      exact hminy
    · simp only [hax, if_true, stopCorrection]
      generalize pushX wall_position entity_position = q at hminx ⊢
      simp only [pushX, get_bounds]
      rw [hminx]
      simp
  · have hax3 : stopAxisIsX wall_position entity_position = false := by simpa using hax
    have hminy : min (entity_position.position.y + pushY wall_position entity_position
          + |entity_position.scale.y| / 2
          - (wall_position.position.y - |wall_position.scale.y| / 2))
        (wall_position.position.y + |wall_position.scale.y| / 2
          - (entity_position.position.y + pushY wall_position entity_position
            - |entity_position.scale.y| / 2)) = 0 := by
      simpa [pushY, get_bounds] using hy
    have hminx : 0 < min (entity_position.position.x + |entity_position.scale.x| / 2
          - (wall_position.position.x - |wall_position.scale.x| / 2))
        (wall_position.position.x + |wall_position.scale.x| / 2
          - (entity_position.position.x - |entity_position.scale.x| / 2)) :=
      lt_min (by linarith) (by linarith)
    refine ⟨?_, ?_⟩
    · rw [hax3]
      simp only [stopCorrection, hax3, Bool.false_eq_true, if_false]
      generalize pushY wall_position entity_position = q at hminy ⊢
      simp only [stopAxisIsX, get_bounds, decide_eq_false_iff_not, not_lt]
      rw [hminy]
      exact hminx.le
    · simp only [hax3, Bool.false_eq_true, if_false, stopCorrection]
      generalize pushY wall_position entity_position = q at hminy ⊢
      simp only [pushY, get_bounds]
      rw [hminy]
      simp

theorem stopCorrection_id_of_second (wall_position entity_position2 : Position)
    (h : if stopAxisIsX wall_position entity_position2 then
        pushX wall_position entity_position2 = 0
      else pushY wall_position entity_position2 = 0) (p : Position) :
    stopCorrection wall_position entity_position2 p = p := by
  unfold stopCorrection
  by_cases hax : stopAxisIsX wall_position entity_position2 = true
  · simp only [hax, if_true] at h ⊢
    rw [h]
    simp
  · have hax3 : stopAxisIsX wall_position entity_position2 = false := by simpa using hax
    simp only [hax3, Bool.false_eq_true, if_false] at h ⊢
    rw [h]
    simp

theorem stopOnWallResult_twice (r : Registry) (entity : Entity)
    (wall_position entity_position : Position)
    (hoverlap : box_collides wall_position entity_position = true) :
    stopOnWallResult (stopOnWallResult r entity wall_position entity_position) entity
        wall_position (stopCorrection wall_position entity_position entity_position)
      = stopOnWallResult r entity wall_position entity_position := by
  obtain ⟨hsame, hzero⟩ := stopCorrection_second wall_position entity_position hoverlap
  rw [← hsame] at hzero
  have hid := stopCorrection_id_of_second wall_position
    (stopCorrection wall_position entity_position entity_position) hzero
  unfold stopOnWallResult
  simp only []
  cases hc : (r.motions.has entity && !r.players.has entity) with
  | true =>
    simp only [if_true, has_update, hc, hsame]
    rw [update_eq_self_of_forall _ _ _ hid, update_update_idem _ _ _ (zeroOnAxis_idem _)]
  | false =>
    simp only [Bool.false_eq_true, if_false, hc]
    rw [update_eq_self_of_forall _ _ _ hid]

/-- C27 (amended). In exact arithmetic: for a wall and another entity whose
bounding boxes overlap with positive extent on both axes,
`resolveStopOnWall(wall, entity)` applied to its own result returns that result
unchanged: the second application chooses the same axis and pushes by zero, so
position and velocity of the entity (and everything else) are the same after
two applications as after one. -/
theorem resolveStopOnWall_idempotent (r : Registry) (wall entity : Entity)
    (wall_position entity_position : Position)
    (hwall : r.positions.get wall = some wall_position)
    (hentity : r.positions.get entity = some entity_position)
    (hne : wall ≠ entity)
    (hoverlap : box_collides wall_position entity_position = true) :
    ∃ r1 corrected, resolveStopOnWall wall entity r = some r1 ∧
      r1.positions.get entity = some corrected ∧
      stopAxisIsX wall_position corrected = stopAxisIsX wall_position entity_position ∧
      (if stopAxisIsX wall_position entity_position then pushX wall_position corrected = 0
       else pushY wall_position corrected = 0) ∧
      resolveStopOnWall wall entity r1 = some r1 ∧
      (resolveStopOnWall wall entity r).bind (resolveStopOnWall wall entity)
        = resolveStopOnWall wall entity r := by
  obtain ⟨g1, g2, -⟩ := stopOnWallResult_get r entity wall_position entity_position hentity
  have hwall1 : (stopOnWallResult r entity wall_position entity_position).positions.get wall
      = some wall_position := by
    rw [(g2 wall hne).1]
    exact hwall
  have h1 := resolveStopOnWall_eq r wall entity _ _ hwall hentity
  have h2 : resolveStopOnWall wall entity
      (stopOnWallResult r entity wall_position entity_position)
      = some (stopOnWallResult r entity wall_position entity_position) := by
    rw [resolveStopOnWall_eq _ wall entity _ _ hwall1 g1,
      stopOnWallResult_twice r entity _ _ hoverlap]
  obtain ⟨hsame, hzero⟩ := stopCorrection_second wall_position entity_position hoverlap
  refine ⟨_, _, h1, g1, hsame, hzero, h2, ?_⟩
  rw [h1]
  exact h2

/-! ### C26: an enemy bounces off a wall -/

theorem stopOnWallResult_enemy (r : Registry) (enemy : Entity) (wall_position p : Position)
    (m : Motion) (hm : r.motions.get enemy = some m) (hp : r.positions.get enemy = some p) :
    (∃ m1, (stopOnWallResult r enemy wall_position p).motions.get enemy = some m1 ∧
      m1.acceleration = m.acceleration) ∧
    (∃ p1, (stopOnWallResult r enemy wall_position p).positions.get enemy = some p1 ∧
      p1.scale = p.scale) ∧
    (stopOnWallResult r enemy wall_position p).trackPlayer = r.trackPlayer ∧
    (stopOnWallResult r enemy wall_position p).bosses = r.bosses := by
  obtain ⟨g1, -, g3, g4, -, -⟩ := stopOnWallResult_get r enemy wall_position p hp
  refine ⟨?_, ⟨_, g1, ?_⟩, ?_, ?_⟩
  · cases hpl : r.players.has enemy with
    | true =>
      rw [g4 hpl]
      exact ⟨m, hm, rfl⟩
    | false =>
      refine ⟨_, g3 m hm hpl, ?_⟩
      cases stopAxisIsX wall_position p <;> rfl
  · unfold stopCorrection
    split <;> rfl
  · unfold stopOnWallResult
    simp only []
    split <;> rfl
  · unfold stopOnWallResult
    simp only []
    split <;> rfl

theorem resolveWallEnemyCollision_bounce (ext : Ext) (r : Registry) (wall enemy : Entity)
    (m : Motion) (p wall_position : Position)
    (hm : r.motions.get enemy = some m) (hp : r.positions.get enemy = some p)
    (hw : r.positions.get wall = some wall_position)
    (hboss : r.bosses.has enemy = false)
    (htrack : r.trackPlayer.get enemy = none ∨
      ∃ t, r.trackPlayer.get enemy = some t ∧ t.active_track = false) :
    ∃ r2 m2 p2, resolveWallEnemyCollision ext wall enemy r = some r2 ∧
      r2.motions.get enemy = some m2 ∧
      m2.velocity = vec2.smul (-1) m.velocity ∧
      m2.acceleration = vec2.smul (-1) m.acceleration ∧
      r2.positions.get enemy = some p2 ∧
      p2.scale.x = (if m2.velocity.x > 0 then |p.scale.x| * -1 else |p.scale.x|) ∧
      p2.scale.y = p.scale.y := by
  obtain ⟨⟨m1, hm1, hacc⟩, ⟨p1, hp1, hscale⟩, htp, hb⟩ :=
    stopOnWallResult_enemy r enemy wall_position p m hm hp
  have hmh : r.motions.has enemy = true := has_of_get _ _ _ hm
  have hph : r.positions.has enemy = true := has_of_get _ _ _ hp
  have htr : (if (stopOnWallResult r enemy wall_position p).trackPlayer.has enemy then
      ((stopOnWallResult r enemy wall_position p).trackPlayer.get enemy).map
        fun t => t.active_track
      else some false) = some false := by
    rw [htp]
    rcases htrack with h | ⟨t, h, ht⟩
    · simp [ComponentContainer.has, h]
    · simp [ComponentContainer.has, h, ht]
  unfold resolveWallEnemyCollision
  simp only [hmh, hph, hm, hp, hw, Bool.not_true, Bool.or_self, Bool.false_eq_true, if_false,
    resolveStopOnWall_eq r wall enemy wall_position p hw hp, Option.some_bind, htr]
  simp only [get_update, if_true, hm1, Option.map_some', has_update, hb, hboss,
    Bool.false_eq_true, if_false]
  refine ⟨_, ⟨vec2.smul (-1) m.velocity, vec2.smul (-1) m1.acceleration⟩,
    { p1 with scale := ⟨if (vec2.smul (-1) m.velocity).x > 0 then |p1.scale.x| * -1
      else |p1.scale.x|, p1.scale.y⟩ }, rfl, ?_, rfl, ?_, ?_, ?_, ?_⟩
  · simp only [get_update, if_true, hm1, Option.map_some']
  · simp only [hacc]
  · simp only [get_update, if_true, hp1, Option.map_some']
  · simp only [hscale]
  · simp only [hscale]

/-- C26. For an enemy with Motion `m` and Position `p` that is not a boss and
is not actively tracking the player (no tracking component, or
`active_track = false`), and a wall with a Position,
`resolveWallEnemyCollision(wall, enemy)` returns, and afterwards the enemy's
velocity is the negation of `m.velocity`, its acceleration the negation of
`m.acceleration`, and its `scale.x` is `-|p.scale.x|` when the new velocity has
`x > 0` and `|p.scale.x|` otherwise (`scale.y` is kept). -/
theorem resolveWallEnemyCollision_inverts_motion (ext : Ext) (r : Registry)
    (wall enemy : Entity) (m : Motion) (p wall_position : Position)
    (hm : r.motions.get enemy = some m) (hp : r.positions.get enemy = some p)
    (hw : r.positions.get wall = some wall_position)
    (hboss : r.bosses.has enemy = false)
    (htrack : r.trackPlayer.get enemy = none ∨
      ∃ t, r.trackPlayer.get enemy = some t ∧ t.active_track = false) :
    ∃ r2 m2 p2, resolveWallEnemyCollision ext wall enemy r = some r2 ∧
      r2.motions.get enemy = some m2 ∧
      m2.velocity = ⟨-m.velocity.x, -m.velocity.y⟩ ∧
      m2.acceleration = ⟨-m.acceleration.x, -m.acceleration.y⟩ ∧
      r2.positions.get enemy = some p2 ∧
      (m2.velocity.x > 0 → p2.scale.x = -|p.scale.x|) ∧
      (¬ m2.velocity.x > 0 → p2.scale.x = |p.scale.x|) ∧
      p2.scale.y = p.scale.y := by
  obtain ⟨r2, m2, p2, h, hget, hv, ha, hpos, hsx, hsy⟩ :=
    resolveWallEnemyCollision_bounce ext r wall enemy m p wall_position hm hp hw hboss htrack
  refine ⟨r2, m2, p2, h, hget, ?_, ?_, hpos, ?_, ?_, hsy⟩
  · rw [hv]
    simp [vec2.smul]
  · rw [ha]
    simp [vec2.smul]
  · intro hpos2
    rw [hsx, if_pos hpos2]
    ring
  · intro hneg
    rw [hsx, if_neg hneg]

/-! ### C28: both records of a pair are routed -/

theorem forEachEntity_none (body : Entity → Registry → Option Registry)
    (I : Registry → Prop) (hstep : ∀ x r r2, I r → body x r = some r2 → I r2)
    (e : Entity) (hfail : ∀ r, I r → body e r = none) (es : List Entity) (he : e ∈ es)
    (r : Registry) (hr : I r) : forEachEntity body es r = none := by
  induction es generalizing r with
  | nil => cases he
  | cons x xs ih =>
    simp only [forEachEntity]
    by_cases hx : e = x
    · subst hx
      rw [hfail r hr]
      rfl
    · have hmem : e ∈ xs := by
        rcases List.mem_cons.mp he with h | h
        · exact absurd h hx
        · exact h
      cases hb : body x r with
      | none => rfl
      | some r2 =>
        simp only [Option.some_bind]
        exact ih hmem r2 (hstep x r r2 hr hb)

/-- The scan of an entity other than the hit one, on a state in which the hit
entity has a Position and the scanned one has none, reaches
`positions.get(enemy_check)` with the component absent. -/
theorem explosionScan_missing_position (ext : Ext) (r r1 : Registry) (proj hit e : Entity)
    (pp : Position) (a : AreaOfEffect)
    (hproj : r.positions.get proj = some pp) (haoe : r.aoe.get proj = some a)
    (hhit : r.positions.has hit = true) (hne : e ≠ hit) (hnopos : r.positions.get e = none)
    (h1 : OnlySoundsCalls r r1) : explosionScan ext proj hit e r1 = none := by
  obtain ⟨s, l, rfl⟩ := h1
  unfold explosionScan
  simp [hne, hhit, hproj, haoe, hnopos]

theorem detectAndResolveExplosion_missing_position (ext : Ext) (r : Registry)
    (proj hit e : Entity) (pp : Position) (a : AreaOfEffect)
    (hproj : r.positions.get proj = some pp) (haoe : r.aoe.get proj = some a)
    (hhit : r.positions.has hit = true) (hne : e ≠ hit) (hnopos : r.positions.get e = none)
    (he : e ∈ r.deadlys.entities ∨ e ∈ r.breakables.entities) :
    detectAndResolveExplosion ext proj hit r = none := by
  have hstep : ∀ x ra rb, OnlySoundsCalls r ra →
      explosionScan ext proj hit x ra = some rb → OnlySoundsCalls r rb :=
    fun x ra rb hra hb =>
      onlySoundsCalls_trans _ _ _ hra (explosionScan_onlySoundsCalls ext proj hit x ra rb hb)
  have hfail : ∀ ra, OnlySoundsCalls r ra → explosionScan ext proj hit e ra = none :=
    fun ra hra => explosionScan_missing_position ext r ra proj hit e pp a hproj haoe hhit hne
      hnopos hra
  have hsound : ∃ r1, (if !r.sounds.has proj then
        (r.sounds.insert proj ⟨SOUND_ASSET_ID.EXPLOSION⟩).map fun s => { r with sounds := s }
      else some r) = some r1 ∧ OnlySoundsCalls r r1 := by
    cases hs : r.sounds.has proj with
    | true => exact ⟨r, by simp, onlySoundsCalls_refl r⟩
    | false =>
      exact ⟨{ r with sounds := r.sounds ++ [(proj, ⟨SOUND_ASSET_ID.EXPLOSION⟩)] },
        by simp [ComponentContainer.insert, hs],
        ⟨r.sounds ++ [(proj, ⟨SOUND_ASSET_ID.EXPLOSION⟩)], [], by simp⟩⟩
  obtain ⟨r1, hr1, hI1⟩ := hsound
  unfold detectAndResolveExplosion
  simp only []
  rw [hr1]
  simp only [Option.some_bind]
  have hd1 : r1.deadlys = r.deadlys := by
    obtain ⟨s, l, rfl⟩ := hI1
    rfl
  rcases he with he | he
  · rw [forEachEntity_none _ (OnlySoundsCalls r) hstep e hfail r1.deadlys.entities
      (by rw [hd1]; exact he) r1 hI1]
    rfl
  · cases h2 : forEachEntity (explosionScan ext proj hit) r1.deadlys.entities r1 with
    | none => rfl
    | some r2 =>
      have hI2 : OnlySoundsCalls r r2 :=
        onlySoundsCalls_trans _ _ _ hI1
          (forEachEntity_rel OnlySoundsCalls onlySoundsCalls_refl onlySoundsCalls_trans _
            (explosionScan_onlySoundsCalls ext proj hit) _ r1 r2 h2)
      have hb2 : r2.breakables = r.breakables := by
        obtain ⟨s, l, rfl⟩ := hI2
        rfl
      simp only [Option.some_bind]
      exact forEachEntity_none _ (OnlySoundsCalls r) hstep e hfail r2.breakables.entities
        (by rw [hb2]; exact he) r2 hI2

/-- C22. For every registry state in which the projectile has a Position and
an AreaOfEffect and the hit entity has a Position, and every scanned enemy or
breakable other than the hit entity that has no Position: the guard of the scan
tests `positions.has(hit_entity)`, so the scan of that entity is not skipped
and reaches `positions.get` with the component absent, and
`detectAndResolveExplosion` does not return. -/
theorem detectAndResolveExplosion_reads_missing_position (ext : Ext) (r : Registry)
    (proj hit e : Entity) (pp : Position) (a : AreaOfEffect)
    (hproj : r.positions.get proj = some pp) (haoe : r.aoe.get proj = some a)
    (hhit : r.positions.has hit = true) (hne : e ≠ hit) (hnopos : r.positions.get e = none)
    (he : e ∈ r.deadlys.entities ∨ e ∈ r.breakables.entities) :
    (e = hit || !r.positions.has hit) = false ∧
    r.positions.has e = false ∧
    explosionScan ext proj hit e r = none ∧
    detectAndResolveExplosion ext proj hit r = none := by
  refine ⟨by simp [hne, hhit], by simp [ComponentContainer.has, hnopos],
    explosionScan_missing_position ext r r proj hit e pp a hproj haoe hhit hne hnopos
      (onlySoundsCalls_refl r),
    detectAndResolveExplosion_missing_position ext r proj hit e pp a hproj haoe hhit hne
      hnopos he⟩

/-! ### C21: every declared table is registered -/

theorem get_of_mem_of_nodup {T : Type} (c : ComponentContainer T) (e : Entity) (v : T)
    (hn : c.entities.Nodup) (h : (e, v) ∈ c) : c.get e = some v := by
  induction c with
  | nil => simp at h
  | cons hd tl ih =>
    obtain ⟨k, w⟩ := hd
    simp only [ComponentContainer.entities, List.map_cons, List.nodup_cons] at hn
    rcases List.mem_cons.mp h with heq | hmem
    · cases heq
      simp [ComponentContainer.get]
    · have hk : k ≠ e := by
        intro hke
        subst hke
        exact hn.1 (List.mem_map_of_mem Prod.fst hmem)
      simp only [ComponentContainer.get, hk, if_false]
      exact ih hn.2 hmem

/-- Records of a row other than `p`: pairs of another projectile with an active
wall or an enemy. -/
theorem emits_other_row (ext : Ext) (r0 : Registry) (p : Entity)
    (row : Entity × PlayerProjectile) (hrow : row ∈ r0.playerProjectiles) (hne : row.1 ≠ p) :
    Emits r0 (fun l => ∀ x, x ∈ l → ∃ i j, i ≠ p ∧
        (j ∈ r0.activeWalls.entities ∨ j ∈ r0.deadlys.entities) ∧ x ∈ pairRecords i j)
      (detectPlayerProjectileCollisions_body ext row) := by
  intro c
  have hmem : row.1 ∈ r0.playerProjectiles.entities :=
    List.mem_map_of_mem Prod.fst hrow
  have hnil : (fun l : List (Entity × Collision) => ∀ x, x ∈ l → ∃ i j, i ≠ p ∧
        (j ∈ r0.activeWalls.entities ∨ j ∈ r0.deadlys.entities) ∧ x ∈ pairRecords i j) [] := by
    intro x hx
    simp at hx
  have happ : ∀ a b : List (Entity × Collision),
      (∀ x, x ∈ a → ∃ i j, i ≠ p ∧
        (j ∈ r0.activeWalls.entities ∨ j ∈ r0.deadlys.entities) ∧ x ∈ pairRecords i j) →
      (∀ x, x ∈ b → ∃ i j, i ≠ p ∧
        (j ∈ r0.activeWalls.entities ∨ j ∈ r0.deadlys.entities) ∧ x ∈ pairRecords i j) →
      (∀ x, x ∈ a ++ b → ∃ i j, i ≠ p ∧
        (j ∈ r0.activeWalls.entities ∨ j ∈ r0.deadlys.entities) ∧ x ∈ pairRecords i j) := by
    intro a b ha hb x hx
    rcases List.mem_append.mp hx with h | h
    · exact ha x h
    · exact hb x h
  unfold detectPlayerProjectileCollisions_body
  by_cases hp : r0.positions.has row.1 = true
  · obtain ⟨comp, hcomp⟩ := get_isSome_of_mem_entities _ _ hmem
    by_cases hl : comp.is_loaded = true
    · exact ⟨[], by simp [hp, hcomp, hl], hnil⟩
    · have hl2 : comp.is_loaded = false := by simpa using hl
      have hwalls := emits_forEachEntity r0 _
          (fun entity_j r1 => (checkBoxCollision ext row.1 entity_j r1).map Prod.snd)
          hnil happ r0.activeWalls.entities (by
            intro e he
            apply emits_checkBox ext r0 _ row.1 e hnil
            intro _ x hx
            exact ⟨row.1, e, hne, Or.inl he, hx⟩)
      have henemies := emits_congr r0 _
          (detectProjectileEnemies ext row.1 row.2 r0.deadlys.entities)
          (fun r1 => detectProjectileEnemies ext row.1 row.2 r1.deadlys.entities r1)
          (fun _ => rfl)
          (emits_detectProjectileEnemies ext r0 _ row.1 row.2 hnil happ r0.deadlys.entities (by
            intro e he _ x hx
            exact ⟨row.1, e, hne, Or.inr he, hx⟩))
      have := emits_bind r0 _ _ (fun l => ∀ x, x ∈ l → ∃ i j, i ≠ p ∧
        (j ∈ r0.activeWalls.entities ∨ j ∈ r0.deadlys.entities) ∧ x ∈ pairRecords i j)
        _ _ happ hwalls henemies c
      simpa [hp, hcomp, hl2] using this
  · exact ⟨[], by simp [hp], hnil⟩

theorem detect_single_target_records (ext : Ext) (r : Registry) (p : Entity)
    (comp : PlayerProjectile)
    (hs : isSingleTarget comp.type = true)
    (hpos : r.positions.has p = true)
    (hget : r.playerProjectiles.get p = some comp) (hactive : comp.is_loaded = false)
    (hrows : r.playerProjectiles.entities.Nodup)
    (hpe : r.deadlys.has p = false) (hpw : r.activeWalls.has p = false)
    (hwalls : ∀ w, w ∈ r.activeWalls.entities → r.deadlys.has w = false) :
    ∃ l, detectPlayerProjectileCollisions ext r
        = some { r with collisions := r.collisions ++ l } ∧
      ∀ e, e ∈ r.deadlys.entities →
        ((p, (⟨e⟩ : Collision)) ∈ l ↔ firstEnemyHit ext r p = some e) ∧
        ((e, (⟨p⟩ : Collision)) ∈ l ↔ firstEnemyHit ext r p = some e) := by
  obtain ⟨pre, post, hsplit⟩ := List.append_of_mem (mem_of_get _ _ _ hget)
  have hnd := hrows
  rw [hsplit] at hnd
  simp only [ComponentContainer.entities, List.map_append, List.map_cons] at hnd
  have hnd2 := List.nodup_append.mp hnd
  have hppre : ∀ x, x ∈ pre → x.1 ≠ p := by
    intro x hx hxp
    have h1 : p ∈ pre.map Prod.fst := hxp ▸ List.mem_map_of_mem Prod.fst hx
    exact hnd2.2.2 h1 (List.mem_cons_self _ _)
  have hppost : ∀ x, x ∈ post → x.1 ≠ p := by
    intro x hx hxp
    have h1 : p ∈ post.map Prod.fst := hxp ▸ List.mem_map_of_mem Prod.fst hx
    exact (List.nodup_cons.mp hnd2.2.1).1 h1
  have hother : ∀ rows : List (Entity × PlayerProjectile),
      (∀ x, x ∈ rows → x ∈ r.playerProjectiles ∧ x.1 ≠ p) →
      Emits r (fun l => ∀ x, x ∈ l → ∃ i j, i ≠ p ∧
        (j ∈ r.activeWalls.entities ∨ j ∈ r.deadlys.entities) ∧ x ∈ pairRecords i j)
        (forEachRow (detectPlayerProjectileCollisions_body ext) rows) := by
    intro rows hr
    apply emits_forEachRow r _ _ (by intro x hx; simp at hx)
    · intro a b ha hb x hx
      rcases List.mem_append.mp hx with h | h
      · exact ha x h
      · exact hb x h
    · intro row hrow
      exact emits_other_row ext r p row (hr row hrow).1 (hr row hrow).2
  have hpre := hother pre (fun x hx =>
    ⟨by rw [hsplit]; exact List.mem_append.mpr (Or.inl hx), hppre x hx⟩)
  have hpost := hother post (fun x hx =>
    ⟨by rw [hsplit]; exact List.mem_append.mpr (Or.inr (List.mem_cons_of_mem _ hx)),
      hppost x hx⟩)
  obtain ⟨a, ha, qa⟩ := hpre r.collisions
  obtain ⟨walls, qw, hw⟩ := detectPlayerProjectileCollisions_body_single ext
    { r with collisions := r.collisions ++ a } p comp
    (by
      unfold isSingleTarget at hs
      cases hc : comp.type <;> simp [hc] at hs ⊢)
    hpos hget hactive
  obtain ⟨b, hb, qb⟩ := hpost (r.collisions ++ a ++ walls ++
    (match firstEnemyHit ext r p with
     | none => []
     | some e => [(p, ⟨e⟩), (e, ⟨p⟩)]))
  have hfirst : firstEnemyHit ext { r with collisions := r.collisions ++ a } p
      = firstEnemyHit ext r p := rfl
  rw [hfirst] at hw
  refine ⟨a ++ walls ++ (match firstEnemyHit ext r p with
     | none => []
     | some e => [(p, ⟨e⟩), (e, ⟨p⟩)]) ++ b, ?_, ?_⟩
  · unfold detectPlayerProjectileCollisions
    have hrows2 : forEachRow (detectPlayerProjectileCollisions_body ext) r.playerProjectiles r
        = forEachRow (detectPlayerProjectileCollisions_body ext) (pre ++ (p, comp) :: post) r := by
      rw [← hsplit]
    rw [hrows2, forEachRow_append]
    have ha2 : forEachRow (detectPlayerProjectileCollisions_body ext) pre r
        = some { r with collisions := r.collisions ++ a } := ha
    rw [ha2]
    simp only [Option.some_bind, forEachRow, hw]
    have := hb
    simpa [List.append_assoc] using this
  · have hpn : ∀ j, (j ∈ r.activeWalls.entities ∨ j ∈ r.deadlys.entities) → j ≠ p := by
      intro j hj
      rcases hj with hj | hj
      · exact ne_of_mem_entities_of_not_has _ _ _ hj hpw
      · exact ne_of_mem_entities_of_not_has _ _ _ hj hpe
    have hoth : ∀ l : List (Entity × Collision),
        (∀ x, x ∈ l → ∃ i j, i ≠ p ∧
          (j ∈ r.activeWalls.entities ∨ j ∈ r.deadlys.entities) ∧ x ∈ pairRecords i j) →
        ∀ e, (p, (⟨e⟩ : Collision)) ∉ l ∧ (e, (⟨p⟩ : Collision)) ∉ l := by
      intro l hl e
      constructor
      · intro hx
        obtain ⟨i, j, hi, hj, hx2⟩ := hl _ hx
        simp only [pairRecords, List.mem_cons, List.mem_singleton, List.not_mem_nil, or_false,
          Prod.mk.injEq, Collision.mk.injEq] at hx2
        rcases hx2 with ⟨h1, _⟩ | ⟨h1, _⟩
        · exact hi h1.symm
        · exact hpn j hj h1.symm
      · intro hx
        obtain ⟨i, j, hi, hj, hx2⟩ := hl _ hx
        simp only [pairRecords, List.mem_cons, List.mem_singleton, List.not_mem_nil, or_false,
          Prod.mk.injEq, Collision.mk.injEq] at hx2
        rcases hx2 with ⟨_, h1⟩ | ⟨_, h1⟩
        · exact hpn j hj h1.symm
        · exact hi h1.symm
    have hwl : ∀ e, e ∈ r.deadlys.entities →
        (p, (⟨e⟩ : Collision)) ∉ walls ∧ (e, (⟨p⟩ : Collision)) ∉ walls := by
      intro e he
      constructor
      · intro hx
        obtain ⟨w, hwm, hx2⟩ := qw _ hx
        simp only [pairRecords, List.mem_cons, List.mem_singleton, List.not_mem_nil, or_false,
          Prod.mk.injEq, Collision.mk.injEq] at hx2
        rcases hx2 with ⟨_, h1⟩ | ⟨h1, _⟩
        · subst h1
          have := (has_iff_mem_entities r.deadlys e).mpr he
          simp [hwalls e hwm] at this
        · exact hpn w (Or.inl hwm) h1.symm
      · intro hx
        obtain ⟨w, hwm, hx2⟩ := qw _ hx
        simp only [pairRecords, List.mem_cons, List.mem_singleton, List.not_mem_nil, or_false,
          Prod.mk.injEq, Collision.mk.injEq] at hx2
        rcases hx2 with ⟨h1, _⟩ | ⟨h1, _⟩
        · exact hpn e (Or.inr he) h1
        · subst h1
          have := (has_iff_mem_entities r.deadlys e).mpr he
          simp [hwalls e hwm] at this
    intro e he
    have h1 := hoth a qa e
    have h2 := hoth b qb e
    have h3 := hwl e he
    have hep : e ≠ p := hpn e (Or.inr he)
    simp only [List.mem_append, h1.1, h1.2, h2.1, h2.2, h3.1, h3.2, false_or, or_false]
    cases hf : firstEnemyHit ext r p with
    | none => simp
    | some e1 =>
      simp only [List.mem_cons, List.mem_singleton, List.not_mem_nil, or_false,
        Prod.mk.injEq, Collision.mk.injEq, Option.some.injEq]
      constructor
      · constructor
        · rintro (⟨_, h⟩ | ⟨_, h⟩)
          · exact h.symm
          · exact absurd h hep
        · intro h
          exact Or.inl ⟨trivial, h.symm⟩
      · constructor
        · rintro (⟨h, _⟩ | ⟨h, _⟩)
          · exact absurd h hep
          · exact h.symm
        · intro h
          exact Or.inr ⟨h.symm, trivial⟩

/-- C3 (counterexample). In `wallEnemyFrame` the active HARPOON projectile 1
circle-collides with the enemies 2 and 3 (in that table order), and enemy 3 is
also an active wall whose box overlaps the projectile.
`detectPlayerProjectileCollisions` records the pair of the projectile with
enemy 3 in the wall loop (lines 105-108) and the pair with enemy 2, the first
circle hit, in the enemy loop (lines 110-122): hits against two enemies, one of
them later in the enemy table than the first hit. -/
theorem single_target_records_wall_enemy_too :
    wallEnemyFrame.playerProjectiles.get 1 = some ⟨false, PROJECTILES.HARPOON, false⟩ ∧
    wallEnemyFrame.deadlys.entities = [2, 3] ∧
    wallEnemyFrame.collisions = [] ∧
    firstEnemyHit sampleExt wallEnemyFrame 1 = some 2 ∧
    detectPlayerProjectileCollisions sampleExt wallEnemyFrame
      = some { wallEnemyFrame with
          collisions := [(1, ⟨3⟩), (3, ⟨1⟩), (1, ⟨2⟩), (2, ⟨1⟩)] } := by
  refine ⟨rfl, rfl, rfl, ?_, ?_⟩
  · norm_num [firstEnemyHit, circleHit, wallEnemyFrame, emptyRegistry, sampleExt,
      circle_collides, unitBoxAt, vec2.sub, vec2.dot,
      ComponentContainer.entities, ComponentContainer.get]
  · norm_num [detectPlayerProjectileCollisions, wallEnemyFrame, emptyRegistry, forEachRow,
      forEachEntity, detectPlayerProjectileCollisions_body, detectProjectileEnemies,
      checkBoxCollision, checkCircleCollision, isSingleTarget, recordPair,
      ComponentContainer.entities, ComponentContainer.has, ComponentContainer.get,
      ComponentContainer.emplace_with_duplicates, sampleExt, box_collides, circle_collides,
      get_bounds, unitBoxAt, vec2.sub, vec2.dot]

/-- C3 (amended). Let `p` be an active (not loaded) projectile with a Position
whose type is HARPOON, NET or TORPEDO and that is itself neither an enemy nor
an active wall, in a registry whose projectile table holds one row per entity
and in which no active wall is also an enemy.  Then
`detectPlayerProjectileCollisions` returns, only appends to the collision
table, and for every entity `e` of the enemy table the appended records hold
the pair of `p` and `e` (in either direction) exactly when `e` is the first
enemy in enemy-table order that circle-collides with `p`; so a hit is recorded
against at most one enemy, and against no later one. -/
theorem single_target_records_first_enemy_only (ext : Ext) (r : Registry) (p : Entity)
    (comp : PlayerProjectile)
    (hsingle : comp.type = PROJECTILES.HARPOON ∨ comp.type = PROJECTILES.NET ∨
      comp.type = PROJECTILES.TORPEDO)
    (hpos : r.positions.has p = true)
    (hget : r.playerProjectiles.get p = some comp) (hactive : comp.is_loaded = false)
    (hrows : r.playerProjectiles.entities.Nodup)
    (hpe : r.deadlys.has p = false) (hpw : r.activeWalls.has p = false)
    (hwalls : ∀ w, w ∈ r.activeWalls.entities → r.deadlys.has w = false) :
    ∃ l, detectPlayerProjectileCollisions ext r
        = some { r with collisions := r.collisions ++ l } ∧
      (∀ e, e ∈ r.deadlys.entities →
        ((p, (⟨e⟩ : Collision)) ∈ l ↔ firstEnemyHit ext r p = some e) ∧
        ((e, (⟨p⟩ : Collision)) ∈ l ↔ firstEnemyHit ext r p = some e)) ∧
      (∀ e1 e2, e1 ∈ r.deadlys.entities → e2 ∈ r.deadlys.entities →
        (p, (⟨e1⟩ : Collision)) ∈ l → (p, (⟨e2⟩ : Collision)) ∈ l → e1 = e2) := by
  have hs : isSingleTarget comp.type = true := by
    rcases hsingle with h | h | h <;> simp [isSingleTarget, h]
  obtain ⟨l, hl, hq⟩ := detect_single_target_records ext r p comp hs hpos hget hactive hrows
    hpe hpw hwalls
  refine ⟨l, hl, hq, ?_⟩
  intro e1 e2 h1 h2 m1 m2
  have a1 := (hq e1 h1).1.mp m1
  have a2 := (hq e2 h2).1.mp m2
  rw [a1] at a2
  exact Option.some.inj a2

/-! ### C9: a second enemy that is also an active wall -/

theorem log2Fuel_spec (fuel a : Nat) (hf : a ≤ fuel) (ha : 0 < a) :
    2 ^ log2Fuel fuel a ≤ a ∧ a < 2 ^ (log2Fuel fuel a + 1) := by
  induction fuel generalizing a with
  | zero => omega
  | succ n ih =>
    unfold log2Fuel
    by_cases h2 : a < 2
    · simp only [h2, if_true]
      omega
    · simp only [h2, if_false]
      have h3 : a / 2 ≤ n := by omega
      have h4 : 0 < a / 2 := by omega
      obtain ⟨l, u⟩ := ih (a / 2) h3 h4
      constructor
      · rw [pow_succ]
        omega
      · rw [pow_succ]
        omega

theorem natLog2_spec (a : Nat) (ha : 0 < a) :
    2 ^ natLog2 a ≤ a ∧ a < 2 ^ (natLog2 a + 1) :=
  log2Fuel_spec a a (le_refl a) ha

theorem floorLog2_spec (q : Rat) (hq : q ≠ 0) :
    (2 : Rat) ^ floorLog2 q ≤ |q| ∧ |q| < (2 : Rat) ^ (floorLog2 q + 1) := by
  have hnum : 0 < q.num.natAbs := Int.natAbs_pos.mpr (Rat.num_ne_zero.mpr hq)
  have hden : 0 < q.den := q.den_pos
  obtain ⟨a1, a2⟩ := natLog2_spec _ hnum
  obtain ⟨b1, b2⟩ := natLog2_spec _ hden
  have habs : |q| = (q.num.natAbs : Rat) / (q.den : Rat) := by
    have h1 : |q| = |(q.num : Rat)| / |(q.den : Rat)| := by
      rw [← abs_div, Rat.num_div_den]
    rw [h1, abs_of_nonneg (Nat.cast_nonneg q.den : (0 : Rat) ≤ q.den)]
    congr 1
    rw [← Int.cast_abs, Int.abs_eq_natAbs, Int.cast_natCast]
  have hdq : (0 : Rat) < q.den := by exact_mod_cast hden
  have a1q : (2 : Rat) ^ (natLog2 q.num.natAbs : Int) ≤ (q.num.natAbs : Rat) := by
    rw [zpow_natCast]
    exact_mod_cast a1
  have a2q : (q.num.natAbs : Rat) < (2 : Rat) ^ ((natLog2 q.num.natAbs : Int) + 1) := by
    have : ((natLog2 q.num.natAbs : Int) + 1) = ((natLog2 q.num.natAbs + 1 : Nat) : Int) := by
      push_cast
      ring
    rw [this, zpow_natCast]
    exact_mod_cast a2
  have b1q : (2 : Rat) ^ (natLog2 q.den : Int) ≤ (q.den : Rat) := by
    rw [zpow_natCast]
    exact_mod_cast b1
  have b2q : (q.den : Rat) < (2 : Rat) ^ ((natLog2 q.den : Int) + 1) := by
    have : ((natLog2 q.den : Int) + 1) = ((natLog2 q.den + 1 : Nat) : Int) := by
      push_cast
      ring
    rw [this, zpow_natCast]
    exact_mod_cast b2
  have h2 : (0 : Rat) < 2 := by norm_num
  have h2ne : (2 : Rat) ≠ 0 := by norm_num
  unfold floorLog2
  simp only []
  split
  · rename_i hle
    refine ⟨hle, ?_⟩
    rw [habs, div_lt_iff₀ hdq]
    calc (q.num.natAbs : Rat) < (2 : Rat) ^ ((natLog2 q.num.natAbs : Int) + 1) := a2q
      _ = (2 : Rat) ^ ((natLog2 q.num.natAbs : Int) - (natLog2 q.den : Int) + 1) *
            (2 : Rat) ^ (natLog2 q.den : Int) := by
          rw [← zpow_add₀ h2ne]
          congr 1
          ring
      _ ≤ (2 : Rat) ^ ((natLog2 q.num.natAbs : Int) - (natLog2 q.den : Int) + 1) * (q.den : Rat) :=
          mul_le_mul_of_nonneg_left b1q (le_of_lt (zpow_pos h2 _))
  · rename_i hlt
    have hlt2 := lt_of_not_le hlt
    refine ⟨?_, ?_⟩
    · rw [habs, le_div_iff₀ hdq]
      calc (2 : Rat) ^ ((natLog2 q.num.natAbs : Int) - (natLog2 q.den : Int) - 1) * (q.den : Rat)
          ≤ (2 : Rat) ^ ((natLog2 q.num.natAbs : Int) - (natLog2 q.den : Int) - 1) *
              (2 : Rat) ^ ((natLog2 q.den : Int) + 1) :=
            mul_le_mul_of_nonneg_left (le_of_lt b2q) (le_of_lt (zpow_pos h2 _))
        _ = (2 : Rat) ^ (natLog2 q.num.natAbs : Int) := by
            rw [← zpow_add₀ h2ne]
            congr 1
            ring
        _ ≤ (q.num.natAbs : Rat) := a1q
    · have : (natLog2 q.num.natAbs : Int) - (natLog2 q.den : Int) - 1 + 1
          = (natLog2 q.num.natAbs : Int) - (natLog2 q.den : Int) := by ring
      rw [this]
      exact hlt2

theorem roundHalfEven_spec (x : Rat) : |x - (roundHalfEven x : Rat)| ≤ 1 / 2 := by
  have h1 := Int.floor_le x
  have h2 := Int.lt_floor_add_one x
  unfold roundHalfEven
  simp only []
  split
  · rw [abs_le]
    constructor <;> linarith
  · split
    · rw [abs_le]
      push_cast
      constructor <;> linarith
    · rename_i h3 h4
      have h5 : x - (⌊x⌋ : Rat) = 1 / 2 := le_antisymm (not_lt.mp h4) (not_lt.mp h3)
      split
      · rw [h5, abs_of_nonneg (by norm_num)]
      · push_cast
        rw [abs_le]
        constructor <;> linarith

/-- The rounding `f32` is a rounding to nearest: the result is an integer
multiple of the unit in the last place 2^e, `e = ulpExponent q`, at most half a
unit away from `q`; and for `q ≠ 0` of normal magnitude the unit is 2^-23 times
the power of two 2^k with 2^k ≤ |q| < 2^(k+1). -/
theorem f32_nearest (q : Rat) :
    (∃ n : Int, f32 q = (n : Rat) * 2 ^ ulpExponent q) ∧
    |f32 q - q| ≤ 2 ^ ulpExponent q / 2 ∧
    (q ≠ 0 → (2 : Rat) ^ floorLog2 q ≤ |q| ∧ |q| < (2 : Rat) ^ (floorLog2 q + 1)) ∧
    (-126 ≤ floorLog2 q → ulpExponent q = floorLog2 q - 23) := by
  have hpos : (0 : Rat) < 2 ^ ulpExponent q := zpow_pos (by norm_num) _
  refine ⟨⟨_, rfl⟩, ?_, floorLog2_spec q, ?_⟩
  · unfold f32
    have h := roundHalfEven_spec (q / 2 ^ ulpExponent q)
    have heq : (roundHalfEven (q / 2 ^ ulpExponent q) : Rat) * 2 ^ ulpExponent q - q
        = -((q / 2 ^ ulpExponent q - (roundHalfEven (q / 2 ^ ulpExponent q) : Rat)) *
            2 ^ ulpExponent q) := by
      field_simp
      ring
    rw [heq, abs_neg, abs_mul, abs_of_pos hpos]
    calc |q / 2 ^ ulpExponent q - (roundHalfEven (q / 2 ^ ulpExponent q) : Rat)| *
          2 ^ ulpExponent q ≤ 1 / 2 * 2 ^ ulpExponent q :=
          mul_le_mul_of_nonneg_right h (le_of_lt hpos)
      _ = 2 ^ ulpExponent q / 2 := by ring
  · intro h
    unfold ulpExponent
    exact max_eq_left (by omega)

theorem resolveStopOnWallWith_id (wall entity : Entity) (r : Registry) :
    resolveStopOnWallWith id wall entity r = resolveStopOnWall wall entity r := rfl

theorem resolveMassCollisionWith_id (wall other : Entity) (r : Registry) :
    resolveMassCollisionWith id wall other r = resolveMassCollision wall other r := rfl

theorem get_bounds_with_id (p : Position) : get_bounds_with id p = get_bounds p := rfl

/-- Reference values of the rounding: 0.1f, 0.3f and 0.9f are the binary32
constants 0x3dcccccd, 0x3e99999a and 0x3f666666; values with at most 24
significant bits are kept; 2^24 + 1 lies half way between two binary32 values
and goes to the even one, and so does 2^24 + 3. -/
theorem f32_values :
    f32 (1 / 10) = 13421773 / 2 ^ 27 ∧ f32 (3 / 10) = 10066330 / 2 ^ 25 ∧
    f32 (9 / 10) = 15099494 / 2 ^ 24 ∧
    f32 0 = 0 ∧ f32 1 = 1 ∧ f32 (-1 / 2) = -1 / 2 ∧ f32 16777215 = 16777215 ∧
    f32 (10066330 / 2 ^ 25) = 10066330 / 2 ^ 25 ∧
    f32 16777217 = 16777216 ∧ f32 16777219 = 16777220 ∧ f32 (-16777219) = -16777220 := by
  decide!


/-- C5 (counterexample). In `floatStopScene` the box of entity 2 overlaps the
unit box of wall 1 on both axes, by less horizontally.  With every operation of
lines 741-793 rounded to binary32, `resolveStopOnWall(1, 2)` moves the entity
from x = 0.3f to x = 14260633 / 2^24 (0.84999996...), where exact arithmetic
on the same inputs gives 28521267 / 2^25, half a unit in the last place more.
The left edge of the corrected box then lies 2^-25 inside the right edge 0.5 of
the wall: on the chosen (horizontal) axis the two boxes still meet in an
interval of length 2^-25, whether the bounds of the result are taken exactly or
again in binary32. -/
theorem resolveStopOnWall_binary32_residual_overlap :
    box_collides (unitBoxAt 0 0) ⟨⟨f32 (3 / 10), 0⟩, 0, ⟨f32 (7 / 10), f32 (7 / 10)⟩⟩ = true ∧
    (resolveStopOnWallWith f32 1 2 floatStopScene).map (fun s => s.positions)
      = some [(1, unitBoxAt 0 0),
          (2, ⟨⟨14260633 / 2 ^ 24, 0⟩, 0, ⟨f32 (7 / 10), f32 (7 / 10)⟩⟩)] ∧
    (resolveStopOnWall 1 2 floatStopScene).map (fun s => s.positions)
      = some [(1, unitBoxAt 0 0),
          (2, ⟨⟨28521267 / 2 ^ 25, 0⟩, 0, ⟨f32 (7 / 10), f32 (7 / 10)⟩⟩)] ∧
    overlapLength
        (get_bounds ⟨⟨14260633 / 2 ^ 24, 0⟩, 0, ⟨f32 (7 / 10), f32 (7 / 10)⟩⟩).v0
        (get_bounds ⟨⟨14260633 / 2 ^ 24, 0⟩, 0, ⟨f32 (7 / 10), f32 (7 / 10)⟩⟩).v1
        (get_bounds (unitBoxAt 0 0)).v0 (get_bounds (unitBoxAt 0 0)).v1 = 1 / 2 ^ 25 ∧
    overlapLength
        (get_bounds_with f32 ⟨⟨14260633 / 2 ^ 24, 0⟩, 0, ⟨f32 (7 / 10), f32 (7 / 10)⟩⟩).v0
        (get_bounds_with f32 ⟨⟨14260633 / 2 ^ 24, 0⟩, 0, ⟨f32 (7 / 10), f32 (7 / 10)⟩⟩).v1
        (get_bounds_with f32 (unitBoxAt 0 0)).v0 (get_bounds_with f32 (unitBoxAt 0 0)).v1
      = 1 / 2 ^ 25 := by
  decide!

/-- C27 (counterexample). In `floatStopScene` the two boxes overlap with
positive extent on both axes.  With every operation rounded to binary32, one
application of `resolveStopOnWall(1, 2)` leaves the entity at
x = 14260633 / 2^24 with a residual overlap of 2^-25, and a second application
pushes again, by that amount rounded at the position: the entity ends at
x = 14260634 / 2^24, one unit in the last place further.  Twice is not the same
as once. -/
theorem resolveStopOnWall_binary32_second_push_moves :
    box_collides (unitBoxAt 0 0) ⟨⟨f32 (3 / 10), 0⟩, 0, ⟨f32 (7 / 10), f32 (7 / 10)⟩⟩ = true ∧
    (resolveStopOnWallWith f32 1 2 floatStopScene).map (fun s => (s.positions, s.motions))
      = some ([(1, unitBoxAt 0 0),
          (2, ⟨⟨14260633 / 2 ^ 24, 0⟩, 0, ⟨f32 (7 / 10), f32 (7 / 10)⟩⟩)],
          [(2, ⟨⟨0, 0⟩, ⟨0, 0⟩⟩)]) ∧
    ((resolveStopOnWallWith f32 1 2 floatStopScene).bind (resolveStopOnWallWith f32 1 2)).map
        (fun s => (s.positions, s.motions))
      = some ([(1, unitBoxAt 0 0),
          (2, ⟨⟨14260634 / 2 ^ 24, 0⟩, 0, ⟨f32 (7 / 10), f32 (7 / 10)⟩⟩)],
          [(2, ⟨⟨0, 0⟩, ⟨0, 0⟩⟩)]) ∧
    ((resolveStopOnWallWith f32 1 2 floatStopScene).bind (resolveStopOnWallWith f32 1 2)).map
        (fun s => s.positions)
      ≠ (resolveStopOnWallWith f32 1 2 floatStopScene).map (fun s => s.positions) := by
  decide!

/-- C29 (counterexample). In `floatMassScene` both bodies have mass 5 and the
velocity 0.92f = 15435039 / 2^24 on the collision axis, so they are not
separating.  In binary32 each momentum 5 * 0.92f = 77175195 / 2^24 rounds down
to 9646899 / 2^21; the sum of the two momenta and the mass sum 10 are exact, and
the quotient rounds to `v_final` = 15435038 / 2^24, which is written to both
bodies and lies below both velocities before the collision.  No step is a tie,
and the result is the same when the sum and the divisor are not rounded before
the division. -/
theorem resolveMassCollision_binary32_below_min :
    (0 : Rat) < (⟨5⟩ : Mass).mass ∧
    ¬ separating (unitBoxAt 0 0) (unitBoxAt (1 / 2) 0)
      ⟨⟨f32 (92 / 100), 0⟩, ⟨0, 0⟩⟩ ⟨⟨f32 (92 / 100), 0⟩, ⟨0, 0⟩⟩ ∧
    f32 (92 / 100) = 15435039 / 2 ^ 24 ∧
    f32 (5 * f32 (92 / 100)) = 9646899 / 2 ^ 21 ∧
    f32 (9646899 / 2 ^ 21 + 9646899 / 2 ^ 21) = 9646899 / 2 ^ 21 + 9646899 / 2 ^ 21 ∧
    f32 (5 + 5) = 5 + 5 ∧
    f32 ((9646899 / 2 ^ 21 + 9646899 / 2 ^ 21) / (5 + 5)) = 15435038 / 2 ^ 24 ∧
    (resolveMassCollisionWith f32 1 2 floatMassScene).map (fun s => s.motions)
      = some [(1, ⟨⟨15435038 / 2 ^ 24, 0⟩, ⟨0, 0⟩⟩), (2, ⟨⟨15435038 / 2 ^ 24, 0⟩, ⟨0, 0⟩⟩)] ∧
    (15435038 / 2 ^ 24 : Rat) < min (f32 (92 / 100)) (f32 (92 / 100)) := by
  refine ⟨by decide!, ?_, by decide!, by decide!, by decide!, by decide!, by decide!,
    by decide!, by decide!⟩
  unfold separating
  decide!

/-! ### Witnesses -/

/-- Witness for C1 on the two-enemy scene with a CONCUSSIVE projectile. -/
theorem collision_detection_symmetric_witness :
    (twoEnemyScene PROJECTILES.CONCUSSIVE).collisions = [] ∧
    ∃ r2, collision_detection sampleExt (twoEnemyScene PROJECTILES.CONCUSSIVE) = some r2 ∧
      ∀ i j, (i, (⟨j⟩ : Collision)) ∈ r2.collisions → (j, (⟨i⟩ : Collision)) ∈ r2.collisions :=
  ⟨rfl, (collision_detection_symmetric sampleExt (twoEnemyScene PROJECTILES.CONCUSSIVE) rfl).1⟩

/-- Witness for C2 (amended) on `loadedScene`. -/
theorem collision_detection_excludes_loaded_witness :
    loadedScene.playerProjectiles.get 2 = some ⟨true, PROJECTILES.HARPOON, false⟩ ∧
    onlyProjectile loadedScene 2 ∧
    ∃ l, collision_detection sampleExt loadedScene
        = some { loadedScene with collisions := loadedScene.collisions ++ l } ∧
      ∀ x, x ∈ l → x.1 ≠ 2 ∧ x.2.other ≠ 2 :=
  ⟨rfl, ⟨rfl, rfl, rfl, rfl, rfl, rfl, rfl, rfl⟩,
    collision_detection_excludes_loaded sampleExt loadedScene 2
      ⟨true, PROJECTILES.HARPOON, false⟩ rfl rfl ⟨rfl, rfl, rfl, rfl, rfl, rfl, rfl, rfl⟩⟩

/-- Witness for C4 on the two-enemy scene with a CONCUSSIVE projectile. -/
theorem multi_hit_records_every_enemy_witness :
    (twoEnemyScene PROJECTILES.CONCUSSIVE).positions.has 1 = true ∧
    (twoEnemyScene PROJECTILES.CONCUSSIVE).playerProjectiles.get 1
      = some ⟨false, PROJECTILES.CONCUSSIVE, false⟩ ∧
    ∃ r2, detectPlayerProjectileCollisions sampleExt (twoEnemyScene PROJECTILES.CONCUSSIVE)
        = some r2 ∧
      ∀ e, e ∈ (twoEnemyScene PROJECTILES.CONCUSSIVE).deadlys.entities →
        (twoEnemyScene PROJECTILES.CONCUSSIVE).positions.has e = true →
        circleHit sampleExt (twoEnemyScene PROJECTILES.CONCUSSIVE) 1 e = true →
        (1, (⟨e⟩ : Collision)) ∈ r2.collisions ∧ (e, (⟨1⟩ : Collision)) ∈ r2.collisions :=
  ⟨rfl, rfl,
    multi_hit_records_every_enemy sampleExt (twoEnemyScene PROJECTILES.CONCUSSIVE) 1
      ⟨false, PROJECTILES.CONCUSSIVE, false⟩ (Or.inl rfl) rfl rfl rfl⟩

/-- Witness for C5 (amended): wall 1 at the origin and body 2 at (1/2, 0) in
`massScene`. -/
theorem resolveStopOnWall_separates_witness :
    box_collides (unitBoxAt 0 0) (unitBoxAt (1 / 2) 0) = true ∧
    ∃ r2 corrected, resolveStopOnWall 1 2 (massScene (1 / 2) (-1)) = some r2 ∧
      r2.positions.get 2 = some corrected ∧
      r2.positions.get 1 = some (unitBoxAt 0 0) ∧
      (if stopAxisIsX (unitBoxAt 0 0) (unitBoxAt (1 / 2) 0) then
        pushX (unitBoxAt 0 0) (unitBoxAt (1 / 2) 0) ≠ 0 ∧
        overlapLength (get_bounds corrected).v0 (get_bounds corrected).v1
          (get_bounds (unitBoxAt 0 0)).v0 (get_bounds (unitBoxAt 0 0)).v1 = 0
       else
        pushY (unitBoxAt 0 0) (unitBoxAt (1 / 2) 0) ≠ 0 ∧
        overlapLength (get_bounds corrected).v2 (get_bounds corrected).v3
          (get_bounds (unitBoxAt 0 0)).v2 (get_bounds (unitBoxAt 0 0)).v3 = 0) :=
  ⟨by norm_num [box_collides, get_bounds, unitBoxAt],
    resolveStopOnWall_separates (massScene (1 / 2) (-1)) 1 2 (unitBoxAt 0 0)
      (unitBoxAt (1 / 2) 0) rfl rfl (by decide)
      (by norm_num [box_collides, get_bounds, unitBoxAt])⟩

/-- Witness for C6: masses 3 and 1 in `massScene`. -/
theorem resolveMassCollision_conserves_momentum_witness :
    (3 : Rat) + 1 ≠ 0 ∧
    ∃ r2 wall_motion2 other_motion2,
      resolveMassCollision 1 2 (massScene (1 / 2) (-1)) = some r2 ∧
      r2.motions.get 1 = some wall_motion2 ∧ r2.motions.get 2 = some other_motion2 ∧
      r2.masses = (massScene (1 / 2) (-1)).masses ∧
      3 * onAxis (massAxisIsX (unitBoxAt 0 0) (unitBoxAt (1 / 2) 0)) wall_motion2.velocity +
        1 * onAxis (massAxisIsX (unitBoxAt 0 0) (unitBoxAt (1 / 2) 0)) other_motion2.velocity
      = 3 * onAxis (massAxisIsX (unitBoxAt 0 0) (unitBoxAt (1 / 2) 0)) (⟨0, 0⟩ : vec2) +
        1 * onAxis (massAxisIsX (unitBoxAt 0 0) (unitBoxAt (1 / 2) 0)) (⟨-1, 0⟩ : vec2) :=
  ⟨by norm_num,
    resolveMassCollision_conserves_momentum (massScene (1 / 2) (-1)) 1 2
      ⟨⟨0, 0⟩, ⟨0, 0⟩⟩ ⟨⟨-1, 0⟩, ⟨0, 0⟩⟩ (unitBoxAt 0 0) (unitBoxAt (1 / 2) 0) ⟨3⟩ ⟨1⟩
      rfl rfl rfl rfl rfl rfl (by norm_num)⟩

/-- Witness for C7 (amended): in `massScene (1/2) (-1)` the body of mass 1 moves
towards the wall of mass 3. -/
theorem resolveMassCollision_equal_velocity_witness :
    (⟨3⟩ : Mass).mass + (⟨1⟩ : Mass).mass ≠ 0 ∧
    ¬ separating (unitBoxAt 0 0) (unitBoxAt (1 / 2) 0) ⟨⟨0, 0⟩, ⟨0, 0⟩⟩ ⟨⟨-1, 0⟩, ⟨0, 0⟩⟩ ∧
    ∃ r2 wall_motion2 other_motion2,
      resolveMassCollision 1 2 (massScene (1 / 2) (-1)) = some r2 ∧
      r2.motions.get 1 = some wall_motion2 ∧ r2.motions.get 2 = some other_motion2 ∧
      onAxis (massAxisIsX (unitBoxAt 0 0) (unitBoxAt (1 / 2) 0)) wall_motion2.velocity
        = onAxis (massAxisIsX (unitBoxAt 0 0) (unitBoxAt (1 / 2) 0)) other_motion2.velocity ∧
      onAxis (massAxisIsX (unitBoxAt 0 0) (unitBoxAt (1 / 2) 0)) wall_motion2.velocity
        = massFinalVelocity (massAxisIsX (unitBoxAt 0 0) (unitBoxAt (1 / 2) 0)) ⟨3⟩ ⟨1⟩
            ⟨⟨0, 0⟩, ⟨0, 0⟩⟩ ⟨⟨-1, 0⟩, ⟨0, 0⟩⟩ ∧
      ((⟨3⟩ : Mass).mass + (⟨1⟩ : Mass).mass) *
          onAxis (massAxisIsX (unitBoxAt 0 0) (unitBoxAt (1 / 2) 0)) wall_motion2.velocity
        = (⟨3⟩ : Mass).mass *
            onAxis (massAxisIsX (unitBoxAt 0 0) (unitBoxAt (1 / 2) 0)) (⟨⟨0, 0⟩, ⟨0, 0⟩⟩ : Motion).velocity +
          (⟨1⟩ : Mass).mass *
            onAxis (massAxisIsX (unitBoxAt 0 0) (unitBoxAt (1 / 2) 0)) (⟨⟨-1, 0⟩, ⟨0, 0⟩⟩ : Motion).velocity :=
  ⟨by norm_num, by norm_num [separating, massAxisIsX, onAxis, unitBoxAt],
    resolveMassCollision_equal_velocity (massScene (1 / 2) (-1)) 1 2
      ⟨⟨0, 0⟩, ⟨0, 0⟩⟩ ⟨⟨-1, 0⟩, ⟨0, 0⟩⟩ (unitBoxAt 0 0) (unitBoxAt (1 / 2) 0) ⟨3⟩ ⟨1⟩
      rfl rfl rfl rfl rfl rfl (by norm_num)
      (by norm_num [separating, massAxisIsX, onAxis, unitBoxAt])⟩

/-- Witness for C10 (amended): player 1 (mesh 1) and door 2 at the same place,
equipped projectile 3. -/
theorem door_collision_creates_two_room_transitions_witness :
    sampleExt.box_collides (unitBoxAt 0 0) (unitBoxAt 0 0) = true ∧
    ∃ r2, step sampleExt (doorFrame 1 1 2 3 (unitBoxAt 0 0) (unitBoxAt 0 0)
        (some ⟨⟨1, 0⟩, ⟨0, 0⟩⟩) ⟨⟨0, 0⟩, ⟨0, 0⟩⟩ ⟨7⟩) = some r2 ∧
      (doorFrame 1 1 2 3 (unitBoxAt 0 0) (unitBoxAt 0 0)
        (some ⟨⟨1, 0⟩, ⟨0, 0⟩⟩) ⟨⟨0, 0⟩, ⟨0, 0⟩⟩ ⟨7⟩).roomTransitions = [] ∧
      r2.roomTransitions.length = 2 ∧
      r2.roomTransitions = [(100, ⟨⟨7⟩⟩), (101, ⟨⟨7⟩⟩)] ∧
      r2.rt_entity = 101 :=
  ⟨by norm_num [sampleExt, box_collides, get_bounds, unitBoxAt],
    door_collision_creates_two_room_transitions sampleExt 1 1 2 3 (unitBoxAt 0 0) (unitBoxAt 0 0)
      ⟨⟨1, 0⟩, ⟨0, 0⟩⟩ ⟨⟨0, 0⟩, ⟨0, 0⟩⟩ ⟨7⟩ (by decide) (by decide) (by decide)
      (by norm_num [sampleExt, box_collides, get_bounds, unitBoxAt])
      (by norm_num [sampleExt, doorFrame, emptyRegistry, ComponentContainer.get, box_collides,
        get_bounds, unitBoxAt])⟩

/-- Witness for C12 on `loadedScene`, whose collision table is empty. -/
theorem collision_resolution_empty_noop_witness :
    loadedScene.collisions = [] ∧
    collision_resolution_loop sampleExt loadedScene.collisions.length 0 loadedScene
      = some loadedScene ∧
    collision_resolution sampleExt loadedScene = some loadedScene ∧
    (collision_resolution sampleExt loadedScene).bind (collision_resolution sampleExt)
      = some loadedScene :=
  ⟨rfl, collision_resolution_empty_noop sampleExt loadedScene rfl⟩

/-- Witness for C14: in `loadedScene` the wall 1 has no Motion. -/
theorem route_wall_door_without_motion_witness :
    loadedScene.motions.has 1 = false ∧
    routeWallCollisions sampleExt 5 1 loadedScene = some loadedScene ∧
    routeDoorCollisions sampleExt 5 1 loadedScene = some loadedScene :=
  ⟨rfl, route_wall_door_without_motion sampleExt loadedScene 5 1 rfl⟩

/-- Witness for C19 (amended): a HARPOON projectile with Motion. -/
theorem resolveEnemyPlayerProjCollision_damages_with_motion_witness :
    (hitScene PROJECTILES.HARPOON true).playerProjectiles.get 1
      = some ⟨false, PROJECTILES.HARPOON, false⟩ ∧
    (hitScene PROJECTILES.HARPOON true).motions.has 1 = true ∧
    (∀ r2, resolveEnemyPlayerProjCollision sampleExt 2 1 (hitScene PROJECTILES.HARPOON true)
        = some r2 →
      ∃ rest, r2.calls = (hitScene PROJECTILES.HARPOON true).calls ++
        Call.modifyOxygen 2 1 :: rest) ∧
    (((⟨false, PROJECTILES.HARPOON, false⟩ : PlayerProjectile).type = PROJECTILES.TORPEDO →
        ∃ r3, detectAndResolveExplosion sampleExt 1 2
          (modifyOxygen 2 1 (hitScene PROJECTILES.HARPOON true)) = some r3) →
      ∃ r2, resolveEnemyPlayerProjCollision sampleExt 2 1 (hitScene PROJECTILES.HARPOON true)
        = some r2) :=
  ⟨rfl, rfl,
    resolveEnemyPlayerProjCollision_damages_with_motion sampleExt 2 1
      (hitScene PROJECTILES.HARPOON true) ⟨false, PROJECTILES.HARPOON, false⟩ rfl rfl⟩

/-- Witness for C20: a NET projectile with Motion (3, 0). -/
theorem resolveEnemyPlayerProjCollision_stops_projectile_witness :
    (hitScene PROJECTILES.NET true).playerProjectiles.get 1
      = some ⟨false, PROJECTILES.NET, false⟩ ∧
    (hitScene PROJECTILES.NET true).motions.get 1 = some ⟨⟨3, 0⟩, ⟨0, 0⟩⟩ ∧
    (∀ r2, resolveEnemyPlayerProjCollision sampleExt 2 1 (hitScene PROJECTILES.NET true)
        = some r2 →
      ((PROJECTILES.NET = PROJECTILES.HARPOON ∨ PROJECTILES.NET = PROJECTILES.NET ∨
          PROJECTILES.NET = PROJECTILES.TORPEDO) →
        r2.motions.get 1 = some ⟨⟨0, 0⟩, ⟨0, 0⟩⟩ ∧
        r2.playerProjectiles.get 1 = some ⟨true, PROJECTILES.NET, false⟩) ∧
      ((PROJECTILES.NET = PROJECTILES.CONCUSSIVE ∨ PROJECTILES.NET = PROJECTILES.SHRIMP) →
        r2.motions.get 1 = some ⟨⟨3, 0⟩, ⟨0, 0⟩⟩ ∧
        r2.playerProjectiles.get 1 = some ⟨false, PROJECTILES.NET, false⟩)) ∧
    ((PROJECTILES.NET = PROJECTILES.TORPEDO →
        ∃ r3, detectAndResolveExplosion sampleExt 1 2
          (modifyOxygen 2 1 (hitScene PROJECTILES.NET true)) = some r3) →
      ∃ r2, resolveEnemyPlayerProjCollision sampleExt 2 1 (hitScene PROJECTILES.NET true)
        = some r2) :=
  ⟨rfl, rfl,
    resolveEnemyPlayerProjCollision_stops_projectile sampleExt 2 1
      (hitScene PROJECTILES.NET true) ⟨false, PROJECTILES.NET, false⟩ ⟨⟨3, 0⟩, ⟨0, 0⟩⟩ rfl rfl⟩

/-- Witness for C13 on the HARPOON frame after detection, whose table holds
the two records of the pair (projectile 1, enemy 2). -/
theorem collision_resolution_clears_witness :
    ∃ r2, collision_resolution sampleExt
        { harpoonFrame 1 2 3 1 (unitBoxAt 0 0) (unitBoxAt (1 / 2) 0) (unitBoxAt 0 (1 / 2))
            ⟨⟨3, 0⟩, ⟨0, 0⟩⟩ with collisions := [(1, ⟨2⟩), (2, ⟨1⟩)] } = some r2 ∧
      r2.collisions = [] :=
  ⟨_, resolution_harpoonFrame sampleExt 1 2 3 1 (unitBoxAt 0 0) (unitBoxAt (1 / 2) 0)
      (unitBoxAt 0 (1 / 2)) ⟨⟨3, 0⟩, ⟨0, 0⟩⟩ (by decide) (by decide),
    (collision_resolution_clears sampleExt _).1 _
      (resolution_harpoonFrame sampleExt 1 2 3 1 (unitBoxAt 0 0) (unitBoxAt (1 / 2) 0)
        (unitBoxAt 0 (1 / 2)) ⟨⟨3, 0⟩, ⟨0, 0⟩⟩ (by decide) (by decide))⟩

/-- Witness for C15: enemy 2 has the flag and the other entity 1 is a player. -/
theorem routeEnemyCollisions_clears_flag_witness :
    flaggedEnemyScene.actsAsProjectile.has 2 = true ∧
    ∃ r2, routeEnemyCollisions sampleExt 2 1 flaggedEnemyScene = some r2 ∧
      r2.actsAsProjectile = flaggedEnemyScene.actsAsProjectile.remove 2 ∧
      r2.actsAsProjectile.has 2 = false :=
  ⟨rfl, _, rfl,
    (routeEnemyCollisions_clears_flag sampleExt 2 1 flaggedEnemyScene).1 _ rfl, rfl⟩

/-- Witness for C16: HARPOON projectile 1 hits enemy 2 while projectile 9 is
the equipped one. -/
theorem routePlayerProjCollisions_destroys_iff_witness :
    (harpoonFrame 1 2 3 9 (unitBoxAt 0 0) (unitBoxAt 0 0) (unitBoxAt 0 0)
      ⟨⟨3, 0⟩, ⟨0, 0⟩⟩).playerProjectiles.get 1 = some ⟨false, PROJECTILES.HARPOON, false⟩ ∧
    ∃ r3, routePlayerProjDispatch sampleExt 1 2
        (harpoonFrame 1 2 3 9 (unitBoxAt 0 0) (unitBoxAt 0 0) (unitBoxAt 0 0)
          ⟨⟨3, 0⟩, ⟨0, 0⟩⟩) = some r3 ∧
      routePlayerProjCollisions sampleExt 1 2
        (harpoonFrame 1 2 3 9 (unitBoxAt 0 0) (unitBoxAt 0 0) (unitBoxAt 0 0)
          ⟨⟨3, 0⟩, ⟨0, 0⟩⟩) = some (destroyGunOrProjectile 1 r3) :=
  ⟨rfl, _, rfl,
    (routePlayerProjCollisions_destroys_iff sampleExt 1 2
      (harpoonFrame 1 2 3 9 (unitBoxAt 0 0) (unitBoxAt 0 0) (unitBoxAt 0 0) ⟨⟨3, 0⟩, ⟨0, 0⟩⟩)
      _ ⟨false, PROJECTILES.HARPOON, false⟩ rfl rfl).1⟩

/-- Witness for C17 (amended) on the HARPOON frame, which has no enemy
projectile. -/
theorem detection_phase_order_and_table_order_routing_witness :
    collision_detection sampleExt
      (harpoonFrame 1 2 3 1 (unitBoxAt 0 0) (unitBoxAt (1 / 2) 0) (unitBoxAt 0 (1 / 2))
        ⟨⟨3, 0⟩, ⟨0, 0⟩⟩)
      = some { harpoonFrame 1 2 3 1 (unitBoxAt 0 0) (unitBoxAt (1 / 2) 0) (unitBoxAt 0 (1 / 2))
          ⟨⟨3, 0⟩, ⟨0, 0⟩⟩ with collisions := [(1, ⟨2⟩), (2, ⟨1⟩)] } ∧
    step sampleExt
      (harpoonFrame 1 2 3 1 (unitBoxAt 0 0) (unitBoxAt (1 / 2) 0) (unitBoxAt 0 (1 / 2))
        ⟨⟨3, 0⟩, ⟨0, 0⟩⟩)
      = (routeInTableOrder sampleExt [(1, ⟨2⟩), (2, ⟨1⟩)]
          { harpoonFrame 1 2 3 1 (unitBoxAt 0 0) (unitBoxAt (1 / 2) 0) (unitBoxAt 0 (1 / 2))
            ⟨⟨3, 0⟩, ⟨0, 0⟩⟩ with collisions := [(1, ⟨2⟩), (2, ⟨1⟩)] }).map
          fun r1 => { r1 with collisions := [] } :=
  ⟨detection_harpoonFrame sampleExt 1 2 3 1 (unitBoxAt 0 0) (unitBoxAt (1 / 2) 0)
      (unitBoxAt 0 (1 / 2)) ⟨⟨3, 0⟩, ⟨0, 0⟩⟩ (by decide)
      (by norm_num [sampleExt, circle_collides, unitBoxAt, vec2.sub, vec2.dot]),
    (detection_phase_order_and_table_order_routing sampleExt _ _
      (detection_harpoonFrame sampleExt 1 2 3 1 (unitBoxAt 0 0) (unitBoxAt (1 / 2) 0)
        (unitBoxAt 0 (1 / 2)) ⟨⟨3, 0⟩, ⟨0, 0⟩⟩ (by decide)
        (by norm_num [sampleExt, circle_collides, unitBoxAt, vec2.sub, vec2.dot]))
      (by
        intro rec hrec
        rfl)).2.2⟩

/-- Witness for C18 (amended): enemy 2 with `curr_cd = 5` that carries no other
tag is in no record, and with `curr_cd = 0` its pair with player 1 is
recorded. -/
theorem detectPlayerCollisions_cooldown_guard_witness :
    (∃ l, detectPlayerCollisions sampleExt (cooldownScene 5 false)
        = some { cooldownScene 5 false with
            collisions := (cooldownScene 5 false).collisions ++ l } ∧
      ∀ x, x ∈ l → x.1 ≠ 2 ∧ x.2.other ≠ 2) ∧
    (∃ l, detectPlayerCollisions sampleExt (cooldownScene 0 false)
        = some { cooldownScene 0 false with
            collisions := (cooldownScene 0 false).collisions ++ l } ∧
      (1, (⟨2⟩ : Collision)) ∈ l ∧ (2, (⟨1⟩ : Collision)) ∈ l) :=
  ⟨(detectPlayerCollisions_cooldown_guard sampleExt (cooldownScene 5 false) 2).1 ⟨5⟩ rfl
      (by norm_num) rfl rfl rfl,
    (detectPlayerCollisions_cooldown_guard sampleExt (cooldownScene 0 false) 2).2 1 ⟨1⟩ rfl
      (Or.inl rfl) (Or.inr ⟨⟨0⟩, rfl, le_refl _⟩)
      (by
        intro c
        simp [meshHit, boxHit, cooldownScene, emptyRegistry, sampleExt, box_collides,
          get_bounds, unitBoxAt, ComponentContainer.get])⟩

/-- Witness for C24 (amended): in `equalVelocityScene 3 1` both bodies move
with velocity (2, 0) and the masses are 3 and 1. -/
theorem resolveMassCollision_non_closing_unchanged_witness :
    (equalVelocityScene 3 1).motions.get 1 = some ⟨⟨2, 0⟩, ⟨0, 0⟩⟩ ∧
    (3 : Rat) + 1 ≠ 0 ∧
    massFinalVelocity (massAxisIsX (unitBoxAt 0 0) (unitBoxAt (1 / 2) 0)) ⟨3⟩ ⟨1⟩
        ⟨⟨2, 0⟩, ⟨0, 0⟩⟩ ⟨⟨2, 0⟩, ⟨0, 0⟩⟩
      = onAxis (massAxisIsX (unitBoxAt 0 0) (unitBoxAt (1 / 2) 0)) (⟨2, 0⟩ : vec2) ∧
    resolveMassCollision 1 2 (equalVelocityScene 3 1) = some (equalVelocityScene 3 1) :=
  ⟨rfl, by norm_num,
    ((resolveMassCollision_non_closing_unchanged (equalVelocityScene 3 1) 1 2
      ⟨⟨2, 0⟩, ⟨0, 0⟩⟩ ⟨⟨2, 0⟩, ⟨0, 0⟩⟩ (unitBoxAt 0 0) (unitBoxAt (1 / 2) 0)
      rfl rfl rfl rfl).2 ⟨3⟩ ⟨1⟩ rfl rfl rfl (by norm_num)).2⟩

/-- Witness for C29 (amended): masses 3 and 1 in `massScene (1/2) (-1)`, where the body
moves towards the wall. -/
theorem resolveMassCollision_v_final_between_witness :
    (0 : Rat) < 3 ∧ (0 : Rat) < 1 ∧
    ¬ separating (unitBoxAt 0 0) (unitBoxAt (1 / 2) 0) ⟨⟨0, 0⟩, ⟨0, 0⟩⟩ ⟨⟨-1, 0⟩, ⟨0, 0⟩⟩ ∧
    (3 : Rat) + 1 ≠ 0 ∧
    ∃ r2 wall_motion2 other_motion2 v_final,
      resolveMassCollision 1 2 (massScene (1 / 2) (-1)) = some r2 ∧
      r2.motions.get 1 = some wall_motion2 ∧ r2.motions.get 2 = some other_motion2 ∧
      onAxis (massAxisIsX (unitBoxAt 0 0) (unitBoxAt (1 / 2) 0)) wall_motion2.velocity
        = v_final ∧
      onAxis (massAxisIsX (unitBoxAt 0 0) (unitBoxAt (1 / 2) 0)) other_motion2.velocity
        = v_final ∧
      v_final =
        (3 * onAxis (massAxisIsX (unitBoxAt 0 0) (unitBoxAt (1 / 2) 0)) (⟨0, 0⟩ : vec2) +
          1 * onAxis (massAxisIsX (unitBoxAt 0 0) (unitBoxAt (1 / 2) 0)) (⟨-1, 0⟩ : vec2)) /
        (3 + 1) ∧
      min (onAxis (massAxisIsX (unitBoxAt 0 0) (unitBoxAt (1 / 2) 0)) (⟨0, 0⟩ : vec2))
          (onAxis (massAxisIsX (unitBoxAt 0 0) (unitBoxAt (1 / 2) 0)) (⟨-1, 0⟩ : vec2))
        ≤ v_final ∧
      v_final ≤ max (onAxis (massAxisIsX (unitBoxAt 0 0) (unitBoxAt (1 / 2) 0)) (⟨0, 0⟩ : vec2))
          (onAxis (massAxisIsX (unitBoxAt 0 0) (unitBoxAt (1 / 2) 0)) (⟨-1, 0⟩ : vec2)) :=
  ⟨by norm_num, by norm_num,
    by norm_num [separating, massAxisIsX, onAxis, unitBoxAt],
    resolveMassCollision_v_final_between (massScene (1 / 2) (-1)) 1 2
      ⟨⟨0, 0⟩, ⟨0, 0⟩⟩ ⟨⟨-1, 0⟩, ⟨0, 0⟩⟩ (unitBoxAt 0 0) (unitBoxAt (1 / 2) 0) ⟨3⟩ ⟨1⟩
      rfl rfl rfl rfl rfl rfl (by norm_num) (by norm_num)
      (by norm_num [separating, massAxisIsX, onAxis, unitBoxAt])⟩

/-- Witness for C26: in `massScene (1/2) (-1)` the body 2 moves with velocity
(-1, 0), is no boss and has no tracking component. -/
theorem resolveWallEnemyCollision_inverts_motion_witness :
    (massScene (1 / 2) (-1)).motions.get 2 = some ⟨⟨-1, 0⟩, ⟨0, 0⟩⟩ ∧
    (massScene (1 / 2) (-1)).bosses.has 2 = false ∧
    ∃ r2 m2 p2, resolveWallEnemyCollision sampleExt 1 2 (massScene (1 / 2) (-1)) = some r2 ∧
      r2.motions.get 2 = some m2 ∧
      m2.velocity = ⟨-(-1), -0⟩ ∧
      m2.acceleration = ⟨-0, -0⟩ ∧
      r2.positions.get 2 = some p2 ∧
      (m2.velocity.x > 0 → p2.scale.x = -|(unitBoxAt (1 / 2) 0).scale.x|) ∧
      (¬ m2.velocity.x > 0 → p2.scale.x = |(unitBoxAt (1 / 2) 0).scale.x|) ∧
      p2.scale.y = (unitBoxAt (1 / 2) 0).scale.y :=
  ⟨rfl, rfl,
    resolveWallEnemyCollision_inverts_motion sampleExt (massScene (1 / 2) (-1)) 1 2
      ⟨⟨-1, 0⟩, ⟨0, 0⟩⟩ (unitBoxAt (1 / 2) 0) (unitBoxAt 0 0) rfl rfl rfl rfl (Or.inl rfl)⟩

/-- Witness for C27 (amended): the unit boxes of wall 1 and body 2 in
`massScene (1/2) (-1)` overlap. -/
theorem resolveStopOnWall_idempotent_witness :
    box_collides (unitBoxAt 0 0) (unitBoxAt (1 / 2) 0) = true ∧
    ∃ r1 corrected, resolveStopOnWall 1 2 (massScene (1 / 2) (-1)) = some r1 ∧
      r1.positions.get 2 = some corrected ∧
      stopAxisIsX (unitBoxAt 0 0) corrected
        = stopAxisIsX (unitBoxAt 0 0) (unitBoxAt (1 / 2) 0) ∧
      (if stopAxisIsX (unitBoxAt 0 0) (unitBoxAt (1 / 2) 0) then
        pushX (unitBoxAt 0 0) corrected = 0
       else pushY (unitBoxAt 0 0) corrected = 0) ∧
      resolveStopOnWall 1 2 r1 = some r1 ∧
      (resolveStopOnWall 1 2 (massScene (1 / 2) (-1))).bind (resolveStopOnWall 1 2)
        = resolveStopOnWall 1 2 (massScene (1 / 2) (-1)) :=
  ⟨by norm_num [box_collides, get_bounds, unitBoxAt],
    resolveStopOnWall_idempotent (massScene (1 / 2) (-1)) 1 2 (unitBoxAt 0 0)
      (unitBoxAt (1 / 2) 0) rfl rfl (by decide)
      (by norm_num [box_collides, get_bounds, unitBoxAt])⟩

/-- Witness for C22 on `explosionGapScene`: torpedo 1 hits enemy 2 while enemy
3 has no Position. -/
theorem detectAndResolveExplosion_reads_missing_position_witness :
    explosionGapScene.positions.get 1 = some (unitBoxAt 0 0) ∧
    explosionGapScene.aoe.get 1 = some ⟨5⟩ ∧
    explosionGapScene.positions.has 2 = true ∧
    explosionGapScene.positions.get 3 = none ∧
    (3 : Entity) ∈ explosionGapScene.deadlys.entities ∧
    ((3 : Entity) = 2 || !explosionGapScene.positions.has 2) = false ∧
    explosionGapScene.positions.has 3 = false ∧
    explosionScan sampleExt 1 2 3 explosionGapScene = none ∧
    detectAndResolveExplosion sampleExt 1 2 explosionGapScene = none :=
  ⟨rfl, rfl, rfl, rfl, by decide,
    detectAndResolveExplosion_reads_missing_position sampleExt explosionGapScene 1 2 3
      (unitBoxAt 0 0) ⟨5⟩ rfl rfl rfl (by decide) rfl (Or.inl (by decide))⟩

/-- Witness for C3 (amended) on `wallAndEnemiesFrame`: the HARPOON projectile 1
is within reach of the enemies 2 and 3 and of the active wall 4, which is not an
enemy; enemy 2 is the first circle hit. -/
theorem single_target_records_first_enemy_only_witness :
    wallAndEnemiesFrame.playerProjectiles.get 1 = some ⟨false, PROJECTILES.HARPOON, false⟩ ∧
    wallAndEnemiesFrame.deadlys.entities = [2, 3] ∧
    wallAndEnemiesFrame.activeWalls.entities = [4] ∧
    ∃ l, detectPlayerProjectileCollisions sampleExt wallAndEnemiesFrame
        = some { wallAndEnemiesFrame with collisions := wallAndEnemiesFrame.collisions ++ l } ∧
      (∀ e, e ∈ wallAndEnemiesFrame.deadlys.entities →
        ((1, (⟨e⟩ : Collision)) ∈ l ↔ firstEnemyHit sampleExt wallAndEnemiesFrame 1 = some e) ∧
        ((e, (⟨1⟩ : Collision)) ∈ l ↔ firstEnemyHit sampleExt wallAndEnemiesFrame 1 = some e)) ∧
      (∀ e1 e2, e1 ∈ wallAndEnemiesFrame.deadlys.entities →
        e2 ∈ wallAndEnemiesFrame.deadlys.entities →
        (1, (⟨e1⟩ : Collision)) ∈ l → (1, (⟨e2⟩ : Collision)) ∈ l → e1 = e2) :=
  ⟨rfl, rfl, rfl,
    single_target_records_first_enemy_only sampleExt wallAndEnemiesFrame 1
      ⟨false, PROJECTILES.HARPOON, false⟩ (Or.inl rfl) rfl rfl rfl (by decide) rfl rfl
      (by
        intro w hw
        have hw4 : w = 4 := by simpa [wallAndEnemiesFrame, ComponentContainer.entities] using hw
        subst hw4
        rfl)⟩

end Bermuda
